import Mathlib

/-!
# Weaver shard: node-program runtime, transaction applier and migration engine

A shallow embedding of `src/db/shard.cc` (and the node programs it dispatches to).
Stateful code is written in state-passing style over the record `shard`; network
sends, work-queue insertions and graph-store calls are collected in traces.
Headers that are not among the sources (`shard.h`, `event_order.h`,
`weaver_constants.h`) are represented by parameters.
-/

namespace Weaver

/-! ## Constants and clocks -/

/-- Constants of `common/weaver_constants.h`, with `BUSYBEE_HEADER_SIZE` of the messaging
library; the headers are not among the sources, so the values are parameters of every
definition that uses them. `CLDG` selects the communication-based scoring of
`migration_wrapper`. -/
structure weaver_constants where
  NUM_SHARDS : Nat
  SHARD_ID_INCR : Nat
  NUM_VTS : Nat
  NUM_THREADS : Nat
  SHARD_CAP : Nat := 1
  CLDG : Bool := false
  MAX_UINT64 : Nat := 2 ^ 64 - 1
  BUSYBEE_HEADER_SIZE : Nat := 0
  COORD_ID : Nat := 0
deriving DecidableEq, Repr

/-- Vector clock `vc::vclock`: the identifier of the minting timestamper and one counter
per timestamper. -/
structure vclock where
  vt_id : Nat
  clock : List Nat
deriving DecidableEq, Repr

/-- Modelled from the spec: `order::compare_two_clocks` of `common/event_order.h`, which is
not among the sources. The encoding of the result is the one the call sites rely on
(`get_num_edges`, `migration_wrapper`): `0` when the first clock is earlier, `1` when the
second clock is earlier, `2` when the clocks are identical, `-1` when they are concurrent. -/
def compare_two_clocks (clk1 clk2 : List Nat) : Int :=
  let lt := (List.zip clk1 clk2).any (fun p => decide (p.1 < p.2))
  let gt := (List.zip clk1 clk2).any (fun p => decide (p.2 < p.1))
  if lt && gt then -1 else if lt then 0 else if gt then 1 else 2

/-- Modelled from the spec: `order::compare_two_vts` of `common/event_order.h`, which is not
among the sources: the component-wise comparison, with concurrent clocks resolved by the
Kronos oracle (`0`: first earlier, `1`: second earlier). -/
def kronos_compare_two_vts (kronos : vclock → vclock → Int) (clk1 clk2 : vclock) : Int :=
  if compare_two_clocks clk1.clock clk2.clock = -1 then kronos clk1 clk2
  else compare_two_clocks clk1.clock clk2.clock

/-! ## Graph elements -/

/-- Endpoint `db::element::remote_node`: a shard (or timestamper) location and a handle. -/
structure remote_node where
  loc : Nat
  handle : Nat
deriving DecidableEq, Repr

/-- Migration state `db::element::node::mode`. -/
inductive mode where
  | STABLE
  | IN_TRANSIT
  | MOVED
deriving DecidableEq, Repr

/-- Out-edge `db::element::edge`, restricted to the fields `shard.cc` and the triangle
program read. -/
structure edge where
  creat_time : vclock
  del_time : vclock
  nbr : remote_node
  msg_count : Nat := 0
deriving DecidableEq, Repr

/-- Node `db::element::node`, restricted to the fields `shard.cc` reads and writes. The
out-edge map is kept as an association list in iteration order. -/
structure node where
  creat_time : vclock
  del_time : vclock
  state : mode := mode.STABLE
  new_loc : Nat := 0
  updated : Bool := false
  already_migr : Bool := false
  out_edges : List (Nat × edge) := []
  msg_count : List Nat := []
  migr_score : List ℚ := []
deriving DecidableEq, Repr

/-! ## Transactions -/

/-- Update kinds of `transaction::pending_update`, as produced by `client.cc`. -/
inductive update_type where
  | NODE_CREATE_REQ
  | EDGE_CREATE_REQ
  | NODE_DELETE_REQ
  | EDGE_DELETE_REQ
  | NODE_SET_PROPERTY
  | EDGE_SET_PROPERTY
deriving DecidableEq, Repr

/-- Update record `transaction::pending_update` with the field names `unpack_tx_request`
uses (`handle`, `elem1`, `elem2`, `loc2`) and the key and value set by the client. -/
structure pending_update where
  type : update_type
  handle : Nat := 0
  elem1 : Nat := 0
  elem2 : Nat := 0
  loc2 : Nat := 0
  key : Option String := none
  value : Option String := none
deriving DecidableEq, Repr

/-- Calls that `unpack_tx_request` can make on the shard object `S`, in the order made.
The two set-property constructors stand for the graph-store mutations of the same name;
they are part of the vocabulary so that their absence from a trace can be stated. -/
inductive store_call where
  | create_node (t_creat : vclock) (node_handle : Nat)
  | create_edge (t_creat : vclock) (edge_handle n1 n2 loc2 : Nat)
  | delete_node (t_del : vclock) (node_handle : Nat)
  | delete_edge (t_del : vclock) (edge_handle node_handle : Nat)
  | set_node_property (vclk : vclock) (node_handle : Nat) (key value : String)
  | set_edge_property (vclk : vclock) (edge_handle node_handle : Nat) (key value : String)
  | record_completed_transaction (vt_id tx_id incr : Nat)
  | send_tx_done (vt_id tx_id : Nat)
deriving DecidableEq, Repr

/-- One iteration of the `switch` of `unpack_tx_request`: the graph-store calls made for
one update. The `default` branch only writes a diagnostic. -/
def apply_update (vclk : vclock) (upd : pending_update) : List store_call :=
  match upd.type with
  | update_type.NODE_CREATE_REQ => [store_call.create_node vclk upd.handle]
  | update_type.EDGE_CREATE_REQ =>
      [store_call.create_edge vclk upd.handle upd.elem1 upd.elem2 upd.loc2]
  | update_type.NODE_DELETE_REQ => [store_call.delete_node vclk upd.elem1]
  | update_type.EDGE_DELETE_REQ => [store_call.delete_edge vclk upd.elem1 upd.elem2]
  | _ => []

/-- Function `unpack_tx_request`: applies the writes in order, records the completed
transaction and confirms to the timestamper. -/
def unpack_tx_request (vt_id : Nat) (vclk : vclock) (tx_id : Nat)
    (writes : List pending_update) : List store_call :=
  (writes.map (apply_update vclk)).flatten
    ++ [store_call.record_completed_transaction vt_id tx_id writes.length,
        store_call.send_tx_done vt_id tx_id]

/-- A graph-store call that sets a property. -/
def store_call.is_set_property : store_call → Bool
  | store_call.set_node_property _ _ _ _ => true
  | store_call.set_edge_property _ _ _ _ _ => true
  | _ => false

/-! ## Shard state -/

/-- Lookup-or-insert update of a map kept as an association list: the first entry with key
`k` is replaced, and an entry is appended when there is none. -/
def assoc_set {κ α : Type} [DecidableEq κ] (k : κ) (v : α) : List (κ × α) → List (κ × α)
  | [] => [(k, v)]
  | (k1, v1) :: rest => if k1 = k then (k, v) :: rest else (k1, v1) :: assoc_set k v rest

/-- Start tuple `node_params_t` of a node program: (node handle, params, prev node). -/
structure node_params_t (P : Type) where
  handle : Nat
  params : P
  prev : remote_node
deriving DecidableEq, Repr

/-- Payload of a `NODE_PROG` message, in the order `prepare_message` packs it. -/
structure node_prog_msg (P : Type) where
  prog_type : Nat
  global_req : Bool
  vt_id : Nat
  req_vclock : vclock
  req_id : Nat
  start_node_params : List (node_params_t P)
deriving DecidableEq, Repr

/-- Kinds of buffered write that `migrate_node_step2_resp` distinguishes; `OTHER` stands
for every message type that falls into the `default` branch. -/
inductive write_type where
  | NODE_DELETE_REQ
  | EDGE_CREATE_REQ
  | EDGE_DELETE_REQ
  | OTHER
deriving DecidableEq, Repr

/-- Buffered write `def_wr`: its type, its vclock and the fields of the request union that
the switch reads (`node` is `del_node.node`, `cr_edge.n1` or `del_edge.node`). -/
structure deferred_write where
  type : write_type
  vclk : vclock
  node : Nat := 0
  edge : Nat := 0
  n2 : Nat := 0
  loc2 : Nat := 0
deriving DecidableEq, Repr

/-- The shard object `S` (`db::shard`), restricted to the members `shard.cc` touches.
Maps are association lists in iteration order, vectors and bitsets are lists.
`done_checks` counts the calls of `check_done_request` made so far: the done set is
shared with other workers, so successive calls are answered by an oracle. -/
structure shard (P NS : Type) where
  shard_id : Nat
  nodes : List (Nat × node) := []
  max_prog_id : List Nat := []
  done_checks : Nat := 0
  deferred_reads : List (Nat × List (node_prog_msg P)) := []
  deferred_writes : List (Nat × List deferred_write) := []
  agg_msg_count : List (Nat × Nat) := []
  prog_req_state : List ((Nat × Nat × Nat) × NS) := []
  edge_map : List (Nat × List Nat) := []
  current_migr : Bool := false
  nop_count : List Nat := []
  migrated : Bool := false
  migr_token : Bool := false
  migr_token_hops : Nat := 0
  migr_vt : Nat := 0
  migr_chance : Nat := 0
  max_done_id : List Nat := []
  target_prog_id : List Nat := []
  migr_edge_acks : List Bool := []
  shard_node_count : List Nat := []
  migr_node : Nat := 0
  migr_shard : Nat := 0
  sorted_nodes : List (Nat × Nat) := []
  max_clk : vclock := { vt_id := 0, clock := [] }
  rand_calls : Nat := 0

/-- Modelled from the spec: `shard::acquire_node` of `db/shard.h`, which is not among the
sources: the node stored under the handle, or `none` (the null pointer) when the shard
has no such node. -/
def acquire_node {P NS : Type} (S : shard P NS) (node_handle : Nat) : Option node :=
  S.nodes.lookup node_handle

/-! ## Node-program runtime -/

/-- What one invocation of a node program yields: the next hops, the per-node program
state it leaves in the state cache (`none` when it never called the state getter) and the
node object, which it receives by mutable reference. -/
structure node_prog_result (P NS : Type) where
  next : List (remote_node × P)
  state : Option NS
  n : node

/-- Everything `unpack_and_run_db` depends on besides the shard object: the comparison
`order::compare_two_vts` (result `0`: first argument earlier, `1`: second earlier, `2`:
identical), the answers of `S->check_done_request` (indexed by the number of earlier
calls, then the request id), the node program `enclosed_node_prog_func`, the rewrite of
the params done by `modify_triangle_params` through its cast, and the value of the default
constructor `remote_node()`. -/
structure prog_env (P NS : Type) where
  compare_two_vts : vclock → vclock → Int
  check_done_request : Nat → Nat → Bool
  enclosed_node_prog_func : Nat → node → remote_node → P → Option NS → vclock →
    node_prog_result P NS
  modify_params : P → Nat → remote_node → P
  default_remote_node : remote_node

/-- Observable actions of `unpack_and_run_db`, in program order. -/
inductive event (P : Type) where
  | call_node_prog (node_handle : Nat) (n : node) (params : P)
  | send_node_prog (loc : Nat) (m : node_prog_msg P)
  | send_node_prog_return (vt_id prog_type req_id : Nat) (params : P)
  | add_read_request (vt_id : Nat) (m : node_prog_msg P)
deriving DecidableEq, Repr

/-- Abnormal terminations of the modelled code. -/
inductive fault where
  | assertion_failed
  | division_by_zero
  | out_of_range
deriving DecidableEq, Repr

/-- Local variables of the dispatch loop of `unpack_and_run_db` together with the shard
object and the actions performed so far. -/
structure run_state (P NS : Type) where
  S : shard P NS
  batched_node_progs : Nat → List (node_params_t P)
  done_request : Bool
  trace : List (event P)

/-- One call of `S->check_done_request(req_id)`. -/
def check_done_request {P NS : Type} (E : prog_env P NS) (S : shard P NS) (req_id : Nat) :
    Bool × shard P NS :=
  (E.check_done_request S.done_checks req_id, { S with done_checks := S.done_checks + 1 })

/-- The message `prepare_message(*msg, NODE_PROG, prog_type_recvd, global_req, vt_id,
req_vclock, req_id, tuples)` built on the non-global path (where `global_req` is false). -/
def repack {P : Type} (m : node_prog_msg P) (tuples : List (node_params_t P)) :
    node_prog_msg P :=
  { m with global_req := false, start_node_params := tuples }

/-- The statement `batched_node_progs[loc].emplace_back(...)`. -/
def batch_push {P : Type} (batched : Nat → List (node_params_t P)) (dest : Nat)
    (t : node_params_t P) : Nat → List (node_params_t P) :=
  fun loc => if loc = dest then batched loc ++ [t] else batched loc

/-- The statement `batched_node_progs[loc].clear()` (also the state in which the
`std::move` at the end of a hop leaves the moved-from batch). -/
def batch_clear {P : Type} (batched : Nat → List (node_params_t P)) (dest : Nat) :
    Nat → List (node_params_t P) :=
  fun loc => if loc = dest then [] else batched loc

/-- The statement `S->agg_msg_count[node_handle]++`. -/
def incr_agg_msg_count {P NS : Type} (S : shard P NS) (node_handle : Nat) : shard P NS :=
  { S with
    agg_msg_count :=
      assoc_set node_handle ((S.agg_msg_count.lookup node_handle).getD 0 + 1)
        S.agg_msg_count }

/-- The tuple `(res.first.handle, std::move(res.second), this_node)` batched for a result
of the node program. -/
def batched_tuple {P : Type} (this_node : remote_node) (res : remote_node × P) :
    node_params_t P :=
  { handle := res.1.handle, params := res.2, prev := this_node }

/-- The loop over `next_node_params` after a call of the node program: a result addressed
to the requesting timestamper is sent back as `NODE_PROG_RETURN`, every other result is
batched under its destination and counted in `agg_msg_count`. -/
def batch_results {P NS : Type} (m : node_prog_msg P) (node_handle : Nat)
    (this_node : remote_node) : List (remote_node × P) → run_state P NS → run_state P NS
  | [], st => st
  | res :: rest, st =>
    if res.1.loc = m.vt_id then
      batch_results m node_handle this_node rest
        { st with trace := st.trace ++
            [event.send_node_prog_return m.vt_id m.prog_type m.req_id res.2] }
    else
      batch_results m node_handle this_node rest
        { st with
          batched_node_progs := batch_push st.batched_node_progs res.1.loc
            (batched_tuple this_node res),
          S := incr_agg_msg_count st.S node_handle }

/-- The loop `for next_loc in [SHARD_ID_INCR, NUM_SHARDS + SHARD_ID_INCR)` that sends and
clears every non-empty batch of a shard other than this one. -/
def flush_batches {P NS : Type} (m : node_prog_msg P) :
    List Nat → run_state P NS → run_state P NS
  | [], st => st
  | next_loc :: rest, st =>
    if (st.batched_node_progs next_loc).isEmpty = false ∧ next_loc ≠ st.S.shard_id then
      flush_batches m rest
        { st with
          trace := st.trace ++
            [event.send_node_prog next_loc (repack m (st.batched_node_progs next_loc))],
          batched_node_progs := batch_clear st.batched_node_progs next_loc }
    else flush_batches m rest st

/-- The statement `S->deferred_reads.at(node_handle).emplace_back(std::move(m))`, after
the entry has been created when it was missing. -/
def buffer_read {P NS : Type} (S : shard P NS) (node_handle : Nat) (m : node_prog_msg P) :
    shard P NS :=
  { S with
    deferred_reads :=
      assoc_set node_handle ((S.deferred_reads.lookup node_handle).getD [] ++ [m])
        S.deferred_reads }

/-- The two statements `get_node_state` and, when the program calls the state getter,
`return_state`: the state cached under (prog type, request, node). -/
def store_node_state {P NS : Type} (S : shard P NS) (key : Nat × Nat × Nat) :
    Option NS → shard P NS
  | none => S
  | some s => { S with prog_req_state := assoc_set key s S.prog_req_state }

/-- The shard ids `SHARD_ID_INCR, ..., SHARD_ID_INCR + NUM_SHARDS - 1`. -/
def shard_ids (C : weaver_constants) : List Nat :=
  List.range' C.SHARD_ID_INCR C.NUM_SHARDS

/-- The variable `this_node` during the visit of a start tuple: this shard and the handle
of the tuple. -/
def this_node_of {P NS : Type} (S : shard P NS) (handle_params : node_params_t P) :
    remote_node :=
  { loc := S.shard_id, handle := handle_params.handle }

/-- The call `enclosed_node_prog_func(req_id, *node, this_node, params, node_state_getter,
req_vclock)`, the state getter being bound to the state cached under (prog type, request,
node). -/
def prog_result {P NS : Type} (E : prog_env P NS) (m : node_prog_msg P)
    (handle_params : node_params_t P) (n : node) (S : shard P NS) : node_prog_result P NS :=
  E.enclosed_node_prog_func m.req_id n (this_node_of S handle_params) handle_params.params
    (S.prog_req_state.lookup (m.prog_type, m.req_id, handle_params.handle)) m.req_vclock

/-- The shard object after a call of the node program: the program state is cached and the
node object is as the program left it. -/
def record_result {P NS : Type} (m : node_prog_msg P) (handle_params : node_params_t P)
    (r : node_prog_result P NS) (S : shard P NS) : shard P NS :=
  { store_node_state S (m.prog_type, m.req_id, handle_params.handle) r.state with
    nodes := assoc_set handle_params.handle r.n S.nodes }

/-- The branch "node does exist" of the dispatch loop after its test of the done set: call
the node program, batch its results, flush the batches of the other shards. -/
def call_prog {P NS : Type} (C : weaver_constants) (E : prog_env P NS) (m : node_prog_msg P)
    (handle_params : node_params_t P) (n : node) (st : run_state P NS) : run_state P NS :=
  flush_batches m (shard_ids C)
    (batch_results m handle_params.handle (this_node_of st.S handle_params)
      (prog_result E m handle_params n st.S).next
      { st with
        S := record_result m handle_params (prog_result E m handle_params n st.S) st.S,
        trace := st.trace ++
          [event.call_node_prog handle_params.handle n handle_params.params] })

/-- Body of the loop `for (auto &handle_params : start_node_params)` for one start tuple.
The second component tells whether the `break` was taken. -/
def visit_node {P NS : Type} (C : weaver_constants) (E : prog_env P NS)
    (m : node_prog_msg P) (handle_params : node_params_t P) (st : run_state P NS) :
    run_state P NS × Bool :=
  match acquire_node st.S handle_params.handle with
  | none =>
    ({ st with S := buffer_read st.S handle_params.handle (repack m [handle_params]) },
     false)
  | some n =>
    if E.compare_two_vts n.del_time m.req_vclock = 0 then (st, false)
    else if n.state = mode.IN_TRANSIT ∨ n.state = mode.MOVED then
      ({ st with trace := st.trace ++
          [event.send_node_prog n.new_loc (repack m [handle_params])] }, false)
    else if (check_done_request E st.S m.req_id).1 then
      ({ st with S := (check_done_request E st.S m.req_id).2, done_request := true }, true)
    else
      (call_prog C E m handle_params n
        { st with S := (check_done_request E st.S m.req_id).2 }, false)

/-- The loop `for (auto &handle_params : start_node_params)`: one hop. It stops at the
first tuple whose visit takes the `break`. -/
def run_hop {P NS : Type} (C : weaver_constants) (E : prog_env P NS) (m : node_prog_msg P) :
    List (node_params_t P) → run_state P NS → run_state P NS
  | [], st => st
  | handle_params :: rest, st =>
    if (visit_node C E m handle_params st).2 then (visit_node C E m handle_params st).1
    else run_hop C E m rest (visit_node C E m handle_params st).1

/-- The two statements that end an iteration of the `while` loop: the batch for this shard
becomes the next list of start tuples, and the done set is consulted again. -/
def end_hop {P NS : Type} (E : prog_env P NS) (m : node_prog_msg P) (st : run_state P NS) :
    List (node_params_t P) × run_state P NS :=
  (st.batched_node_progs st.S.shard_id,
   { st with
     batched_node_progs := batch_clear st.batched_node_progs st.S.shard_id,
     S := (check_done_request E st.S m.req_id).2,
     done_request := st.done_request || (check_done_request E st.S m.req_id).1 })

/-- The loop `while (!start_node_params.empty() && !done_request)`. The first argument
bounds the number of iterations; the second component of the result is `false` when the
bound is reached before the loop condition fails. -/
def run_hops {P NS : Type} (C : weaver_constants) (E : prog_env P NS) (m : node_prog_msg P) :
    Nat → List (node_params_t P) → run_state P NS → run_state P NS × Bool
  | 0, start_node_params, st => (st, start_node_params.isEmpty || st.done_request)
  | fuel + 1, start_node_params, st =>
    if start_node_params.isEmpty || st.done_request then (st, true)
    else
      run_hops C E m fuel (end_hop E m (run_hop C E m start_node_params st)).1
        (end_hop E m (run_hop C E m start_node_params st)).2

/-- The enumeration loop of the global branch: the handles of the nodes of `S->nodes`, in
iteration order, for which both `creat_before` and `del_after` hold. -/
def handles_to_send_to {P NS : Type} (E : prog_env P NS) (S : shard P NS)
    (req_vclock : vclock) : List Nat :=
  (S.nodes.filter (fun n =>
    decide (E.compare_two_vts n.2.del_time req_vclock ≠ 0)
      && decide (E.compare_two_vts req_vclock n.2.creat_time ≠ 0))).map Prod.fst

/-- The loop `while (idx < handles_to_send_to.size())` of the global branch followed by the
leftover test: the batches handed to `add_read_request`, in order. The second list
argument is `next_batch`. -/
def fan_out {P : Type} (batch_size : Nat) (mk : Nat → node_params_t P) :
    List Nat → List (node_params_t P) → List (List (node_params_t P))
  | [], next_batch => if 0 < next_batch.length then [next_batch] else []
  | h :: rest, next_batch =>
    if (next_batch ++ [mk h]).length % batch_size = 0 then
      (next_batch ++ [mk h]) :: fan_out batch_size mk rest []
    else fan_out batch_size mk rest (next_batch ++ [mk h])

/-- The tuple `make_tuple(handles_to_send_to[idx], params_copy, remote_node())` of the
global branch, where `params_copy` is the params of the start tuple after
`modify_triangle_params(&params_copy, handles_to_send_to.size(), this_node)`. -/
def global_tuple {P NS : Type} (E : prog_env P NS) (params : P) (num_nodes : Nat)
    (this_node : remote_node) (h : Nat) : node_params_t P :=
  { handle := h, params := E.modify_params params num_nodes this_node,
    prev := E.default_remote_node }

/-- The branch `if (global_req)` of `unpack_and_run_db`: the `add_read_request` calls it
makes, or the failed assertion or division that ends it. -/
def global_fan_out {P NS : Type} (C : weaver_constants) (E : prog_env P NS)
    (S : shard P NS) (m : node_prog_msg P) : Except fault (List (event P)) :=
  match m.start_node_params with
  | [t] =>
    match handles_to_send_to E S m.req_vclock with
    | [] => Except.error fault.assertion_failed
    | h0 :: hs =>
      if C.NUM_THREADS - 1 = 0 then Except.error fault.division_by_zero
      else if (h0 :: hs).length / (C.NUM_THREADS - 1) = 0 then
        Except.error fault.division_by_zero
      else
        Except.ok ((fan_out ((h0 :: hs).length / (C.NUM_THREADS - 1))
          (global_tuple E t.params (h0 :: hs).length { loc := S.shard_id, handle := h0 })
          (h0 :: hs) []).map (fun batch => event.add_read_request m.vt_id (repack m batch)))
  | _ => Except.error fault.assertion_failed

/-- Result of a run of `unpack_and_run_db`: the shard object and the actions performed;
`returned` is `false` when the iteration bound was reached inside the dispatch loop. -/
structure outcome (P NS : Type) where
  S : shard P NS
  trace : List (event P)
  returned : Bool

/-- The statements of `unpack_and_run_db` between unpacking and the global test: the update
of `max_prog_id` under the migration mutex. -/
def update_max_prog_id {P NS : Type} (S : shard P NS) (vt_id req_id : Nat) : shard P NS :=
  if S.max_prog_id.getD vt_id 0 < req_id then
    { S with max_prog_id := S.max_prog_id.set vt_id req_id }
  else S

/-- The local variables of `unpack_and_run_db` when it reaches the global test: the shard
object after the update of `max_prog_id` and the first call of `check_done_request`,
empty batches, and `done_request` as answered by that call. -/
def start_state {P NS : Type} (E : prog_env P NS) (S : shard P NS) (m : node_prog_msg P) :
    run_state P NS :=
  { S := (check_done_request E (update_max_prog_id S m.vt_id m.req_id) m.req_id).2,
    batched_node_progs := fun _ => [],
    done_request := (check_done_request E (update_max_prog_id S m.vt_id m.req_id) m.req_id).1,
    trace := [] }

/-- Function `particular_node_program::unpack_and_run_db` applied to the unpacked
message `m`; `fuel` bounds the iterations of the dispatch loop. -/
def unpack_and_run_db {P NS : Type} (C : weaver_constants) (E : prog_env P NS) (fuel : Nat)
    (S : shard P NS) (m : node_prog_msg P) : Except fault (outcome P NS) :=
  if m.req_vclock.clock.length ≠ C.NUM_VTS then Except.error fault.assertion_failed
  else if m.global_req then
    match global_fan_out C E (start_state E S m).S m with
    | Except.error e => Except.error e
    | Except.ok tr => Except.ok { S := (start_state E S m).S, trace := tr, returned := true }
  else
    Except.ok
      { S := (run_hops C E m fuel m.start_node_params (start_state E S m)).1.S,
        trace := (run_hops C E m fuel m.start_node_params (start_state E S m)).1.trace,
        returned := (run_hops C E m fuel m.start_node_params (start_state E S m)).2 }

/-! ## Triangle program parameters -/

/-- Class `node_prog::triangle_params`. -/
structure triangle_params where
  responses_left : Nat := 0
  num_edges : Nat := 0
  returning : Bool := false
  neighbors : List Nat := []
  super_node : remote_node
deriving DecidableEq, Repr

/-- Function `modify_triangle_params`. -/
def modify_triangle_params (params : triangle_params) (num_nodes : Nat)
    (node : remote_node) : triangle_params :=
  { params with responses_left := num_nodes, super_node := node }

/-! ## Heartbeats and the migration engine -/

/-- Heartbeat argument `db::nop_data`, restricted to the fields `nop` reads. -/
structure nop_data where
  vt_id : Nat
  req_id : Nat := 0
  done_reqs : List (Nat × Nat) := []
  max_done_id : Nat := 0
  shard_node_count : List Nat := []
deriving DecidableEq, Repr

/-- Loop of `check_step3` over the timestampers, with its exit at the first failed test;
the Boolean argument is `init_step3`. -/
def check_step3_loop {P NS : Type} (S : shard P NS) : List Nat → Bool → Bool
  | [], init_step3 => init_step3
  | i :: rest, init_step3 =>
    if init_step3 then
      check_step3_loop S rest (decide (S.target_prog_id.getD i 0 ≤ S.max_done_id.getD i 0))
    else false

/-- Function `check_step3`: the returned flag and the shard object it leaves. The bitset
`migr_edge_acks` is a list of bits, `all()` and `reset()` are as for `std::bitset`. -/
def check_step3 {P NS : Type} (C : weaver_constants) (S : shard P NS) : Bool × shard P NS :=
  if check_step3_loop S (List.range C.NUM_VTS) (S.migr_edge_acks.all id) then
    (true, { S with migr_edge_acks := S.migr_edge_acks.map (fun _ => false) })
  else (false, S)

/-- Messages and shard calls made by `nop` itself, in program order. -/
inductive nop_event where
  | record_completed_transaction (vt_id req_id : Nat)
  | add_done_requests (done_reqs : List (Nat × Nat))
  | send_migration_token (migr_vt : Nat)
  | send_vt_nop_ack (vt_id shard_id cur_node_count : Nat)
deriving DecidableEq, Repr

/-- State of `nop` at its dispatch statement: the shard object, the three checks and the
node count read for the acknowledgement. -/
structure nop_result (P NS : Type) where
  S : shard P NS
  check_move_migr : Bool
  check_init_migr : Bool
  check_migr_step3 : Bool
  cur_node_count : Nat
  trace : List nop_event

/-- First block of `nop` under the migration mutex: count the heartbeat and test whether
every counter equals 2. `at()` throws for an index outside the vector, which ends the
function. -/
def nop_count_step {P NS : Type} (S : shard P NS) (vt_id : Nat) :
    Except fault (shard P NS × Bool) :=
  if S.current_migr then
    if vt_id < S.nop_count.length then
      Except.ok
        ({ S with nop_count := S.nop_count.set vt_id (S.nop_count.getD vt_id 0 + 1) },
         (S.nop_count.set vt_id (S.nop_count.getD vt_id 0 + 1)).all (fun x => decide (x = 2)))
    else Except.error fault.out_of_range
  else Except.ok (S, false)

/-- Second block of `nop`: the token test. The result holds the shard object,
`check_init_migr` and the token message sent back to the timestamper, if any. -/
def nop_token_step {P NS : Type} (S : shard P NS) : shard P NS × Bool × List nop_event :=
  if S.migrated = false ∧ S.migr_token = true then
    if S.migr_token_hops = 0 then
      ({ S with migrated := true, migr_token := false }, false,
       [nop_event.send_migration_token S.migr_vt])
    else if 2 < S.migr_chance then
      ({ S with migrated := true, migr_chance := 0 }, true, [])
    else ({ S with migr_chance := S.migr_chance + 1 }, false, [])
  else (S, false, [])

/-- Loop of `nop` that copies the node counts of the other shards from the heartbeat. -/
def copy_shard_node_count (C : weaver_constants) (shard_id : Nat) (from_nop : List Nat)
    (counts : List Nat) : List Nat :=
  (List.range C.NUM_SHARDS).foldl
    (fun cnt shrd =>
      if shrd + C.SHARD_ID_INCR = shard_id then cnt else cnt.set shrd (from_nop.getD shrd 0))
    counts

/-- Function `nop` up to its dispatch statement. -/
def nop {P NS : Type} (C : weaver_constants) (S : shard P NS) (nop_arg : nop_data) :
    Except fault (nop_result P NS) :=
  match nop_count_step S nop_arg.vt_id with
  | Except.error e => Except.error e
  | Except.ok (S1, check_move_migr) =>
    if nop_arg.max_done_id < (nop_token_step S1).1.max_done_id.getD nop_arg.vt_id 0 then
      Except.error fault.assertion_failed
    else
      let S2 := (nop_token_step S1).1
      let check_init_migr := (nop_token_step S1).2.1
      let S3 : shard P NS :=
        { S2 with max_done_id := S2.max_done_id.set nop_arg.vt_id nop_arg.max_done_id }
      let check_migr_step3 := (check_step3 C S3).1
      let S4 := (check_step3 C S3).2
      if (check_move_migr && check_init_migr) || (check_init_migr && check_migr_step3)
          || (check_move_migr && check_migr_step3) then
        Except.error fault.assertion_failed
      else
        Except.ok
          { S := { S4 with
                   shard_node_count :=
                     copy_shard_node_count C S4.shard_id nop_arg.shard_node_count
                       S4.shard_node_count },
            check_move_migr := check_move_migr,
            check_init_migr := check_init_migr,
            check_migr_step3 := check_migr_step3,
            cur_node_count := S4.shard_node_count.getD (S4.shard_id - C.SHARD_ID_INCR) 0,
            trace := [nop_event.record_completed_transaction nop_arg.vt_id nop_arg.req_id,
                      nop_event.add_done_requests nop_arg.done_reqs]
                     ++ (nop_token_step S1).2.2 }

/-- Function `migrate_node_step2_req`: the shard object it leaves and the destination,
handle, origin and packed node of the `MIGRATE_SEND_NODE` message it sends. -/
def migrate_node_step2_req {P NS : Type} (C : weaver_constants) (S : shard P NS) :
    Except fault (shard P NS × (Nat × Nat × Nat × node)) :=
  let S1 : shard P NS :=
    { S with current_migr := false,
             target_prog_id :=
               (List.range C.NUM_VTS).foldl (fun t idx => t.set idx 0) S.target_prog_id }
  match acquire_node S1 S1.migr_node with
  | none => Except.error fault.assertion_failed
  | some n => Except.ok (S1, (S1.migr_shard, S1.migr_node, S1.shard_id, n))

/-- Heartbeats processed one after the other by `nop`, each followed by the call of
`migrate_node_step2_req` when `check_move_migr` holds. The result lists, for every
heartbeat processed, whether `migrate_node_step2_req` was called. Processing stops at a
heartbeat that fails an assertion or that dispatches to `shard_daemon_begin` or
`migrate_node_step3`. -/
def step2_triggers {P NS : Type} (C : weaver_constants) :
    List nop_data → shard P NS → List Bool
  | [], _ => []
  | nop_arg :: rest, S =>
    match nop C S nop_arg with
    | Except.error _ => []
    | Except.ok r =>
      if r.check_move_migr then
        match migrate_node_step2_req C r.S with
        | Except.error _ => [true]
        | Except.ok (S1, _) => true :: step2_triggers C rest S1
      else if r.check_init_migr || r.check_migr_step3 then [false]
      else false :: step2_triggers C rest r.S

/-- Methods of `db::shard` that `migrate_node_step2_resp` calls and whose bodies are in
`db/shard.h`, which is not among the sources. Each takes the shard object and returns it;
the node pointer `n` is represented by the node handle. -/
structure store_env (P NS : Type) where
  delete_node_nonlocking : shard P NS → Nat → vclock → shard P NS
  create_edge_nonlocking : shard P NS → Nat → Nat → Nat → Nat → vclock → shard P NS
  delete_edge_nonlocking : shard P NS → Nat → Nat → vclock → shard P NS
  update_migrated_nbr : shard P NS → Nat → Nat → Nat → shard P NS

/-- Actions of `migrate_node_step2_resp`, in program order. `prog` wraps an action of a
re-dispatched node program. -/
inductive migr_event (P : Type) where
  | edge_map_emplace (nbr node_handle : Nat)
  | delete_node_nonlocking (node_handle : Nat) (vclk : vclock)
  | create_edge_nonlocking (node_handle edge n2 loc2 : Nat) (vclk : vclock)
  | delete_edge_nonlocking (node_handle edge : Nat) (vclk : vclock)
  | send_migrated_nbr_update (upd_shard node_handle from_loc new_loc : Nat)
  | set_stable (node_handle : Nat)
  | update_migrated_nbr (node_handle from_loc new_loc : Nat)
  | unpack_and_run_db (m : node_prog_msg P)
  | prog (e : event P)
deriving DecidableEq, Repr

/-- The statement `S->edge_map[node].emplace(node_handle)` on the set stored under `node`. -/
def edge_map_emplace (edge_map : List (Nat × List Nat)) (nbr node_handle : Nat) :
    List (Nat × List Nat) :=
  assoc_set nbr
    (if node_handle ∈ (edge_map.lookup nbr).getD [] then (edge_map.lookup nbr).getD []
     else (edge_map.lookup nbr).getD [] ++ [node_handle])
    edge_map

/-- The loop `for (auto &e: n->out_edges)` of `migrate_node_step2_resp`. -/
def index_out_edges (node_handle : Nat) :
    List (Nat × edge) → List (Nat × List Nat) → List (Nat × List Nat)
  | [], edge_map => edge_map
  | e :: rest, edge_map =>
    index_out_edges node_handle rest (edge_map_emplace edge_map e.2.nbr.handle node_handle)

/-- The loop `for (auto &def_wr: S->deferred_writes.at(node_handle))` with its `switch`:
the writes are applied in buffer order; a failed assertion ends the function. -/
def apply_deferred_writes {P NS : Type} (G : store_env P NS) (node_handle : Nat) :
    List deferred_write → shard P NS × List (migr_event P) →
      Except fault (shard P NS × List (migr_event P))
  | [], acc => Except.ok acc
  | def_wr :: rest, acc =>
    match def_wr.type with
    | write_type.NODE_DELETE_REQ =>
      if def_wr.node = node_handle then
        apply_deferred_writes G node_handle rest
          (G.delete_node_nonlocking acc.1 node_handle def_wr.vclk,
           acc.2 ++ [migr_event.delete_node_nonlocking node_handle def_wr.vclk])
      else Except.error fault.assertion_failed
    | write_type.EDGE_CREATE_REQ =>
      if def_wr.node = node_handle then
        apply_deferred_writes G node_handle rest
          (G.create_edge_nonlocking acc.1 node_handle def_wr.edge def_wr.n2 def_wr.loc2
             def_wr.vclk,
           acc.2 ++ [migr_event.create_edge_nonlocking node_handle def_wr.edge def_wr.n2
             def_wr.loc2 def_wr.vclk])
      else Except.error fault.assertion_failed
    | write_type.EDGE_DELETE_REQ =>
      if def_wr.node = node_handle then
        apply_deferred_writes G node_handle rest
          (G.delete_edge_nonlocking acc.1 node_handle def_wr.edge def_wr.vclk,
           acc.2 ++ [migr_event.delete_edge_nonlocking node_handle def_wr.edge def_wr.vclk])
      else Except.error fault.assertion_failed
    | write_type.OTHER => apply_deferred_writes G node_handle rest acc

/-- The block `if (S->deferred_writes.find(node_handle) != end)` of
`migrate_node_step2_resp`: apply the buffered writes and erase the entry. -/
def drain_deferred_writes {P NS : Type} (G : store_env P NS) (node_handle : Nat)
    (S : shard P NS) : Except fault (shard P NS × List (migr_event P)) :=
  match S.deferred_writes.lookup node_handle with
  | none => Except.ok (S, [])
  | some writes =>
    match apply_deferred_writes G node_handle writes (S, []) with
    | Except.error e => Except.error e
    | Except.ok (S1, tr) =>
      Except.ok
        ({ S1 with deferred_writes := S1.deferred_writes.filter (fun p => p.1 ≠ node_handle) },
         tr)

/-- The loop `for upd_shard in [SHARD_ID_INCR, SHARD_ID_INCR + NUM_SHARDS)` that sends
`MIGRATED_NBR_UPDATE` to every shard but this one. -/
def send_nbr_updates {P : Type} (C : weaver_constants) (shard_id node_handle from_loc : Nat) :
    List (migr_event P) :=
  ((shard_ids C).filter (fun upd_shard => upd_shard ≠ shard_id)).map
    (fun upd_shard =>
      migr_event.send_migrated_nbr_update upd_shard node_handle from_loc shard_id)

/-- The statement `n->state = STABLE` on the node stored under the handle. -/
def set_stable {P NS : Type} (S : shard P NS) (node_handle : Nat) : shard P NS :=
  match acquire_node S node_handle with
  | none => S
  | some n =>
    { S with nodes := assoc_set node_handle { n with state := mode.STABLE } S.nodes }

/-- The loop `for (auto &m: deferred_reads)` of `migrate_node_step2_resp`: every buffered
message is handed to `unpack_and_run_db` of its program type, in buffer order. The
Boolean tells whether every run returned within the iteration bound. -/
def apply_buffered_reads {P NS : Type} (C : weaver_constants) (programs : Nat → prog_env P NS)
    (fuel : Nat) : List (node_prog_msg P) → shard P NS × List (migr_event P) × Bool →
      Except fault (shard P NS × List (migr_event P) × Bool)
  | [], acc => Except.ok acc
  | m :: rest, acc =>
    match unpack_and_run_db C (programs m.prog_type) fuel acc.1 m with
    | Except.error e => Except.error e
    | Except.ok out =>
      apply_buffered_reads C programs fuel rest
        (out.S,
         acc.2.1 ++ [migr_event.unpack_and_run_db m] ++ out.trace.map migr_event.prog,
         acc.2.2 && out.returned)

/-- Result of `migrate_node_step2_resp`. -/
structure migr_outcome (P NS : Type) where
  S : shard P NS
  trace : List (migr_event P)
  returned : Bool

/-- Function `migrate_node_step2_resp` applied to the unpacked `MIGRATE_SEND_NODE` message
(node handle, sending shard, packed node); `fuel` bounds the dispatch loop of every
re-dispatched node program. -/
def migrate_node_step2_resp {P NS : Type} (C : weaver_constants) (G : store_env P NS)
    (programs : Nat → prog_env P NS) (fuel : Nat) (S : shard P NS)
    (node_handle from_loc : Nat) (n : node) : Except fault (migr_outcome P NS) :=
  let S1 : shard P NS :=
    { S with nodes := assoc_set node_handle n S.nodes,
             edge_map := index_out_edges node_handle n.out_edges S.edge_map }
  let tr1 : List (migr_event P) :=
    n.out_edges.map (fun e => migr_event.edge_map_emplace e.2.nbr.handle node_handle)
  match drain_deferred_writes G node_handle S1 with
  | Except.error e => Except.error e
  | Except.ok (S2, tr2) =>
    let S3 := set_stable S2 node_handle
    let deferred_reads := (S3.deferred_reads.lookup node_handle).getD []
    let S4 : shard P NS :=
      { S3 with deferred_reads := S3.deferred_reads.filter (fun p => p.1 ≠ node_handle) }
    let S5 := G.update_migrated_nbr S4 node_handle from_loc S.shard_id
    match apply_buffered_reads C programs fuel deferred_reads
        (S5,
         tr1 ++ tr2 ++ send_nbr_updates C S.shard_id node_handle from_loc
           ++ [migr_event.set_stable node_handle,
               migr_event.update_migrated_nbr node_handle from_loc S.shard_id],
         true) with
    | Except.error e => Except.error e
    | Except.ok (S6, tr, returned) => Except.ok { S := S6, trace := tr, returned := returned }

/-! ## Reading results and concrete configurations -/

/-- The actions of a run, or `none` when the run ended in a fault. -/
def trace_of {P NS : Type} : Except fault (outcome P NS) → Option (List (event P))
  | Except.ok out => some out.trace
  | Except.error _ => none

/-- The node handles on which a trace records a call of the node program. -/
def called_handles {P : Type} : List (event P) → List Nat
  | [] => []
  | event.call_node_prog node_handle _ _ :: rest => node_handle :: called_handles rest
  | _ :: rest => called_handles rest

/-- The payloads of the `NODE_PROG` messages that a trace sends to shard `loc`. -/
def node_progs_sent_to {P : Type} (loc : Nat) : List (event P) → List (node_prog_msg P)
  | [] => []
  | event.send_node_prog dest m :: rest =>
    if dest = loc then m :: node_progs_sent_to loc rest else node_progs_sent_to loc rest
  | _ :: rest => node_progs_sent_to loc rest

/-- The payloads of the `NODE_PROG` requests that a trace hands to `add_read_request`. -/
def read_requests_added {P : Type} : List (event P) → List (node_prog_msg P)
  | [] => []
  | event.add_read_request _ m :: rest => m :: read_requests_added rest
  | _ :: rest => read_requests_added rest

/-- Two shards with ids 1 and 2, one timestamper with id 0, two worker threads. -/
def two_shards : weaver_constants :=
  { NUM_SHARDS := 2, SHARD_ID_INCR := 1, NUM_VTS := 1, NUM_THREADS := 2 }

/-- The clock of timestamper 0 at counter value `c`, for a deployment with one
timestamper. -/
def clock_at (c : Nat) : vclock := { vt_id := 0, clock := [c] }

/-- The deletion time of a node that has not been deleted: the largest clock. -/
def never : vclock := clock_at (2 ^ 64 - 1)

/-- An environment over `Nat` params: clocks are compared component-wise, the request is
never reported done, and the node program forwards its params to the remote nodes listed
by `hops` (node handle, then the destinations) without touching node or state. -/
def example_env (hops : Nat → List remote_node) : prog_env Nat Unit :=
  { compare_two_vts := kronos_compare_two_vts (fun _ _ => 0),
    check_done_request := fun _ _ => false,
    enclosed_node_prog_func := fun _ n this_node params _ _ =>
      { next := (hops this_node.handle).map (fun rn => (rn, params)), state := none, n := n },
    modify_params := fun params _ _ => params,
    default_remote_node := { loc := 0, handle := 0 } }

/-- A non-global request of timestamper 0 at clock value `c` with the given start tuples. -/
def example_msg (c : Nat) (start_node_params : List (node_params_t Nat)) : node_prog_msg Nat :=
  { prog_type := 0, global_req := false, vt_id := 0, req_vclock := clock_at c, req_id := 1,
    start_node_params := start_node_params }

/-- Shard 1 holding only node 7, which was created at clock value 5 and is not deleted. -/
def shard_with_late_node : shard Nat Unit :=
  { shard_id := 1, max_prog_id := [0],
    nodes := [(7, { creat_time := clock_at 5, del_time := never })] }

/-- The environment `example_env` with a done set that already holds the request. -/
def cancelled_env : prog_env Nat Unit :=
  { example_env (fun _ => []) with check_done_request := fun _ _ => true }

/-- A global request of timestamper 0 at clock value `c` with one start tuple. -/
def example_global_msg (c : Nat) : node_prog_msg Nat :=
  { example_msg c [{ handle := 0, params := 0, prev := { loc := 0, handle := 0 } }] with
    global_req := true }

/-- Shard 1 of two with both acknowledgement bits set and the target program id of the
only timestamper already done. -/
def acked_shard : shard Nat Unit :=
  { shard_id := 1, migr_edge_acks := [true, true], target_prog_id := [4], max_done_id := [5] }

/-- An environment for the triangle program parameters: `modify_params` is
`modify_triangle_params`, the request is never reported done, and the node program is
silent. -/
def triangle_fan_out_env : prog_env triangle_params Unit :=
  { compare_two_vts := kronos_compare_two_vts (fun _ _ => 0),
    check_done_request := fun _ _ => false,
    enclosed_node_prog_func := fun _ n _ _ _ _ => { next := [], state := none, n := n },
    modify_params := modify_triangle_params,
    default_remote_node := { loc := 0, handle := 0 } }

/-- Shard 1 holding the nodes 7, 8 and 9, all created at clock value 5 and not deleted. -/
def shard_with_three_nodes : shard triangle_params Unit :=
  { shard_id := 1, max_prog_id := [0],
    nodes := [(7, { creat_time := clock_at 5, del_time := never }),
              (8, { creat_time := clock_at 5, del_time := never }),
              (9, { creat_time := clock_at 5, del_time := never })] }

/-- Three worker threads, hence chunks of `n / 2` nodes. -/
def three_threads : weaver_constants :=
  { NUM_SHARDS := 2, SHARD_ID_INCR := 1, NUM_VTS := 1, NUM_THREADS := 3 }

/-- A global triangle request of timestamper 0 at clock value 6. -/
def triangle_global_msg : node_prog_msg triangle_params :=
  { prog_type := 0, global_req := true, vt_id := 0, req_vclock := clock_at 6, req_id := 1,
    start_node_params :=
      [{ handle := 0, params := { super_node := { loc := 0, handle := 0 } },
         prev := { loc := 0, handle := 0 } }] }

/-- Shard 1 holding the nodes 7 and 8, both created at clock value 5 and not deleted. -/
def shard_with_two_nodes : shard Nat Unit :=
  { shard_id := 1, max_prog_id := [0],
    nodes := [(7, { creat_time := clock_at 5, del_time := never }),
              (8, { creat_time := clock_at 5, del_time := never })] }

/-- The results of one call of the node program that are batched for shard `loc`: those
not addressed to the requesting timestamper, as tuples with `this_node` as previous node. -/
def outputs_for {P : Type} (m : node_prog_msg P) (this_node : remote_node)
    (next : List (remote_node × P)) (loc : Nat) : List (node_params_t P) :=
  (next.filter (fun res => decide (res.1.loc ≠ m.vt_id) && decide (res.1.loc = loc))).map
    (batched_tuple this_node)

/-- Two shards with ids 2 and 3 and two timestampers with ids 0 and 1. -/
def two_vts : weaver_constants :=
  { NUM_SHARDS := 2, SHARD_ID_INCR := 2, NUM_VTS := 2, NUM_THREADS := 2 }

/-- Shard 2 right after `migrate_node_step1` froze node 7 for shard 3: `current_migr` is
set and every heartbeat counter is 0. The shard holds the token and has started its
migration round, and no acknowledgement is in. -/
def frozen_shard : shard Nat Unit :=
  { shard_id := 2,
    nodes := [(7, { creat_time := { vt_id := 0, clock := [1, 0] },
                    del_time := { vt_id := 0, clock := [2 ^ 64 - 1, 2 ^ 64 - 1] },
                    state := mode.IN_TRANSIT, new_loc := 3 })],
    current_migr := true, nop_count := [0, 0], migrated := true, migr_token := true,
    migr_token_hops := 1, max_done_id := [0, 0], target_prog_id := [0, 0],
    migr_edge_acks := [false, false], shard_node_count := [1, 0], migr_node := 7,
    migr_shard := 3 }

/-- A heartbeat of timestamper `vt_id`. -/
def heartbeat (vt_id : Nat) : nop_data :=
  { vt_id := vt_id, shard_node_count := [1, 0] }

/-- Three heartbeats of timestamper 0 followed by two of timestamper 1. -/
def uneven_heartbeats : List nop_data :=
  [heartbeat 0, heartbeat 0, heartbeat 0, heartbeat 1, heartbeat 1]

/-- The buffered writes that a trace of `migrate_node_step2_resp` records as applied: the
type and the vclock of each, in the order applied. -/
def applied_writes {P : Type} : List (migr_event P) → List (write_type × vclock)
  | [] => []
  | migr_event.delete_node_nonlocking _ vclk :: rest =>
    (write_type.NODE_DELETE_REQ, vclk) :: applied_writes rest
  | migr_event.create_edge_nonlocking _ _ _ _ vclk :: rest =>
    (write_type.EDGE_CREATE_REQ, vclk) :: applied_writes rest
  | migr_event.delete_edge_nonlocking _ _ vclk :: rest =>
    (write_type.EDGE_DELETE_REQ, vclk) :: applied_writes rest
  | _ :: rest => applied_writes rest

/-- The action by which the switch of `migrate_node_step2_resp` applies a buffered write
to node `node_handle`; `none` for a write of a type the switch does not handle. -/
def write_event {P : Type} (node_handle : Nat) (w : deferred_write) : Option (migr_event P) :=
  match w.type with
  | write_type.NODE_DELETE_REQ => some (migr_event.delete_node_nonlocking node_handle w.vclk)
  | write_type.EDGE_CREATE_REQ =>
    some (migr_event.create_edge_nonlocking node_handle w.edge w.n2 w.loc2 w.vclk)
  | write_type.EDGE_DELETE_REQ =>
    some (migr_event.delete_edge_nonlocking node_handle w.edge w.vclk)
  | write_type.OTHER => none

/-- The buffered node programs that a trace of `migrate_node_step2_resp` records as handed
to `unpack_and_run_db`, in order. -/
def redispatched {P : Type} : List (migr_event P) → List (node_prog_msg P)
  | [] => []
  | migr_event.unpack_and_run_db m :: rest => m :: redispatched rest
  | _ :: rest => redispatched rest

/-- What is assumed of a method of `db/shard.h` whose body is not among the sources: it
removes no node from the node map and leaves both deferred buffers as they are. -/
def keeps_buffers {P NS : Type} (f : shard P NS → shard P NS) : Prop :=
  ∀ S, (∀ k, (acquire_node S k).isSome = true → (acquire_node (f S) k).isSome = true)
    ∧ (f S).deferred_reads = S.deferred_reads
    ∧ (f S).deferred_writes = S.deferred_writes

/-- The assumption `keeps_buffers` for the four methods of `store_env`. -/
def store_env.frame {P NS : Type} (G : store_env P NS) : Prop :=
  (∀ h vclk, keeps_buffers (fun S => G.delete_node_nonlocking S h vclk))
  ∧ (∀ h e n2 loc2 vclk, keeps_buffers (fun S => G.create_edge_nonlocking S h e n2 loc2 vclk))
  ∧ (∀ h e vclk, keeps_buffers (fun S => G.delete_edge_nonlocking S h e vclk))
  ∧ (∀ h a b, keeps_buffers (fun S => G.update_migrated_nbr S h a b))

/-- A graph store whose four methods leave the shard object as it is. -/
def idle_store : store_env Nat Unit :=
  { delete_node_nonlocking := fun S _ _ => S,
    create_edge_nonlocking := fun S _ _ _ _ _ => S,
    delete_edge_nonlocking := fun S _ _ _ => S,
    update_migrated_nbr := fun S _ _ _ => S }

/-- Shard 3 waiting for node 7: two edge deletions are buffered for it, the one with
vclock value 5 before the one with vclock value 3, and one node program. -/
def receiving_shard : shard Nat Unit :=
  { shard_id := 3, max_prog_id := [0],
    deferred_writes :=
      [(7, [{ type := write_type.EDGE_DELETE_REQ, vclk := clock_at 5, node := 7, edge := 11 },
            { type := write_type.EDGE_DELETE_REQ, vclk := clock_at 3, node := 7, edge := 12 }])],
    deferred_reads :=
      [(7, [example_msg 6 [{ handle := 7, params := 0, prev := { loc := 2, handle := 1 } }]])] }

/-- Two shards with ids 2 and 3 and one timestamper. -/
def shards_2_3 : weaver_constants :=
  { NUM_SHARDS := 2, SHARD_ID_INCR := 2, NUM_VTS := 1, NUM_THREADS := 2 }

/-- The node 7 as packed by shard 2: in transit to shard 3, with one out-edge to node 9. -/
def packed_node : node :=
  { creat_time := clock_at 1, del_time := never, state := mode.IN_TRANSIT, new_loc := 3,
    out_edges := [(10, { creat_time := clock_at 1, del_time := never,
                         nbr := { loc := 2, handle := 9 } })] }

/-- The actions of a run of `migrate_node_step2_resp`, or `none` when it ended in a fault. -/
def migr_trace_of {P NS : Type} : Except fault (migr_outcome P NS) → Option (List (migr_event P))
  | Except.ok out => some out.trace
  | Except.error _ => none

/-- Node `h` is installed on the shard: it is in the node map and neither deferred buffer
has an entry for it. -/
def installed {P NS : Type} (h : Nat) (S : shard P NS) : Prop :=
  (acquire_node S h).isSome = true ∧ S.deferred_reads.lookup h = none
    ∧ S.deferred_writes.lookup h = none

/-! ## Choosing where to migrate a node -/

/-- The index `loc - SHARD_ID_INCR` of a location, computed as the code does on 64-bit
unsigned integers. -/
def shard_index (C : weaver_constants) (loc : Nat) : Nat :=
  (loc + 2 ^ 64 - C.SHARD_ID_INCR) % 2 ^ 64

/-- The factor `1 - ((double)shard_node_count[j])/SHARD_CAP`, over exact rationals. -/
def penalty (C : weaver_constants) (shard_node_count : List Nat) (j : Nat) : ℚ :=
  1 - (shard_node_count.getD j 0 : ℚ) / (C.SHARD_CAP : ℚ)

/-- The loop of the CLDG branch over the out-edges:
`n->msg_count[e->nbr.loc - SHARD_ID_INCR] += e->msg_count`. -/
def add_edge_msg_counts (C : weaver_constants) : List (Nat × edge) → List Nat → List Nat
  | [], msg_count => msg_count
  | e :: rest, msg_count =>
    add_edge_msg_counts C rest
      (msg_count.set (shard_index C e.2.nbr.loc)
        (msg_count.getD (shard_index C e.2.nbr.loc) 0 + e.2.msg_count))

/-- The loop of the CLDG branch over the shards:
`n->migr_score[j] = n->msg_count[j] * penalty`. -/
def cldg_scores (C : weaver_constants) (shard_node_count : List Nat) (msg_count : List Nat) :
    List Nat → List ℚ → List ℚ
  | [], migr_score => migr_score
  | j :: rest, migr_score =>
    cldg_scores C shard_node_count msg_count rest
      (migr_score.set j ((msg_count.getD j 0 : ℚ) * penalty C shard_node_count j))

/-- The loop of the LDG branch over the out-edges:
`n->migr_score[e->nbr.loc - SHARD_ID_INCR] += 1`. -/
def ldg_counts (C : weaver_constants) : List (Nat × edge) → List ℚ → List ℚ
  | [], migr_score => migr_score
  | e :: rest, migr_score =>
    ldg_counts C rest
      (migr_score.set (shard_index C e.2.nbr.loc)
        (migr_score.getD (shard_index C e.2.nbr.loc) 0 + 1))

/-- The loop of the LDG branch over the shards:
`n->migr_score[j] *= (1 - ((double)shard_node_count[j])/SHARD_CAP)`. -/
def ldg_scale (C : weaver_constants) (shard_node_count : List Nat) :
    List Nat → List ℚ → List ℚ
  | [], migr_score => migr_score
  | j :: rest, migr_score =>
    ldg_scale C shard_node_count rest
      (migr_score.set j (migr_score.getD j 0 * penalty C shard_node_count j))

/-- The scoring block of `migration_wrapper` for one candidate node: the scores are
zeroed, then computed by the CLDG or the LDG branch. Scores are exact rationals. -/
def score_node (C : weaver_constants) (shard_node_count : List Nat) (n : node) : node :=
  if C.CLDG then
    { n with
      msg_count := add_edge_msg_counts C n.out_edges n.msg_count,
      migr_score := cldg_scores C shard_node_count
        (add_edge_msg_counts C n.out_edges n.msg_count) (List.range C.NUM_SHARDS)
        (n.migr_score.map (fun _ => 0)) }
  else
    { n with
      migr_score := ldg_scale C shard_node_count (List.range C.NUM_SHARDS)
        (ldg_counts C n.out_edges (n.migr_score.map (fun _ => 0))) }

/-- Local variables of the arg-max loop of `migration_wrapper`, with the node's
`msg_count`, which the loop resets. -/
structure arg_max_state where
  max_pos : Nat
  max_indices : List Nat
  msg_count : List Nat
deriving DecidableEq, Repr

/-- The loop `for (uint32_t j = 0; j < NUM_SHARDS; j++)` that finds the arg max; `self` is
`shard_id - SHARD_ID_INCR`. -/
def arg_max_loop (self : Nat) (migr_score : List ℚ) :
    List Nat → arg_max_state → arg_max_state
  | [], st => st
  | j :: rest, st =>
    if j = self then arg_max_loop self migr_score rest st
    else if migr_score.getD st.max_pos 0 < migr_score.getD j 0 then
      arg_max_loop self migr_score rest
        { max_pos := j, max_indices := [j], msg_count := st.msg_count.set j 0 }
    else if migr_score.getD st.max_pos 0 = migr_score.getD j 0 then
      arg_max_loop self migr_score rest
        { st with max_indices := st.max_indices ++ [j], msg_count := st.msg_count.set j 0 }
    else arg_max_loop self migr_score rest { st with msg_count := st.msg_count.set j 0 }

/-- The block "find arg max" of `migration_wrapper`: `max_pos` starts at this shard and
`max_indices` as the list holding it. -/
def find_arg_max (C : weaver_constants) (self : Nat) (n : node) : arg_max_state :=
  arg_max_loop self n.migr_score (List.range C.NUM_SHARDS)
    { max_pos := self, max_indices := [self], msg_count := n.msg_count }

/-- The loop of `get_balanced_assignment` over `max_indices`; the last argument is
`min_indices`. The bound `min_cap` is the one computed before the loop. -/
def balanced_loop (shard_node_count : List Nat) (min_cap : Nat) :
    List Nat → List Nat → List Nat
  | [], min_indices => min_indices
  | idx :: rest, min_indices =>
    if shard_node_count.getD idx 0 < min_cap then
      balanced_loop shard_node_count min_cap rest [idx]
    else if shard_node_count.getD idx 0 = min_cap then
      balanced_loop shard_node_count min_cap rest (min_indices ++ [idx])
    else balanced_loop shard_node_count min_cap rest min_indices

/-- Function `get_balanced_assignment`; `rand` is the value returned by `rand()`. -/
def get_balanced_assignment (shard_node_count : List Nat) (max_indices : List Nat)
    (rand : Nat) : Except fault Nat :=
  match max_indices with
  | [] => Except.error fault.out_of_range
  | first :: _ =>
    if (balanced_loop shard_node_count (shard_node_count.getD first 0) max_indices []).length
        = 0 then
      Except.error fault.division_by_zero
    else
      Except.ok
        ((balanced_loop shard_node_count (shard_node_count.getD first 0) max_indices []).getD
          (rand %
            (balanced_loop shard_node_count (shard_node_count.getD first 0) max_indices
              []).length) 0)

/-- The computation of `next_id` in `shard_daemon_end`, on 64-bit unsigned integers. -/
def ring_successor (C : weaver_constants) (shard_id : Nat) : Nat :=
  if C.NUM_SHARDS ≤ (shard_id + 1 + 2 ^ 64 - C.SHARD_ID_INCR) % 2 ^ 64 then C.SHARD_ID_INCR
  else shard_id + 1

/-- Calls and messages of the migration engine on the sending shard, in program order. -/
inductive migr_action where
  | migrate_node_step1 (node_handle shard : Nat)
  | update_node_mapping (node_handle shard : Nat)
  | send_migration_token (next_id migr_token_hops migr_vt : Nat)
deriving DecidableEq, Repr

/-- Function `shard_daemon_end`: the shard object it leaves and the `MIGRATION_TOKEN`
message it sends. The hop counter is a 64-bit unsigned integer. -/
def shard_daemon_end {P NS : Type} (C : weaver_constants) (S : shard P NS) :
    shard P NS × migr_action :=
  ({ S with migr_token := false,
            migr_token_hops := (S.migr_token_hops + 2 ^ 64 - 1) % 2 ^ 64 },
   migr_action.send_migration_token (ring_successor C S.shard_id)
     ((S.migr_token_hops + 2 ^ 64 - 1) % 2 ^ 64) S.migr_vt)

/-- The statements of `migrate_node_step1` on the edge index for one out-edge: the entry of
the neighbour must exist; the node is erased from its set, and the entry with it when the
set becomes empty. -/
def unindex_out_edge (node_handle : Nat) (e : Nat × edge) (edge_map : List (Nat × List Nat)) :
    Except fault (List (Nat × List Nat)) :=
  match edge_map.lookup e.2.nbr.handle with
  | none => Except.error fault.assertion_failed
  | some node_set =>
    if (node_set.filter (fun x => decide (x ≠ node_handle))).isEmpty then
      Except.ok (edge_map.filter (fun p => decide (p.1 ≠ e.2.nbr.handle)))
    else
      Except.ok (assoc_set e.2.nbr.handle
        (node_set.filter (fun x => decide (x ≠ node_handle))) edge_map)

/-- The loop `for (auto &e: n->out_edges)` of `migrate_node_step1`. -/
def unindex_out_edges (node_handle : Nat) :
    List (Nat × edge) → List (Nat × List Nat) → Except fault (List (Nat × List Nat))
  | [], edge_map => Except.ok edge_map
  | e :: rest, edge_map =>
    match unindex_out_edge node_handle e edge_map with
    | Except.error err => Except.error err
    | Except.ok edge_map1 => unindex_out_edges node_handle rest edge_map1

/-- The branch of `migrate_node_step1` taken when the node was not updated: freeze the
node, reset the heartbeat counters, unindex its out-edges, rebind it in the node map. -/
def freeze_node {P NS : Type} (S : shard P NS) (node_handle shard_to : Nat) (n : node) :
    Except fault (shard P NS × List migr_action) :=
  match unindex_out_edges node_handle n.out_edges S.edge_map with
  | Except.error err => Except.error err
  | Except.ok edge_map1 =>
    Except.ok
      ({ S with
         current_migr := true,
         nop_count := S.nop_count.map (fun _ => 0),
         nodes := assoc_set node_handle
           { n with state := mode.IN_TRANSIT, new_loc := shard_to } S.nodes,
         migr_node := node_handle,
         migr_shard := shard_to,
         edge_map := edge_map1 },
       [migr_action.update_node_mapping node_handle shard_to])

/-- Function `migrate_node_step1`; `wrapper` is what the call `migration_wrapper()` of the
cancelling branch does. A missing node is a null dereference. -/
def migrate_node_step1 {P NS : Type}
    (wrapper : shard P NS → Except fault (shard P NS × List migr_action))
    (S : shard P NS) (node_handle shard_to : Nat) :
    Except fault (shard P NS × List migr_action) :=
  match acquire_node S node_handle with
  | none => Except.error fault.out_of_range
  | some n => if n.updated then wrapper S else freeze_node S node_handle shard_to n

/-- What `migration_wrapper` depends on besides the shard object: the comparison
`order::compare_two_clocks` (result `2`: identical clocks) and the successive values
returned by `rand()`, indexed by the number of earlier calls. -/
structure migr_env where
  compare_two_clocks : List Nat → List Nat → Int
  rand : Nat → Nat

/-- The test "check if okay to migrate" of `migration_wrapper` for a node that exists:
true when the candidate is skipped. -/
def skip_candidate {P NS : Type} (R : migr_env) (S : shard P NS) (n : node) : Bool :=
  decide (R.compare_two_clocks n.del_time.clock S.max_clk.clock ≠ 2)
    || decide (n.state = mode.IN_TRANSIT) || decide (n.state = mode.MOVED) || n.already_migr

/-- The candidate node after `n->updated = false` and the scoring block. -/
def scored_node (C : weaver_constants) (shard_node_count : List Nat) (n : node) : node :=
  score_node C shard_node_count { n with updated := false }

/-- The arg-max block applied to the scored candidate on shard `S`. -/
def candidate_arg_max {P NS : Type} (C : weaver_constants) (S : shard P NS)
    (shard_node_count : List Nat) (n : node) : arg_max_state :=
  find_arg_max C (shard_index C S.shard_id) (scored_node C shard_node_count n)

/-- The shard object when `migration_wrapper` has decided on position `migr_pos` for the
candidate and popped it: the node is scored, its `msg_count` reset by the arg-max loop and
`already_migr` set when the position is a later shard. -/
def decided {P NS : Type} (C : weaver_constants) (S : shard P NS)
    (shard_node_count : List Nat) (node_handle : Nat) (n : node) (migr_pos : Nat)
    (rest : List (Nat × Nat)) : shard P NS :=
  { S with
    nodes := assoc_set node_handle
      { scored_node C shard_node_count n with
        msg_count := (candidate_arg_max C S shard_node_count n).msg_count,
        already_migr :=
          if S.shard_id < migr_pos then true
          else (scored_node C shard_node_count n).already_migr }
      S.nodes,
    sorted_nodes := rest,
    rand_calls := S.rand_calls + 1 }

/-- The loop `while (!S->sorted_nodes.empty())` of `migration_wrapper` followed by the call
of `shard_daemon_end` when no migration was started. The list argument is
`S->sorted_nodes`, `shard_node_count` the copy taken when the function starts. -/
def migration_loop {P NS : Type} (C : weaver_constants) (R : migr_env) :
    List Nat → List (Nat × Nat) → shard P NS → Except fault (shard P NS × List migr_action)
  | _, [], S => Except.ok ((shard_daemon_end C S).1, [(shard_daemon_end C S).2])
  | shard_node_count, cand :: rest, S =>
    match acquire_node S cand.1 with
    | none => migration_loop C R shard_node_count rest { S with sorted_nodes := rest }
    | some n =>
      if skip_candidate R S n then
        migration_loop C R shard_node_count rest
          { S with nodes := assoc_set cand.1 { n with already_migr := false } S.nodes,
                   sorted_nodes := rest }
      else
        match get_balanced_assignment shard_node_count
            (candidate_arg_max C S shard_node_count n).max_indices (R.rand S.rand_calls) with
        | Except.error err => Except.error err
        | Except.ok pos =>
          if pos + C.SHARD_ID_INCR ≠ S.shard_id then
            match migrate_node_step1
                (fun S1 => migration_loop C R S1.shard_node_count rest S1)
                (decided C S shard_node_count cand.1 n (pos + C.SHARD_ID_INCR) rest)
                cand.1 (pos + C.SHARD_ID_INCR) with
            | Except.error err => Except.error err
            | Except.ok (S2, actions) =>
              Except.ok
                (S2, migr_action.migrate_node_step1 cand.1 (pos + C.SHARD_ID_INCR) :: actions)
          else
            migration_loop C R shard_node_count rest
              (decided C S shard_node_count cand.1 n (pos + C.SHARD_ID_INCR) rest)

/-- Function `migration_wrapper`. -/
def migration_wrapper {P NS : Type} (C : weaver_constants) (R : migr_env) (S : shard P NS) :
    Except fault (shard P NS × List migr_action) :=
  migration_loop C R S.shard_node_count S.sorted_nodes S

/-- Shard 3 of the shards 2 and 3, holding the migration token with 5 hops left. -/
def token_holder : shard Nat Unit :=
  { shard_id := 3, migr_token := true, migr_token_hops := 5, migr_vt := 0 }

/-- The calls and messages of a run of the migration engine, or `none` when it ended in a
fault. -/
def actions_of {P NS : Type} :
    Except fault (shard P NS × List migr_action) → Option (List migr_action)
  | Except.ok out => some out.2
  | Except.error _ => none

/-- The shards 2 and 3 under plain LDG scoring with a capacity of 100 nodes. -/
def ldg_shards : weaver_constants :=
  { NUM_SHARDS := 2, SHARD_ID_INCR := 2, NUM_VTS := 1, NUM_THREADS := 2, SHARD_CAP := 100,
    CLDG := false }

/-- A live, stable node without out-edges. -/
def lone_candidate : node :=
  { creat_time := clock_at 1, del_time := never, msg_count := [0, 0], migr_score := [0, 0] }

/-- Shard 2 holding the token, with node 7 as only migration candidate; it counts 5 nodes
on shard 2 and 3 nodes on shard 3. -/
def lone_candidate_shard : shard Nat Unit :=
  { shard_id := 2, nodes := [(7, lone_candidate)], sorted_nodes := [(7, 0)],
    shard_node_count := [5, 3], max_clk := never, nop_count := [0], migr_token := true,
    migr_token_hops := 3 }

/-- Clocks compared component-wise and a `rand()` that always returns 0. -/
def first_rand : migr_env :=
  { compare_two_clocks := compare_two_clocks, rand := fun _ => 0 }

/-- The whitespace test of the parsing loops: space, tab, carriage return, line feed. -/
def is_space (c : Char) : Bool :=
  decide (c = Char.ofNat 32) || decide (c = Char.ofNat 9) || decide (c = Char.ofNat 13)
    || decide (c = Char.ofNat 10)

/-- The character `line[idx]` of a `std::string`: at `idx = line.length()` it is the
terminating null character. -/
def char_at (line : List Char) (idx : Nat) : Char :=
  line.getD idx (Char.ofNat 0)

/-- The value `line[idx] - zero` with `zero = '0'`, on 64-bit unsigned integers. -/
def next_digit (c : Char) : Nat :=
  (c.toNat + 2 ^ 64 - 48) % 2 ^ 64

/-- The reference arguments `idx`, `n` and `bad` of `parse_single_uint64`. -/
structure parse_state where
  idx : Nat
  n : Nat
  bad : Bool
deriving DecidableEq, Repr

/-- The `while` loop of `parse_single_uint64`; the first argument bounds the number of
iterations. Every iteration that does not leave the loop advances `idx`, which stays below
the length of the line. -/
def parse_loop (C : weaver_constants) (line : List Char) : Nat → parse_state → parse_state
  | 0, st => st
  | fuel + 1, st =>
    if !is_space (char_at line st.idx) && decide (st.idx < line.length) then
      if 9 < next_digit (char_at line st.idx) then { st with bad := true }
      else if C.MAX_UINT64 / 10 < st.n then { st with bad := true }
      else if (st.n * 10 % 2 ^ 64 + next_digit (char_at line st.idx)) % 2 ^ 64
          < st.n * 10 % 2 ^ 64 then
        { st with n := st.n * 10 % 2 ^ 64, bad := true }
      else
        parse_loop C line fuel
          { st with
            n := (st.n * 10 % 2 ^ 64 + next_digit (char_at line st.idx)) % 2 ^ 64,
            idx := st.idx + 1 }
    else st

/-- Function `parse_single_uint64`: `n` is set to 0, then the loop runs. -/
def parse_single_uint64 (C : weaver_constants) (line : List Char) (idx : Nat) (bad : Bool) :
    parse_state :=
  parse_loop C line (line.length - idx) { idx := idx, n := 0, bad := bad }

/-- The loop of `parse_two_uint64` that skips whitespace; the first argument bounds the
number of iterations. -/
def skip_spaces (line : List Char) : Nat → Nat → Nat
  | 0, i => i
  | fuel + 1, i => if is_space (char_at line i) then skip_spaces line fuel (i + 1) else i

/-- Function `parse_two_uint64`: the pair `(n1, n2)` it leaves. -/
def parse_two_uint64 (C : weaver_constants) (line : List Char) : Nat × Nat :=
  if (parse_single_uint64 C line 0 false).bad
      || decide ((parse_single_uint64 C line 0 false).idx = line.length) then (0, 0)
  else if (parse_single_uint64 C line
      (skip_spaces line (line.length - (parse_single_uint64 C line 0 false).idx)
        (parse_single_uint64 C line 0 false).idx)
      (parse_single_uint64 C line 0 false).bad).bad then (0, 0)
  else
    ((parse_single_uint64 C line 0 false).n,
     (parse_single_uint64 C line
      (skip_spaces line (line.length - (parse_single_uint64 C line 0 false).idx)
        (parse_single_uint64 C line 0 false).idx)
      (parse_single_uint64 C line 0 false).bad).n)

/-- The characters from index `idx` up to the first whitespace character or the end of the
line. -/
def token_at (line : List Char) (idx : Nat) : List Char :=
  (line.drop idx).takeWhile (fun c => !is_space c)

/-- A decimal digit, `'0'` to `'9'`. -/
def is_digit (c : Char) : Bool :=
  decide (48 ≤ c.toNat) && decide (c.toNat ≤ 57)

/-- The number a run of decimal digits denotes, continuing from `acc`. -/
def digits_value_from (acc : Nat) (digits : List Char) : Nat :=
  digits.foldl (fun a c => a * 10 + (c.toNat - 48)) acc

/-- The number a run of decimal digits denotes; 0 for the empty run. -/
def digits_value (digits : List Char) : Nat :=
  digits_value_from 0 digits

/-- The run is made of decimal digits only and denotes a value that fits 64 bits. -/
def well_formed (digits : List Char) : Bool :=
  digits.all is_digit && decide (digits_value digits ≤ 2 ^ 64 - 1)

/-- The whitespace characters from index `idx` up to the first other character or the end
of the line. -/
def spaces_at (line : List Char) (idx : Nat) : List Char :=
  (line.drop idx).takeWhile is_space

/-- The index behind the first token of the line and the whitespace that follows it. -/
def second_start (line : List Char) : Nat :=
  (token_at line 0).length + (spaces_at line (token_at line 0).length).length

/-- The line `12 345`, as characters. -/
def snap_line : List Char := "12 345".toList

/-- A line whose first integer is `2^64`. -/
def overflowing_line : List Char := "18446744073709551616 7".toList

/-! ## Wire messages -/

/-- Enumeration `message::msg_type`, in declaration order. -/
inductive msg_type where
  | NODE_CREATE_REQ
  | EDGE_CREATE_REQ
  | NODE_CREATE_ACK
  | EDGE_CREATE_ACK
  | NODE_DELETE_REQ
  | EDGE_DELETE_REQ
  | REACHABLE_REPLY
  | REACHABLE_PROP
  | ERROR
deriving DecidableEq, Repr

/-- The integer value of an enumerator of `msg_type`. -/
def msg_type.code : msg_type → Nat
  | msg_type.NODE_CREATE_REQ => 0
  | msg_type.EDGE_CREATE_REQ => 1
  | msg_type.NODE_CREATE_ACK => 2
  | msg_type.EDGE_CREATE_ACK => 3
  | msg_type.NODE_DELETE_REQ => 4
  | msg_type.EDGE_DELETE_REQ => 5
  | msg_type.REACHABLE_REPLY => 6
  | msg_type.REACHABLE_PROP => 7
  | msg_type.ERROR => 8

/-- Class `po6::net::location` of the network library, reduced to what the messages carry:
the 32-bit address returned by `get_addr()` and the 16-bit port. -/
structure location where
  addr : Nat
  port : Nat
deriving DecidableEq, Repr

/-- Class `e::buffer` of the buffer library, reduced to its capacity and the byte stored at
every offset. -/
structure buffer where
  capacity : Nat
  bytes : Nat → Nat

/-- The call `e::buffer::create(sz)`: a buffer of `sz` bytes. -/
def buffer.create (sz : Nat) : buffer :=
  { capacity := sz, bytes := fun _ => 0 }

/-- The `w` bytes of the unsigned integer `v`, most significant byte first; higher bytes of
`v` are dropped. -/
def encode : Nat → Nat → List Nat
  | 0, _ => []
  | w + 1, v => v / 256 ^ w % 256 :: encode w v

/-- The unsigned integer whose bytes are `bs`, most significant byte first. -/
def decode (bs : List Nat) : Nat :=
  bs.foldl (fun acc x => acc * 256 + x) 0

/-- The bytes of a buffer after `bs` was stored from offset `idx` on. -/
def write_at (bytes : Nat → Nat) (idx : Nat) (bs : List Nat) : Nat → Nat :=
  fun k => if idx ≤ k ∧ k < idx + bs.length then bs.getD (k - idx) 0 else bytes k

/-- The `w` bytes of a buffer from offset `idx` on. -/
def read_at (bytes : Nat → Nat) : Nat → Nat → List Nat
  | _, 0 => []
  | idx, w + 1 => bytes idx :: read_at bytes (idx + 1) w

/-- The statement `buf->pack_at(idx) << v1 << v2 << ...`: each value, given with its width
in bytes, is stored behind the previous one. A value that does not fit the capacity is
reported as a fault. -/
def pack_fields : buffer → Nat → List (Nat × Nat) → Except fault buffer
  | b, _, [] => Except.ok b
  | b, idx, f :: rest =>
    if idx + f.1 ≤ b.capacity then
      pack_fields { b with bytes := write_at b.bytes idx (encode f.1 f.2) } (idx + f.1) rest
    else Except.error fault.out_of_range

/-- The statement `buf->unpack_from(idx) >> x1 >> x2 >> ...` for variables of the given
widths in bytes: the values read, in order. -/
def unpack_fields : buffer → Nat → List Nat → Except fault (List Nat)
  | _, _, [] => Except.ok []
  | b, idx, w :: rest =>
    if idx + w ≤ b.capacity then
      match unpack_fields b (idx + w) rest with
      | Except.error err => Except.error err
      | Except.ok vals => Except.ok (decode (read_at b.bytes idx w) :: vals)
    else Except.error fault.out_of_range

/-- The statement `index += k` on the 32-bit unsigned variable `index`. -/
def next_index (index k : Nat) : Nat :=
  (index + k) % 2 ^ 32

/-- A loop `for (i = 0; i < n; i++, index += stride) buf->pack_at(index) << ...`: `row i`
gives the values packed for `i`, or nothing when a vector is read out of its bounds. The
list argument holds the values of `i` still to run. -/
def pack_loop (row : Nat → Option (List (Nat × Nat))) (stride : Nat) :
    List Nat → buffer → Nat → Except fault (buffer × Nat)
  | [], b, index => Except.ok (b, index)
  | i :: rest, b, index =>
    match row i with
    | none => Except.error fault.out_of_range
    | some fields =>
      match pack_fields b index fields with
      | Except.error err => Except.error err
      | Except.ok b1 => pack_loop row stride rest b1 (next_index index stride)

/-- A loop `for (i = 0; i < n; i++, index += stride) buf->unpack_from(index) >> ...` that
reads variables of the given widths and then runs `body` on them. -/
def unpack_loop {σ : Type} (widths : List Nat) (stride : Nat) (body : Nat → List Nat → σ → σ)
    (b : buffer) : List Nat → Nat → σ → Except fault (σ × Nat)
  | [], index, s => Except.ok (s, index)
  | i :: rest, index, s =>
    match unpack_fields b index widths with
    | Except.error err => Except.error err
    | Except.ok vals =>
      unpack_loop widths stride body b rest (next_index index stride) (body i vals s)

/-- Class `message::message`: the type and the buffer, which is null until a `prep_`
function creates it. -/
structure message where
  type : msg_type
  buf : Option buffer := none

/-- Function `message::prep_node_create`. -/
def prep_node_create (C : weaver_constants) (creat_time : Nat) : Except fault message :=
  match pack_fields (buffer.create (C.BUSYBEE_HEADER_SIZE + 4 + 8)) C.BUSYBEE_HEADER_SIZE
      [(4, msg_type.NODE_CREATE_REQ.code), (8, creat_time)] with
  | Except.error err => Except.error err
  | Except.ok b => Except.ok { type := msg_type.NODE_CREATE_REQ, buf := some b }

/-- Function `message::unpack_node_create`: the message it leaves and `*creat_time`. -/
def unpack_node_create (C : weaver_constants) (m : message) : Except fault (message × Nat) :=
  match m.buf with
  | none => Except.error fault.out_of_range
  | some b =>
    match unpack_fields b C.BUSYBEE_HEADER_SIZE [4] with
    | Except.ok [_type] =>
      if _type = msg_type.NODE_CREATE_REQ.code then
        match unpack_fields b (next_index C.BUSYBEE_HEADER_SIZE 4) [8] with
        | Except.ok [time] => Except.ok ({ m with type := msg_type.NODE_CREATE_REQ }, time)
        | _ => Except.error fault.out_of_range
      else Except.error fault.assertion_failed
    | _ => Except.error fault.out_of_range

/-- Function `message::prep_create_ack`. -/
def prep_create_ack (C : weaver_constants) (mem_addr : Nat) (node : Bool) :
    Except fault message :=
  match pack_fields (buffer.create (C.BUSYBEE_HEADER_SIZE + 4 + 8)) C.BUSYBEE_HEADER_SIZE
      [(4, (if node then msg_type.NODE_CREATE_ACK else msg_type.EDGE_CREATE_ACK).code),
       (8, mem_addr)] with
  | Except.error err => Except.error err
  | Except.ok b =>
    Except.ok
      { type := if node then msg_type.NODE_CREATE_ACK else msg_type.EDGE_CREATE_ACK,
        buf := some b }

/-- Function `message::prep_node_create_ack`. -/
def prep_node_create_ack (C : weaver_constants) (mem_addr : Nat) : Except fault message :=
  prep_create_ack C mem_addr true

/-- Function `message::prep_edge_create_ack`. -/
def prep_edge_create_ack (C : weaver_constants) (mem_addr : Nat) : Except fault message :=
  prep_create_ack C mem_addr false

/-- Function `message::unpack_create_ack`: the message it leaves and `*mem_addr`. -/
def unpack_create_ack (C : weaver_constants) (m : message) : Except fault (message × Nat) :=
  match m.buf with
  | none => Except.error fault.out_of_range
  | some b =>
    match unpack_fields b C.BUSYBEE_HEADER_SIZE [4] with
    | Except.ok [_type] =>
      if _type = msg_type.NODE_CREATE_ACK.code then
        match unpack_fields b (next_index C.BUSYBEE_HEADER_SIZE 4) [8] with
        | Except.ok [addr] => Except.ok ({ m with type := msg_type.NODE_CREATE_ACK }, addr)
        | _ => Except.error fault.out_of_range
      else if _type = msg_type.EDGE_CREATE_ACK.code then
        match unpack_fields b (next_index C.BUSYBEE_HEADER_SIZE 4) [8] with
        | Except.ok [addr] => Except.ok ({ m with type := msg_type.EDGE_CREATE_ACK }, addr)
        | _ => Except.error fault.out_of_range
      else Except.error fault.assertion_failed
    | _ => Except.error fault.out_of_range

/-- Function `message::prep_node_delete`. -/
def prep_node_delete (C : weaver_constants) (node_handle del_time : Nat) :
    Except fault message :=
  match pack_fields (buffer.create (C.BUSYBEE_HEADER_SIZE + 4 + 8 + 8)) C.BUSYBEE_HEADER_SIZE
      [(4, msg_type.NODE_DELETE_REQ.code), (8, node_handle), (8, del_time)] with
  | Except.error err => Except.error err
  | Except.ok b => Except.ok { type := msg_type.NODE_DELETE_REQ, buf := some b }

/-- Function `message::unpack_node_delete`: the pair `(*node_handle, *del_time)`; the
message is left as it is. -/
def unpack_node_delete (C : weaver_constants) (m : message) : Except fault (Nat × Nat) :=
  match m.buf with
  | none => Except.error fault.out_of_range
  | some b =>
    match unpack_fields b C.BUSYBEE_HEADER_SIZE [4] with
    | Except.ok [_type] =>
      if _type = msg_type.NODE_DELETE_REQ.code then
        match unpack_fields b (next_index C.BUSYBEE_HEADER_SIZE 4) [8, 8] with
        | Except.ok [node_addr, time] => Except.ok (node_addr, time)
        | _ => Except.error fault.out_of_range
      else Except.error fault.assertion_failed
    | _ => Except.error fault.out_of_range

/-- The values that `unpack_reachable_prop` returns and stores through its arguments. -/
structure reachable_prop where
  src_nodes : List Nat
  src_loc : location
  dest_node : Nat
  dest_loc : location
  req_counter : Nat
  prev_req_counter : Nat
  vector_clock : List Nat
deriving DecidableEq, Repr

/-- The row of a loop that packs element `i` of a vector of 64-bit values. -/
def row_of (v : List Nat) (i : Nat) : Option (List (Nat × Nat)) :=
  match v[i]? with
  | none => none
  | some x => some [(8, x)]

/-- Function `message::prep_reachable_prop`. -/
def prep_reachable_prop (C : weaver_constants) (src_nodes : List Nat) (src_loc : location)
    (dest_node : Nat) (dest_loc : location) (req_counter prev_req_counter : Nat)
    (vector_clock : List Nat) : Except fault message :=
  match pack_fields
      (buffer.create (C.BUSYBEE_HEADER_SIZE + 4 + 8 + src_nodes.length * 8 + 4 + 2 + 8 + 4 + 2
        + 4 + 4 + C.NUM_SHARDS * 8))
      C.BUSYBEE_HEADER_SIZE [(4, msg_type.REACHABLE_PROP.code)] with
  | Except.error err => Except.error err
  | Except.ok b1 =>
    match pack_loop (row_of vector_clock) 8 (List.range C.NUM_SHARDS) b1
        (next_index C.BUSYBEE_HEADER_SIZE 4) with
    | Except.error err => Except.error err
    | Except.ok (b2, index2) =>
      match pack_fields b2 index2 [(8, src_nodes.length)] with
      | Except.error err => Except.error err
      | Except.ok b3 =>
        match pack_loop (row_of src_nodes) 8 (List.range src_nodes.length) b3
            (next_index index2 8) with
        | Except.error err => Except.error err
        | Except.ok (b4, index4) =>
          match pack_fields b4 index4
              [(4, src_loc.addr), (2, src_loc.port), (8, dest_node), (4, dest_loc.addr),
               (2, dest_loc.port), (4, req_counter), (4, prev_req_counter)] with
          | Except.error err => Except.error err
          | Except.ok b5 => Except.ok { type := msg_type.REACHABLE_PROP, buf := some b5 }

/-- Function `message::unpack_reachable_prop`: the message it leaves and the values it
returns and stores. -/
def unpack_reachable_prop (C : weaver_constants) (m : message) :
    Except fault (message × reachable_prop) :=
  match m.buf with
  | none => Except.error fault.out_of_range
  | some b =>
    match unpack_fields b C.BUSYBEE_HEADER_SIZE [4] with
    | Except.ok [_type] =>
      if _type = msg_type.REACHABLE_PROP.code then
        match unpack_loop [8] 8 (fun i vals (vc : List Nat) => vc.set i (vals.getD 0 0)) b
            (List.range C.NUM_SHARDS) (next_index C.BUSYBEE_HEADER_SIZE 4)
            (List.replicate C.NUM_SHARDS 0) with
        | Except.error err => Except.error err
        | Except.ok (vector_clock, index2) =>
          match unpack_fields b index2 [8] with
          | Except.ok [num_nodes] =>
            match unpack_loop [8] 8 (fun _ vals (src : List Nat) => src ++ [vals.getD 0 0]) b
                (List.range num_nodes) (next_index index2 8) [] with
            | Except.error err => Except.error err
            | Except.ok (src, index4) =>
              match unpack_fields b index4 [4, 2, 8, 4, 2, 4, 4] with
              | Except.ok [src_ipaddr, src_port, dest, dest_ipaddr, dest_port, r_count,
                  p_r_count] =>
                Except.ok
                  ({ m with type := msg_type.REACHABLE_PROP },
                   { src_nodes := src,
                     src_loc := { addr := src_ipaddr, port := src_port },
                     dest_node := dest,
                     dest_loc := { addr := dest_ipaddr, port := dest_port },
                     req_counter := r_count,
                     prev_req_counter := p_r_count,
                     vector_clock := vector_clock })
              | _ => Except.error fault.out_of_range
          | _ => Except.error fault.out_of_range
      else Except.error fault.assertion_failed
    | _ => Except.error fault.out_of_range

/-- The values that `unpack_reachable_rep` returns and stores through its arguments. -/
structure reachable_rep where
  req_counter : Nat
  is_reachable : Bool
  src_node : Nat
  num_del_nodes : Nat
  del_nodes : List Nat
  del_times : List Nat
  src_loc : location
deriving DecidableEq, Repr

/-- The row of the loop of `prep_reachable_rep` for `i`: `(*del_nodes)[i]` and
`(*del_times)[i]`. -/
def del_row (del_nodes del_times : List Nat) (i : Nat) : Option (List (Nat × Nat)) :=
  match del_nodes[i]?, del_times[i]? with
  | some del_node, some del_time => some [(8, del_node), (8, del_time)]
  | _, _ => none

/-- Function `message::prep_reachable_rep`. -/
def prep_reachable_rep (C : weaver_constants) (req_counter : Nat) (is_reachable : Bool)
    (src_node : Nat) (src_loc : location) (del_nodes del_times : List Nat) :
    Except fault message :=
  match pack_fields
      (buffer.create (C.BUSYBEE_HEADER_SIZE + 4 + 4 + 4 + 8 + 2 + 4 + 8 + del_nodes.length * 8
        + del_times.length * 8))
      C.BUSYBEE_HEADER_SIZE
      [(4, msg_type.REACHABLE_REPLY.code), (8, del_nodes.length)] with
  | Except.error err => Except.error err
  | Except.ok b1 =>
    match pack_loop (del_row del_nodes del_times) (8 + 8) (List.range del_nodes.length) b1
        (next_index C.BUSYBEE_HEADER_SIZE (4 + 8)) with
    | Except.error err => Except.error err
    | Except.ok (b2, index2) =>
      match pack_fields b2 index2
          [(4, req_counter), (4, if is_reachable then 1 else 0), (8, src_node),
           (4, src_loc.addr), (2, src_loc.port)] with
      | Except.error err => Except.error err
      | Except.ok b3 => Except.ok { type := msg_type.REACHABLE_REPLY, buf := some b3 }

/-- Function `message::unpack_reachable_rep`; `del_nodes` and `del_times` are the vectors
the caller passes, to which the function appends. -/
def unpack_reachable_rep (C : weaver_constants) (m : message) (del_nodes del_times : List Nat) :
    Except fault (message × reachable_rep) :=
  match m.buf with
  | none => Except.error fault.out_of_range
  | some b =>
    match unpack_fields b C.BUSYBEE_HEADER_SIZE [4] with
    | Except.ok [_type] =>
      if _type = msg_type.REACHABLE_REPLY.code then
        match unpack_fields b (next_index C.BUSYBEE_HEADER_SIZE 4) [8] with
        | Except.ok [n_del_nodes] =>
          match unpack_loop [8, 8] (8 + 8)
              (fun _ vals (s : List Nat × List Nat) =>
                (s.1 ++ [vals.getD 0 0], s.2 ++ [vals.getD 1 0]))
              b (List.range n_del_nodes)
              (next_index (next_index C.BUSYBEE_HEADER_SIZE 4) 8) (del_nodes, del_times) with
          | Except.error err => Except.error err
          | Except.ok (dels, index2) =>
            match unpack_fields b index2 [4, 4, 8, 4, 2] with
            | Except.ok [r_count, reachable, s_node, s_ipaddr, s_port] =>
              Except.ok
                ({ m with type := msg_type.REACHABLE_REPLY },
                 { req_counter := r_count,
                   is_reachable := decide (reachable ≠ 0),
                   src_node := s_node,
                   num_del_nodes := n_del_nodes,
                   del_nodes := dels.1,
                   del_times := dels.2,
                   src_loc := { addr := s_ipaddr, port := s_port } })
            | _ => Except.error fault.out_of_range
        | _ => Except.error fault.out_of_range
      else Except.error fault.assertion_failed
    | _ => Except.error fault.out_of_range

/-- The values a reader of the given widths finds where row `i` of a packing loop was
stored: each packed value reduced to its width. -/
def row_values (row : Nat → Option (List (Nat × Nat))) (i : Nat) : List Nat :=
  ((row i).getD []).map (fun f => f.2 % 256 ^ f.1)

/-- Two shards and a message header of 5 bytes. -/
def wire_constants : weaver_constants :=
  { NUM_SHARDS := 2, SHARD_ID_INCR := 1, NUM_VTS := 1, NUM_THREADS := 1,
    BUSYBEE_HEADER_SIZE := 5 }

/-! ## Reading the properties of a node -/

/-- Enumeration `node_prog::search_type`; its header is not among the sources, the program
modelled here returns `DEPTH_FIRST`. -/
inductive search_type where
  | BREADTH_FIRST
  | DEPTH_FIRST
deriving DecidableEq, Repr

/-- Class `node_prog::read_node_props_params`: the keys asked for and the properties
collected, as pairs of key and value. -/
structure read_node_props_params where
  keys : List String
  node_props : List (String × String)
deriving DecidableEq, Repr

/-- The loop `for (property &prop : n.get_properties())` of `read_node_props_node_program`
over the properties, given as pairs of `get_key()` and `get_value()`; the last argument is
`params.node_props`. -/
def collect_props (fetch_all : Bool) (keys : List String) :
    List (String × String) → List (String × String) → List (String × String)
  | [], node_props => node_props
  | prop :: rest, node_props =>
    if fetch_all || decide (prop.1 ∈ keys) then
      collect_props fetch_all keys rest (node_props ++ [(prop.1, prop.2)])
    else collect_props fetch_all keys rest node_props

/-- Function `node_prog::read_node_props_node_program`. The node is given by the properties
that iterating `n.get_properties()` yields, in that order; `coordinator` is the constant
`db::element::coordinator`. The arguments that the function does not name are left out. -/
def read_node_props_node_program (coordinator : remote_node)
    (properties : List (String × String)) (params : read_node_props_params) :
    search_type × List (remote_node × read_node_props_params) :=
  (search_type.DEPTH_FIRST,
   [(coordinator,
     { params with
       node_props := collect_props params.keys.isEmpty params.keys properties
         params.node_props })])

/-! ## Configuration constants -/

/-- Function `update_config_constants`, as a function of the global `NumShards`: the new
value of `NumShards`, or the failed assertion. -/
def update_config_constants (NumShards num_shards : Nat) : Except fault Nat :=
  if NumShards ≤ num_shards then Except.ok num_shards
  else Except.error fault.assertion_failed

/-- Function `get_num_shards`, as a function of the global `NumShards`. -/
def get_num_shards (NumShards : Nat) : Nat :=
  NumShards

/-- The successive values of `NumShards` over a sequence of calls of
`update_config_constants` with the given arguments, up to the first call that fails its
assertion and ends the process. -/
def num_shards_history : Nat → List Nat → List Nat
  | NumShards, [] => [NumShards]
  | NumShards, num_shards :: rest =>
    match update_config_constants NumShards num_shards with
    | Except.ok v => NumShards :: num_shards_history v rest
    | Except.error _ => [NumShards]

/-- A sequence of calls of `update_config_constants`: the value of `NumShards` it leaves,
or the first failed assertion. -/
def update_all : Nat → List Nat → Except fault Nat
  | NumShards, [] => Except.ok NumShards
  | NumShards, num_shards :: rest =>
    match update_config_constants NumShards num_shards with
    | Except.ok v => update_all v rest
    | Except.error err => Except.error err

/-! ## Client transactions -/

/-- Return codes `busybee_returncode` of the messaging library: the four that `client.cc`
names, and any other code. -/
inductive busybee_returncode where
  | BUSYBEE_SUCCESS
  | BUSYBEE_DISRUPTED
  | BUSYBEE_TIMEOUT
  | BUSYBEE_INTERRUPTED
  | other (code : Nat)
deriving DecidableEq, Repr

/-- The type of a reply received by the client, as `unpack_message_type` returns it: the
two types `end_tx` names, and any other type. -/
inductive reply_type where
  | CLIENT_TX_SUCCESS
  | CLIENT_TX_ABORT
  | other (code : Nat)
deriving DecidableEq, Repr

/-- What `end_tx` depends on besides the client object: the code returned by the call
`comm->send` of `send_coord`, the code and reply returned by the successive calls of
`comm->recv`, and the answers of the successive calls of `maintain_sm_connection`, both
indexed by the number of earlier calls. -/
structure client_env where
  send : busybee_returncode
  recv : Nat → busybee_returncode × reply_type
  sm_ok : Nat → Bool

/-- Class `cl::client`, restricted to the transaction fields, with the number of calls of
`comm->recv` and of `maintain_sm_connection` made so far. -/
structure client where
  cur_tx_id : Nat := 2 ^ 64 - 1
  tx_id_ctr : Nat := 0
  cur_tx : List pending_update := []
  recv_calls : Nat := 0
  sm_calls : Nat := 0
deriving DecidableEq, Repr

/-- Actions of `end_tx`, in program order. -/
inductive client_event where
  | send_client_tx_init (cur_tx_id : Nat) (cur_tx : List pending_update)
  | reconfigure
deriving DecidableEq, Repr

/-- Function `client::begin_tx`; the counter is a 64-bit unsigned integer. -/
def begin_tx (c : client) : Except fault client :=
  if c.cur_tx_id = 2 ^ 64 - 1 then
    Except.ok { c with cur_tx_id := (c.tx_id_ctr + 1) % 2 ^ 64,
                       tx_id_ctr := (c.tx_id_ctr + 1) % 2 ^ 64 }
  else Except.error fault.assertion_failed

/-- Function `client::recv_coord`: the loop calls `comm->recv` again while it returns
`BUSYBEE_INTERRUPTED`. The first argument bounds the number of iterations; the result is
the code and reply of the last call and the number of calls made so far, or `none` when
the bound is reached. -/
def recv_coord (E : client_env) :
    Nat → Nat → Option ((busybee_returncode × reply_type) × Nat)
  | 0, _ => none
  | fuel + 1, calls =>
    if (E.recv calls).1 = busybee_returncode.BUSYBEE_INTERRUPTED then
      recv_coord E fuel (calls + 1)
    else some (E.recv calls, calls + 1)

/-- Function `client::reconfigure`: the loop calls `maintain_sm_connection` until it
succeeds. The first argument bounds the number of iterations; the result is the number of
calls made so far, or `none` when the bound is reached. -/
def reconfigure (E : client_env) : Nat → Nat → Option Nat
  | 0, _ => none
  | fuel + 1, calls =>
    if E.sm_ok calls then some (calls + 1) else reconfigure E fuel (calls + 1)

/-- What a call of `end_tx` that returns leaves: the value returned, or the failed
assertion on the type of the reply, the client object and the actions performed. -/
structure end_tx_result where
  ret : Except fault Bool
  c : client
  trace : List client_event

/-- The part of `end_tx` behind a successful send: `recv_coord` and the `switch` on its
code, then the statements behind the loop. `retry` is false whenever the loop condition is
evaluated, so the body runs once. -/
def end_tx_recv (E : client_env) (fuel : Nat) (c : client) (trace : List client_event) :
    Option end_tx_result :=
  match recv_coord E fuel c.recv_calls with
  | none => none
  | some (reply, calls) =>
    if reply.1 = busybee_returncode.BUSYBEE_TIMEOUT
        ∨ reply.1 = busybee_returncode.BUSYBEE_DISRUPTED then
      match reconfigure E fuel c.sm_calls with
      | none => none
      | some sm_calls =>
        some { ret := Except.ok false,
               c := { c with recv_calls := calls, sm_calls := sm_calls },
               trace := trace ++ [client_event.reconfigure] }
    else if reply.1 = busybee_returncode.BUSYBEE_SUCCESS then
      if reply.2 = reply_type.CLIENT_TX_SUCCESS then
        some { ret := Except.ok true,
               c := { c with recv_calls := calls, cur_tx_id := 2 ^ 64 - 1, cur_tx := [] },
               trace := trace }
      else if reply.2 = reply_type.CLIENT_TX_ABORT then
        some { ret := Except.ok false,
               c := { c with recv_calls := calls, cur_tx_id := 2 ^ 64 - 1, cur_tx := [] },
               trace := trace }
      else
        some { ret := Except.error fault.assertion_failed,
               c := { c with recv_calls := calls },
               trace := trace }
    else
      some { ret := Except.ok false,
             c := { c with recv_calls := calls, cur_tx_id := 2 ^ 64 - 1, cur_tx := [] },
             trace := trace }

/-- Function `client::end_tx`; `fuel` bounds the iterations of the loops of `recv_coord`
and `reconfigure`, and the result is `none` when a bound is reached. -/
def end_tx (E : client_env) (fuel : Nat) (c : client) : Option end_tx_result :=
  if c.cur_tx_id = 2 ^ 64 - 1 then some { ret := Except.ok false, c := c, trace := [] }
  else if E.send = busybee_returncode.BUSYBEE_DISRUPTED then
    match reconfigure E fuel c.sm_calls with
    | none => none
    | some sm_calls =>
      some { ret := Except.ok false,
             c := { c with sm_calls := sm_calls },
             trace := [client_event.send_client_tx_init c.cur_tx_id c.cur_tx,
                       client_event.reconfigure] }
  else if E.send ≠ busybee_returncode.BUSYBEE_SUCCESS then
    some { ret := Except.ok false, c := c,
           trace := [client_event.send_client_tx_init c.cur_tx_id c.cur_tx] }
  else
    end_tx_recv E fuel c [client_event.send_client_tx_init c.cur_tx_id c.cur_tx]

/-- The transactions sent to the coordinator in a trace of `end_tx`. -/
def sent_txs : List client_event → List (Nat × List pending_update)
  | [] => []
  | client_event.send_client_tx_init cur_tx_id cur_tx :: rest =>
    (cur_tx_id, cur_tx) :: sent_txs rest
  | client_event.reconfigure :: rest => sent_txs rest

/-- Whether a call of `end_tx` returned `true`. -/
def returned_true : Option end_tx_result → Bool
  | some { ret := Except.ok true, .. } => true
  | _ => false

/-- The client object that a call of `end_tx` leaves when it returns a value. -/
def client_after : Option end_tx_result → Option client
  | some { ret := Except.ok _, c := c, .. } => some c
  | _ => none

/-- A client with the open transaction 1 holding one node creation. -/
def open_client : client :=
  { cur_tx_id := 1, tx_id_ctr := 1,
    cur_tx := [{ type := update_type.NODE_CREATE_REQ, handle := 7 }] }

/-- A transport whose send is disrupted, while the server manager answers at once. -/
def disrupted_send : client_env :=
  { send := busybee_returncode.BUSYBEE_DISRUPTED,
    recv := fun _ => (busybee_returncode.BUSYBEE_SUCCESS, reply_type.CLIENT_TX_SUCCESS),
    sm_ok := fun _ => true }

/-- A transport that works: the send succeeds and the reply is `CLIENT_TX_SUCCESS`. -/
def working_transport : client_env :=
  { send := busybee_returncode.BUSYBEE_SUCCESS,
    recv := fun _ => (busybee_returncode.BUSYBEE_SUCCESS, reply_type.CLIENT_TX_SUCCESS),
    sm_ok := fun _ => true }

/-! ## Starting a shard -/

/-- Enumeration `db::graph_file_format`. -/
inductive graph_file_format where
  | TSV
  | SNAP
  | WEAVER
deriving DecidableEq, Repr

/-- What `main` of the shard does after reading its arguments, in program order. -/
inductive main_event where
  | new_shard (id : Nat)
  | init_nmap
  | load_graph (format : graph_file_format) (graph_file : String)
  | send_loaded_graph
  | msgrecv_loop
deriving DecidableEq, Repr

/-- The format chosen by the `strcmp` chain of `main`; `format` starts as `db::SNAP` and
the last branch only writes a debug line. -/
def format_of (arg : String) : graph_file_format :=
  if arg = "tsv" then graph_file_format.TSV
  else if arg = "snap" then graph_file_format.SNAP
  else if arg = "weaver" then graph_file_format.WEAVER
  else graph_file_format.SNAP

/-- Function `main` of the shard for the argument vector `argv`, where `argc` is its
length and `atoi` the library function (its result is converted to a 64-bit unsigned
integer): the actions performed and the value returned, `none` when `main` has entered
`msgrecv_loop`, which it leaves only through `exit`. -/
def shard_main (atoi : String → Int) (argv : List String) : List main_event × Option Int :=
  if argv.length ≠ 2 ∧ argv.length ≠ 4 then ([], some (-1))
  else if argv.length = 4 then
    ([main_event.new_shard (atoi (argv.getD 1 "") % 2 ^ 64).toNat,
      main_event.init_nmap,
      main_event.load_graph (format_of (argv.getD 2 "")) (argv.getD 3 ""),
      main_event.send_loaded_graph,
      main_event.msgrecv_loop], none)
  else
    ([main_event.new_shard (atoi (argv.getD 1 "") % 2 ^ 64).toNat,
      main_event.msgrecv_loop], none)

/-! ## Triangle program -/

/-- The loop of `get_num_edges` over the out-edges; the last argument is `toRet`. The two
assertions `cmp_1 != 2` and `cmp_2 != 2` end the function when they fail. -/
def count_edges (compare_two_vts : vclock → vclock → Int) (req_vclock : vclock) :
    List (Nat × edge) → Nat → Except fault Nat
  | [], toRet => Except.ok toRet
  | e :: rest, toRet =>
    if compare_two_vts e.2.creat_time req_vclock = 2 then Except.error fault.assertion_failed
    else if compare_two_vts e.2.creat_time req_vclock = 0 then
      if compare_two_vts e.2.del_time req_vclock = 2 then
        Except.error fault.assertion_failed
      else if compare_two_vts e.2.del_time req_vclock = 1 then
        count_edges compare_two_vts req_vclock rest (toRet + 1)
      else count_edges compare_two_vts req_vclock rest toRet
    else count_edges compare_two_vts req_vclock rest toRet

/-- Function `node_prog::get_num_edges`; `compare_two_vts` is `order::compare_two_vts`
(result `0`: first argument earlier, `1`: second earlier, `2`: identical). The counter is
an `int`, which a node with fewer than `2^31` out-edges does not overflow. -/
def get_num_edges (compare_two_vts : vclock → vclock → Int) (n : node)
    (req_vclock : vclock) : Except fault Nat :=
  count_edges compare_two_vts req_vclock n.out_edges 0

/-- The test of `get_num_edges` on one out-edge: created before the request and deleted
after it. -/
def counted (compare_two_vts : vclock → vclock → Int) (req_vclock : vclock)
    (e : Nat × edge) : Bool :=
  decide (compare_two_vts e.2.creat_time req_vclock = 0)
    && decide (compare_two_vts e.2.del_time req_vclock = 1)

/-- No comparison made by `get_num_edges` on the out-edge finds two identical clocks. -/
def distinct_times (compare_two_vts : vclock → vclock → Int) (req_vclock : vclock)
    (e : Nat × edge) : Prop :=
  compare_two_vts e.2.creat_time req_vclock ≠ 2
    ∧ (compare_two_vts e.2.creat_time req_vclock = 0 →
        compare_two_vts e.2.del_time req_vclock ≠ 2)

/-- The result of `get_num_edges`, or `none` when an assertion failed. -/
def num_edges_of : Except fault Nat → Option Nat
  | Except.ok num => some num
  | Except.error _ => none

/-- A node with one out-edge, created at clock value 6 and not deleted. -/
def node_with_new_edge : node :=
  { creat_time := clock_at 1, del_time := never,
    out_edges :=
      [(11, { creat_time := clock_at 6, del_time := never, nbr := { loc := 2, handle := 9 } })] }

/-- Shard 1 holding only node 7, created at clock value 5 and not deleted. -/
def shard_with_one_node : shard triangle_params Unit :=
  { shard_id := 1, max_prog_id := [0],
    nodes := [(7, { creat_time := clock_at 5, del_time := never })] }

/-- A single worker thread. -/
def one_thread : weaver_constants :=
  { NUM_SHARDS := 2, SHARD_ID_INCR := 1, NUM_VTS := 1, NUM_THREADS := 1 }

/-- The fault that ended a run, if any. -/
def fault_of {α : Type} : Except fault α → Option fault
  | Except.ok _ => none
  | Except.error err => some err

/-- The edge index of a shard is consistent: every local node that has an out-edge to a
node `b` is in the set stored under `b`, and every member `a` of a set stored under `b` is
a local node with an out-edge to `b`. -/
def edge_map_consistent {P NS : Type} (S : shard P NS) : Bool :=
  S.nodes.all (fun a =>
      a.2.out_edges.all (fun e =>
        decide (a.1 ∈ (S.edge_map.lookup e.2.nbr.handle).getD [])))
    && S.edge_map.all (fun entry =>
      entry.2.all (fun a =>
        ((S.nodes.lookup a).map (fun n =>
          n.out_edges.any (fun e => decide (e.2.nbr.handle = entry.1)))).getD false))

/-- Shard 2 holding node 7, which has two out-edges to node 9 on shard 3 and has not been
updated; the edge index stores node 7 under node 9. -/
def shard_with_parallel_edges : shard Nat Unit :=
  { shard_id := 2,
    nodes :=
      [(7, { creat_time := clock_at 1, del_time := never,
             out_edges :=
               [(11, { creat_time := clock_at 1, del_time := never,
                       nbr := { loc := 3, handle := 9 } }),
                (12, { creat_time := clock_at 1, del_time := never,
                       nbr := { loc := 3, handle := 9 } })] })],
    edge_map := [(9, [7])], nop_count := [0] }

/-- The shard object of `nop` between the assignment of `max_done_id` and the call of
`check_step3`; `S1` is the shard object after the heartbeat was counted. -/
def nop_before_step3 {P NS : Type} (S1 : shard P NS) (nop_arg : nop_data) : shard P NS :=
  { (nop_token_step S1).1 with
    max_done_id := (nop_token_step S1).1.max_done_id.set nop_arg.vt_id nop_arg.max_done_id }

/-- The functions that the dispatch statement of `nop` can call. -/
inductive nop_call where
  | migrate_node_step2_req
  | shard_daemon_begin
  | migrate_node_step3
deriving DecidableEq, Repr

/-- The dispatch statement of `nop`: the function called, if any. -/
def dispatch {P NS : Type} (r : nop_result P NS) : Option nop_call :=
  if r.check_move_migr then some nop_call.migrate_node_step2_req
  else if r.check_init_migr then some nop_call.shard_daemon_begin
  else if r.check_migr_step3 then some nop_call.migrate_node_step3
  else none

/-- Shard 2 of the shards 2 and 3 right after it received the migration token with 5 hops
left: it is not migrating and no acknowledgement is in. -/
def token_receiver : shard Nat Unit :=
  { shard_id := 2, nop_count := [0, 0], migr_token := true, migr_token_hops := 5,
    max_done_id := [0, 0], target_prog_id := [0, 0], migr_edge_acks := [false, false],
    shard_node_count := [1, 0] }

/-- The params that a trace sends back to the timestamper as `NODE_PROG_RETURN`, in
order. -/
def returns_sent {P : Type} : List (event P) → List P
  | [] => []
  | event.send_node_prog_return _ _ _ params :: rest => params :: returns_sent rest
  | _ :: rest => returns_sent rest

/-- Whether a run of `unpack_and_run_db` returned within its iteration bound. -/
def returned_of {P NS : Type} : Except fault (outcome P NS) → Option Bool
  | Except.ok out => some out.returned
  | Except.error _ => none

/-! ## The migration state machine of a shard -/

/-- Function `shard_daemon_begin`: the aggregate message counts are moved out of the shard
object, every node is appended to `sorted_nodes` (with its count under CLDG, with 0
otherwise), then `migration_wrapper` runs. -/
def shard_daemon_begin {P NS : Type} (C : weaver_constants) (R : migr_env) (S : shard P NS) :
    Except fault (shard P NS × List migr_action) :=
  migration_wrapper C R
    { S with
      agg_msg_count := [],
      sorted_nodes :=
        S.sorted_nodes ++ S.nodes.map (fun entry =>
          (entry.1, if C.CLDG then (S.agg_msg_count.lookup entry.1).getD 0 else 0)) }

/-- Function `migrate_node_step3`. The method `shard::delete_migrated_node` is in
`db/shard.h`, which is not among the sources; it is the argument `delete_migrated_node`. -/
def migrate_node_step3 {P NS : Type} (C : weaver_constants) (R : migr_env)
    (delete_migrated_node : shard P NS → Nat → shard P NS) (S : shard P NS) :
    Except fault (shard P NS × List migr_action) :=
  migration_wrapper C R (delete_migrated_node S S.migr_node)

/-- A heartbeat of timestamper `vt_id` that reports `max_done_id` as its largest done
request. -/
def heartbeat_done (vt_id max_done_id : Nat) : nop_data :=
  { vt_id := vt_id, max_done_id := max_done_id, shard_node_count := [1, 0] }

/-- The shard `token_receiver` with the done requests 100 of timestamper 0 and 5 of
timestamper 1 on record. -/
def busy_token_receiver : shard Nat Unit :=
  { token_receiver with max_done_id := [100, 5] }

/-- Shard 1 holding the nodes 3, 4, 7, 8 and 9, all created at clock value 5 and not
deleted. -/
def shard_with_five_nodes : shard triangle_params Unit :=
  { shard_id := 1, max_prog_id := [0],
    nodes := [(3, { creat_time := clock_at 5, del_time := never }),
              (4, { creat_time := clock_at 5, del_time := never }),
              (7, { creat_time := clock_at 5, del_time := never }),
              (8, { creat_time := clock_at 5, del_time := never }),
              (9, { creat_time := clock_at 5, del_time := never })] }

/-- The handles of the start tuples of every message that a trace hands to
`add_read_request`, message by message. -/
def enqueued_handles {P : Type} : List (event P) → List (List Nat)
  | [] => []
  | event.add_read_request _ m :: rest =>
    m.start_node_params.map (fun tup => tup.handle) :: enqueued_handles rest
  | _ :: rest => enqueued_handles rest

/-- A start tuple for node `h` with params 0 and no previous node. -/
def tuple_for (h : Nat) : node_params_t Nat :=
  { handle := h, params := 0, prev := { loc := 0, handle := 0 } }

/-- Shard 1 holding four nodes created at clock value 1: node 6 was deleted at clock value
4, node 7 is not deleted, node 8 is not deleted and in transit to shard 2, node 10 was
deleted at clock value 6. It holds no node 5. -/
def dispatch_shard : shard Nat Unit :=
  { shard_id := 1, max_prog_id := [0],
    nodes := [(6, { creat_time := clock_at 1, del_time := clock_at 4 }),
              (7, { creat_time := clock_at 1, del_time := never }),
              (8, { creat_time := clock_at 1, del_time := never, state := mode.IN_TRANSIT,
                    new_loc := 2 }),
              (10, { creat_time := clock_at 1, del_time := clock_at 6 })] }

/-- The calls made for a list of writes never include a set-property mutation. -/
theorem apply_update_not_set_property (vclk : vclock) (upd : pending_update) :
    ∀ c ∈ apply_update vclk upd, c.is_set_property = false := by
  intro c hc
  unfold apply_update at hc
  split at hc <;> simp at hc <;> subst hc <;> rfl

/-- C3: `unpack_tx_request` applied to the transaction `[create_node h; set_property h K V]`
calls `create_node` and then only records and confirms the transaction: the update of type
`NODE_SET_PROPERTY` falls into the `default` branch, and no transaction whatever makes
`unpack_tx_request` call a set-property mutation. -/
theorem unpack_tx_request_skips_set_property (vt_id tx_id h : Nat) (vclk : vclock)
    (K V : String) :
    unpack_tx_request vt_id vclk tx_id
        [{ type := update_type.NODE_CREATE_REQ, handle := h },
         { type := update_type.NODE_SET_PROPERTY, elem1 := h, key := some K, value := some V }]
      = [store_call.create_node vclk h,
         store_call.record_completed_transaction vt_id tx_id 2,
         store_call.send_tx_done vt_id tx_id]
    ∧ ∀ writes : List pending_update,
        ∀ c ∈ unpack_tx_request vt_id vclk tx_id writes, c.is_set_property = false := by
  refine ⟨rfl, ?_⟩
  intro writes c hc
  unfold unpack_tx_request at hc
  rcases List.mem_append.1 hc with h1 | h1
  · obtain ⟨l, hl, hcl⟩ := List.mem_flatten.1 h1
    obtain ⟨upd, _, rfl⟩ := List.mem_map.1 hl
    exact apply_update_not_set_property vclk upd c hcl
  · simp at h1
    rcases h1 with rfl | rfl <;> rfl

/-! ### Step 3 of the migration protocol -/

/-- The loop of `check_step3` ends with `true` exactly when it started with `true` and
every timestamper it went through passed the test. -/
theorem check_step3_loop_eq_true {P NS : Type} (S : shard P NS) (l : List Nat) (b : Bool) :
    check_step3_loop S l b = true ↔
      b = true ∧ ∀ v ∈ l, S.target_prog_id.getD v 0 ≤ S.max_done_id.getD v 0 := by
  induction l generalizing b with
  | nil => simp [check_step3_loop]
  | cons i rest ih =>
    unfold check_step3_loop
    cases b with
    | false => simp
    | true =>
      simp only [if_true, ih, decide_eq_true_eq, List.mem_cons, forall_eq_or_imp, true_and]

/-- When some acknowledgement bit is missing `check_step3` returns false. -/
theorem check_step3_of_not_all {P NS : Type} (C : weaver_constants) (S : shard P NS)
    (h : S.migr_edge_acks.all id = false) : (check_step3 C S).1 = false := by
  have hloop : check_step3_loop S (List.range C.NUM_VTS) (S.migr_edge_acks.all id) = false := by
    rw [h]
    cases List.range C.NUM_VTS <;> simp [check_step3_loop]
  unfold check_step3
  rw [hloop]
  rfl

/-- C8: `check_step3` returns true iff every bit of `migr_edge_acks` is set and
`target_prog_id[v] <= max_done_id[v]` for every timestamper `v`; when it returns true
the only change is that every bit of `migr_edge_acks` is cleared, so that a call repeated
at once returns false; when it returns false the shard object is unchanged. The bitset
has `NUM_SHARDS` bits and there is at least one shard. -/
theorem check_step3_spec {P NS : Type} (C : weaver_constants) (S : shard P NS)
    (hlen : S.migr_edge_acks.length = C.NUM_SHARDS) (hpos : 0 < C.NUM_SHARDS) :
    ((check_step3 C S).1 = true ↔
        (∀ b ∈ S.migr_edge_acks, b = true) ∧
          ∀ v, v < C.NUM_VTS → S.target_prog_id.getD v 0 ≤ S.max_done_id.getD v 0)
    ∧ ((check_step3 C S).1 = true →
        (check_step3 C S).2
            = { S with migr_edge_acks := List.replicate C.NUM_SHARDS false }
          ∧ (check_step3 C (check_step3 C S).2).1 = false)
    ∧ ((check_step3 C S).1 = false → (check_step3 C S).2 = S) := by
  have hmap : S.migr_edge_acks.map (fun _ => false) = List.replicate C.NUM_SHARDS false := by
    rw [← hlen]; exact List.map_const' S.migr_edge_acks false
  have hiff : (check_step3 C S).1 = true ↔
      (∀ b ∈ S.migr_edge_acks, b = true) ∧
        ∀ v, v < C.NUM_VTS → S.target_prog_id.getD v 0 ≤ S.max_done_id.getD v 0 := by
    unfold check_step3
    split
    · rename_i h
      rw [check_step3_loop_eq_true] at h
      simp only [true_iff]
      refine ⟨?_, fun v hv => h.2 v (List.mem_range.2 hv)⟩
      have := h.1
      simpa [List.all_eq_true] using this
    · rename_i h
      rw [check_step3_loop_eq_true] at h
      simp only [Bool.false_eq_true, false_iff]
      intro hc
      apply h
      refine ⟨?_, fun v hv => hc.2 v (List.mem_range.1 hv)⟩
      simpa [List.all_eq_true] using hc.1
  refine ⟨hiff, ?_, ?_⟩
  · intro htrue
    have hS2 : (check_step3 C S).2
        = { S with migr_edge_acks := List.replicate C.NUM_SHARDS false } := by
      unfold check_step3 at htrue ⊢
      split
      · simp only [hmap]
      · rename_i h
        simp [h] at htrue
    refine ⟨hS2, ?_⟩
    rw [hS2]
    apply check_step3_of_not_all
    show (List.replicate C.NUM_SHARDS false).all id = false
    obtain ⟨k, hk⟩ := Nat.exists_eq_succ_of_ne_zero (Nat.pos_iff_ne_zero.1 hpos)
    rw [hk]; simp [List.replicate_succ]
  · intro hf
    unfold check_step3 at hf ⊢
    split
    · rename_i h
      simp [h] at hf
    · rfl

/-- Witness for C8: two shards whose acknowledgements are both in, one timestamper whose
target program id is done. -/
theorem check_step3_spec_witness :
    ((check_step3 two_shards acked_shard).1 = true ↔
        (∀ b ∈ acked_shard.migr_edge_acks, b = true) ∧
          ∀ v, v < two_shards.NUM_VTS →
            acked_shard.target_prog_id.getD v 0 ≤ acked_shard.max_done_id.getD v 0)
    ∧ ((check_step3 two_shards acked_shard).1 = true →
        (check_step3 two_shards acked_shard).2
            = { acked_shard with migr_edge_acks := List.replicate two_shards.NUM_SHARDS false }
          ∧ (check_step3 two_shards (check_step3 two_shards acked_shard).2).1 = false)
    ∧ ((check_step3 two_shards acked_shard).1 = false →
        (check_step3 two_shards acked_shard).2 = acked_shard) :=
  check_step3_spec two_shards acked_shard rfl (by decide)

/-! ### Visibility of nodes to node programs -/

/-- C1: a non-global `NODE_PROG` at clock value 3 whose start node was created at clock
value 5 (so later than the request) and is not deleted: `unpack_and_run_db` calls the node
program on that node. The dispatch loop tests the deletion time only. -/
theorem unpack_and_run_db_calls_prog_on_node_created_later :
    trace_of (unpack_and_run_db two_shards (example_env (fun _ => [])) 1 shard_with_late_node
        (example_msg 3 [{ handle := 7, params := 0, prev := { loc := 0, handle := 0 } }]))
      = some [event.call_node_prog 7 { creat_time := clock_at 5, del_time := never } 0]
    ∧ (example_env (fun _ => [])).compare_two_vts (clock_at 3) (clock_at 5) = 0 := by
  decide

/-- Every node that the global branch enumerates passes both tests of the enumeration
loop: its deletion time is not earlier than the request and the request is not earlier
than its creation time. -/
theorem handles_to_send_to_tested {P NS : Type} (E : prog_env P NS) (S : shard P NS)
    (req_vclock : vclock) (h : Nat) (hh : h ∈ handles_to_send_to E S req_vclock) :
    ∃ n, (h, n) ∈ S.nodes ∧ E.compare_two_vts n.del_time req_vclock ≠ 0
      ∧ E.compare_two_vts req_vclock n.creat_time ≠ 0 := by
  unfold handles_to_send_to at hh
  obtain ⟨⟨h1, n⟩, hmem, rfl⟩ := List.mem_map.1 hh
  obtain ⟨hin, hc⟩ := List.mem_filter.1 hmem
  simp only [Bool.and_eq_true, decide_eq_true_eq] at hc
  exact ⟨n, hin, hc.1, hc.2⟩

/-! ### Cancellation -/

/-- With `done_request` set the dispatch loop does not run. -/
theorem run_hops_done {P NS : Type} (C : weaver_constants) (E : prog_env P NS)
    (m : node_prog_msg P) (fuel : Nat) (start : List (node_params_t P)) (st : run_state P NS)
    (h : st.done_request = true) : run_hops C E m fuel start st = (st, true) := by
  cases fuel <;> simp [run_hops, h]

/-- The batches built by the fan-out loop are only handed to `add_read_request`. -/
theorem called_handles_map_add_read_request {P : Type} (vt_id : Nat) (m : node_prog_msg P)
    (batches : List (List (node_params_t P))) :
    called_handles (batches.map (fun batch => event.add_read_request vt_id (repack m batch)))
      = [] := by
  induction batches with
  | nil => rfl
  | cons b rest ih => simpa [called_handles] using ih

/-- C5, counterexample: the done set already holds the request (the first call of
`check_done_request` answers true), yet a global `NODE_PROG` is fanned out: the chunk
holding the live node 7 is handed to `add_read_request`. -/
theorem unpack_and_run_db_global_ignores_done :
    cancelled_env.check_done_request shard_with_late_node.done_checks
        (example_global_msg 6).req_id = true
    ∧ (trace_of (unpack_and_run_db two_shards cancelled_env 1 shard_with_late_node
          (example_global_msg 6))).map read_requests_added
        = some [example_msg 6 [{ handle := 7, params := 0, prev := { loc := 0, handle := 0 } }]] := by
  decide

/-- C5, amended: when the done set holds `req_id` at the first check of
`unpack_and_run_db`, a non-global `NODE_PROG` returns at once with no action at all
(nothing sent, nothing re-enqueued, nothing buffered, the node program never called), and
a global `NODE_PROG` never calls the node program and sends nothing: all it does is hand
non-global chunks to `add_read_request`. -/
theorem unpack_and_run_db_done {P NS : Type} (C : weaver_constants) (E : prog_env P NS)
    (fuel : Nat) (S : shard P NS) (m : node_prog_msg P)
    (hclk : m.req_vclock.clock.length = C.NUM_VTS)
    (hdone : E.check_done_request S.done_checks m.req_id = true) :
    (m.global_req = false →
        ∃ out, unpack_and_run_db C E fuel S m = Except.ok out ∧ out.trace = []
          ∧ out.returned = true ∧ out.S.deferred_reads = S.deferred_reads
          ∧ out.S.nodes = S.nodes)
    ∧ (∀ out, unpack_and_run_db C E fuel S m = Except.ok out →
        called_handles out.trace = []
          ∧ ∀ e ∈ out.trace, ∃ vt_id m1, e = event.add_read_request vt_id m1
              ∧ m1.global_req = false) := by
  have hchk : (start_state E S m).done_request = true := by
    unfold start_state check_done_request update_max_prog_id
    split <;> exact hdone
  have hframe : (start_state E S m).S.deferred_reads = S.deferred_reads
      ∧ (start_state E S m).S.nodes = S.nodes ∧ (start_state E S m).trace = [] := by
    unfold start_state check_done_request update_max_prog_id
    split <;> exact ⟨rfl, rfl, rfl⟩
  have hng : m.global_req = false → unpack_and_run_db C E fuel S m
      = Except.ok { S := (start_state E S m).S, trace := (start_state E S m).trace,
                    returned := true } := by
    intro hg
    unfold unpack_and_run_db
    rw [if_neg (by simpa using hclk), if_neg (by simp [hg]),
      run_hops_done C E m fuel _ _ hchk]
  constructor
  · intro hg
    exact ⟨_, hng hg, hframe.2.2, rfl, hframe.1, hframe.2.1⟩
  · intro out hout
    cases hg : m.global_req with
    | false =>
      rw [hng hg] at hout
      cases hout
      simp only [hframe.2.2]
      exact ⟨rfl, by intro e he; cases he⟩
    | true =>
      unfold unpack_and_run_db at hout
      rw [if_neg (by simpa using hclk), if_pos hg] at hout
      split at hout
      · cases hout
      · rename_i tr htr
        cases hout
        unfold global_fan_out at htr
        split at htr
        · split at htr
          · cases htr
          · split at htr
            · cases htr
            · split at htr
              · cases htr
              · cases htr
                refine ⟨called_handles_map_add_read_request _ _ _, ?_⟩
                intro e he
                obtain ⟨batch, _, rfl⟩ := List.mem_map.1 he
                exact ⟨_, _, rfl, rfl⟩
        · cases htr

/-- Witness for C5 (amended): the cancelled non-global request for node 7. -/
theorem unpack_and_run_db_done_witness :
    ∃ out, unpack_and_run_db two_shards cancelled_env 1 shard_with_late_node
        (example_msg 6 [{ handle := 7, params := 0, prev := { loc := 0, handle := 0 } }])
          = Except.ok out ∧ out.trace = [] ∧ out.returned = true
        ∧ out.S.deferred_reads = shard_with_late_node.deferred_reads
        ∧ out.S.nodes = shard_with_late_node.nodes :=
  (unpack_and_run_db_done two_shards cancelled_env 1 shard_with_late_node
    (example_msg 6 [{ handle := 7, params := 0, prev := { loc := 0, handle := 0 } }])
    rfl rfl).1 rfl

/-! ### Global fan-out -/

/-- An element of `dropLast` of a list with a head is the head or is in `dropLast` of the
tail. -/
theorem mem_dropLast_cons {α : Type} (a c : α) (l : List α) (h : c ∈ (a :: l).dropLast) :
    c = a ∨ c ∈ l.dropLast := by
  cases l with
  | nil => simp at h
  | cons b l => simpa using h

/-- The fan-out loop with a positive chunk size, started with fewer than a chunk of pending
tuples: the chunks concatenate to the pending tuples followed by the remaining handles,
every chunk but the last is full, and no chunk is empty. -/
theorem fan_out_chunks {P : Type} (batch_size : Nat) (mk : Nat → node_params_t P)
    (hpos : 0 < batch_size) (handles : List Nat) :
    ∀ next_batch : List (node_params_t P), next_batch.length < batch_size →
      (fan_out batch_size mk handles next_batch).flatten = next_batch ++ handles.map mk
      ∧ (∀ c ∈ (fan_out batch_size mk handles next_batch).dropLast, c.length = batch_size)
      ∧ (∀ c ∈ fan_out batch_size mk handles next_batch, c ≠ [] ∧ c.length ≤ batch_size) := by
  induction handles with
  | nil =>
    intro next_batch hlt
    unfold fan_out
    by_cases hnb : 0 < next_batch.length
    · rw [if_pos hnb]
      refine ⟨by simp, by simp, ?_⟩
      intro c hc
      rw [List.mem_singleton] at hc
      subst hc
      exact ⟨List.ne_nil_of_length_pos hnb, Nat.le_of_lt hlt⟩
    · have hnil : next_batch = [] := List.eq_nil_of_length_eq_zero (by omega)
      subst hnil
      simp
  | cons h rest ih =>
    intro next_batch hlt
    unfold fan_out
    have hlen : (next_batch ++ [mk h]).length = next_batch.length + 1 := by simp
    by_cases hfull : (next_batch ++ [mk h]).length % batch_size = 0
    · have heq : (next_batch ++ [mk h]).length = batch_size := by
        rw [hlen] at hfull ⊢
        rcases Nat.lt_or_ge (next_batch.length + 1) batch_size with h1 | h1
        · rw [Nat.mod_eq_of_lt h1] at hfull; omega
        · omega
      obtain ⟨ih1, ih2, ih3⟩ := ih [] (by simpa using hpos)
      simp only [hfull, if_true]
      refine ⟨?_, ?_, ?_⟩
      · simp [List.flatten_cons, ih1]
      · intro c hc
        rcases mem_dropLast_cons _ _ _ hc with rfl | hc
        · exact heq
        · exact ih2 c hc
      · intro c hc
        rcases List.mem_cons.1 hc with rfl | hc
        · exact ⟨by simp, Nat.le_of_eq heq⟩
        · exact ih3 c hc
    · have hlt2 : (next_batch ++ [mk h]).length < batch_size := by
        rw [hlen] at hfull ⊢
        rcases Nat.lt_or_ge (next_batch.length + 1) batch_size with h1 | h1
        · exact h1
        · have : next_batch.length + 1 = batch_size := by omega
          rw [this, Nat.mod_self] at hfull
          exact absurd rfl hfull
      obtain ⟨ih1, ih2, ih3⟩ := ih (next_batch ++ [mk h]) hlt2
      simp only [hfull, if_false]
      exact ⟨by simp [ih1], ih2, ih3⟩

/-- The statements before the global test leave the node map and the shard id alone. -/
theorem start_state_frame {P NS : Type} (E : prog_env P NS) (S : shard P NS)
    (m : node_prog_msg P) :
    (start_state E S m).S.nodes = S.nodes ∧ (start_state E S m).S.shard_id = S.shard_id
      ∧ (start_state E S m).S.deferred_reads = S.deferred_reads
      ∧ (start_state E S m).S.deferred_writes = S.deferred_writes := by
  unfold start_state check_done_request update_max_prog_id
  split <;> exact ⟨rfl, rfl, rfl, rfl⟩

/-- C6: a global `NODE_PROG` (which carries exactly one start tuple, as the function
asserts) whose list `L` of enumerated live nodes satisfies `|L| >= NUM_THREADS-1 >= 1` is
re-enqueued as non-global `NODE_PROG` chunks: the handles of the chunks, concatenated, are
exactly `L`; every chunk except possibly the last holds `|L| / (NUM_THREADS-1)` tuples;
every chunk, the last included, is non-empty and holds at most `|L| / (NUM_THREADS-1)`
tuples; every tuple carries params with `responses_left = |L|` and `super_node` = the
first handle of `L` on this shard. -/
theorem unpack_and_run_db_global_chunks {NS : Type} (C : weaver_constants)
    (E : prog_env triangle_params NS) (hmod : E.modify_params = modify_triangle_params)
    (fuel : Nat) (S : shard triangle_params NS) (m : node_prog_msg triangle_params)
    (t : node_params_t triangle_params)
    (hclk : m.req_vclock.clock.length = C.NUM_VTS)
    (hg : m.global_req = true) (hstart : m.start_node_params = [t])
    (hthreads : 1 ≤ C.NUM_THREADS - 1)
    (hL : C.NUM_THREADS - 1 ≤ (handles_to_send_to E S m.req_vclock).length) :
    ∃ (out : outcome triangle_params NS) (chunks : List (List (node_params_t triangle_params)))
        (h0 : Nat) (rest : List Nat),
      unpack_and_run_db C E fuel S m = Except.ok out
      ∧ handles_to_send_to E S m.req_vclock = h0 :: rest
      ∧ out.trace = chunks.map (fun c => event.add_read_request m.vt_id
          { m with global_req := false, start_node_params := c })
      ∧ chunks.flatten.map (fun tup => tup.handle) = h0 :: rest
      ∧ (∀ c ∈ chunks.dropLast, c.length = (h0 :: rest).length / (C.NUM_THREADS - 1))
      ∧ (∀ c ∈ chunks, c ≠ [] ∧ c.length ≤ (h0 :: rest).length / (C.NUM_THREADS - 1))
      ∧ (∀ c ∈ chunks, ∀ tup ∈ c,
          tup.params.responses_left = (h0 :: rest).length
            ∧ tup.params.super_node = { loc := S.shard_id, handle := h0 }) := by
  obtain ⟨hnodes, hid, -, -⟩ := start_state_frame E S m
  have hsame : handles_to_send_to E (start_state E S m).S m.req_vclock
      = handles_to_send_to E S m.req_vclock := by
    unfold handles_to_send_to
    rw [hnodes]
  cases hLe : handles_to_send_to E S m.req_vclock with
  | nil => rw [hLe] at hL; simp at hL; omega
  | cons h0 rest =>
    rw [hLe] at hL
    have hbs : 0 < (h0 :: rest).length / (C.NUM_THREADS - 1) :=
      Nat.div_pos hL hthreads
    obtain ⟨f1, f2, f3⟩ := fan_out_chunks ((h0 :: rest).length / (C.NUM_THREADS - 1))
      (global_tuple E t.params (h0 :: rest).length
        { loc := (start_state E S m).S.shard_id, handle := h0 })
      hbs (h0 :: rest) [] (by simpa using hbs)
    refine ⟨{ S := (start_state E S m).S,
              trace := (fan_out ((h0 :: rest).length / (C.NUM_THREADS - 1))
                (global_tuple E t.params (h0 :: rest).length
                  { loc := (start_state E S m).S.shard_id, handle := h0 })
                (h0 :: rest) []).map
                  (fun batch => event.add_read_request m.vt_id (repack m batch)),
              returned := true },
      fan_out ((h0 :: rest).length / (C.NUM_THREADS - 1))
        (global_tuple E t.params (h0 :: rest).length
          { loc := (start_state E S m).S.shard_id, handle := h0 })
        (h0 :: rest) [],
      h0, rest, ?_, rfl, rfl, ?_, f2, f3, ?_⟩
    · unfold unpack_and_run_db
      rw [if_neg (by simpa using hclk), if_pos hg]
      unfold global_fan_out
      simp only [hstart, hsame, hLe]
      rw [if_neg (by omega), if_neg (by omega)]
    · rw [f1]
      simp [List.map_map, Function.comp_def, global_tuple]
    · intro c hc tup htup
      have hmem : tup ∈ ([] : List (node_params_t triangle_params)) ++ (h0 :: rest).map
          (global_tuple E t.params (h0 :: rest).length
            { loc := (start_state E S m).S.shard_id, handle := h0 }) := by
        rw [← f1]
        exact List.mem_flatten.2 ⟨c, hc, htup⟩
      rw [List.nil_append] at hmem
      obtain ⟨h, _, rfl⟩ := List.mem_map.1 hmem
      simp [global_tuple, hmod, modify_triangle_params, hid]

/-- Witness for C6: five live nodes and three worker threads give chunks of `5 / 2 = 2`
nodes, the last chunk holding the one node left over. -/
theorem unpack_and_run_db_global_chunks_witness :
    (trace_of (unpack_and_run_db three_threads triangle_fan_out_env 1 shard_with_five_nodes
        triangle_global_msg)).map enqueued_handles = some [[3, 4], [7, 8], [9]]
      ∧ ∃ (out : outcome triangle_params Unit)
        (chunks : List (List (node_params_t triangle_params))) (h0 : Nat) (rest : List Nat),
      unpack_and_run_db three_threads triangle_fan_out_env 1 shard_with_five_nodes
          triangle_global_msg = Except.ok out
      ∧ handles_to_send_to triangle_fan_out_env shard_with_five_nodes
          triangle_global_msg.req_vclock = h0 :: rest
      ∧ out.trace = chunks.map (fun c => event.add_read_request triangle_global_msg.vt_id
          { triangle_global_msg with global_req := false, start_node_params := c })
      ∧ chunks.flatten.map (fun tup => tup.handle) = h0 :: rest
      ∧ (∀ c ∈ chunks.dropLast,
          c.length = (h0 :: rest).length / (three_threads.NUM_THREADS - 1))
      ∧ (∀ c ∈ chunks,
          c ≠ [] ∧ c.length ≤ (h0 :: rest).length / (three_threads.NUM_THREADS - 1))
      ∧ (∀ c ∈ chunks, ∀ tup ∈ c,
          tup.params.responses_left = (h0 :: rest).length
            ∧ tup.params.super_node
              = { loc := shard_with_five_nodes.shard_id, handle := h0 }) :=
  ⟨by decide,
   unpack_and_run_db_global_chunks three_threads triangle_fan_out_env rfl 1
    shard_with_five_nodes triangle_global_msg
    { handle := 0, params := { super_node := { loc := 0, handle := 0 } },
      prev := { loc := 0, handle := 0 } }
    rfl rfl rfl (by decide) (by decide)⟩

/-! ### Per-node dispatch -/

/-- Looking up the key just set returns the value set. -/
theorem lookup_assoc_set_self {α : Type} (k : Nat) (v : α) (l : List (Nat × α)) :
    (assoc_set k v l).lookup k = some v := by
  induction l with
  | nil => simp [assoc_set, List.lookup]
  | cons p rest ih =>
    obtain ⟨k1, v1⟩ := p
    unfold assoc_set
    by_cases h : k1 = k
    · simp [h, List.lookup]
    · have h2 : (k == k1) = false := by simpa using fun e => h e.symm
      simp [h, List.lookup, h2, ih]

/-- Setting a key does not change what is stored under another key. -/
theorem lookup_assoc_set_ne {α : Type} (k k2 : Nat) (v : α) (l : List (Nat × α))
    (hne : k2 ≠ k) : (assoc_set k v l).lookup k2 = l.lookup k2 := by
  induction l with
  | nil =>
    have h2 : (k2 == k) = false := by simpa using hne
    simp [assoc_set, List.lookup, h2]
  | cons p rest ih =>
    obtain ⟨k1, v1⟩ := p
    unfold assoc_set
    by_cases h : k1 = k
    · subst h
      have h2 : (k2 == k1) = false := by simpa using hne
      simp [List.lookup, h2]
    · simp only [h, if_false, List.lookup]
      cases (k2 == k1) <;> simp [ih]

/-- A trace extended by actions that are not calls records the same calls. -/
theorem called_handles_append {P : Type} (l1 l2 : List (event P)) :
    called_handles (l1 ++ l2) = called_handles l1 ++ called_handles l2 := by
  induction l1 with
  | nil => rfl
  | cons e rest ih => cases e <;> simp [called_handles, ih]

/-- The messages sent to a shard by a trace in two parts. -/
theorem node_progs_sent_to_append {P : Type} (loc : Nat) (l1 l2 : List (event P)) :
    node_progs_sent_to loc (l1 ++ l2) = node_progs_sent_to loc l1 ++ node_progs_sent_to loc l2 := by
  induction l1 with
  | nil => rfl
  | cons e rest ih =>
    cases e with
    | send_node_prog dest m =>
      by_cases h : dest = loc <;> simp [node_progs_sent_to, h, ih]
    | _ => simp [node_progs_sent_to, ih]

/-- The loop over the results of a node program: the results for the timestamper are sent
back in order, every other result is appended to the batch of its destination, and of the
shard object only `agg_msg_count` changes. -/
theorem batch_results_spec {P NS : Type} (m : node_prog_msg P) (node_handle : Nat)
    (this_node : remote_node) (results : List (remote_node × P)) :
    ∀ st : run_state P NS,
      (batch_results m node_handle this_node results st).trace
          = st.trace ++ (results.filter (fun res => decide (res.1.loc = m.vt_id))).map
              (fun res => event.send_node_prog_return m.vt_id m.prog_type m.req_id res.2)
      ∧ (∀ loc, (batch_results m node_handle this_node results st).batched_node_progs loc
          = st.batched_node_progs loc
            ++ (results.filter
                  (fun res => decide (res.1.loc ≠ m.vt_id) && decide (res.1.loc = loc))).map
                (batched_tuple this_node))
      ∧ (batch_results m node_handle this_node results st).S
          = { st.S with agg_msg_count :=
                (batch_results m node_handle this_node results st).S.agg_msg_count }
      ∧ (batch_results m node_handle this_node results st).done_request = st.done_request := by
  induction results with
  | nil => intro st; simp [batch_results]
  | cons res rest ih =>
    intro st
    unfold batch_results
    by_cases hvt : res.1.loc = m.vt_id
    · simp only [hvt, if_true]
      obtain ⟨h1, h2, h3, h4⟩ := ih
        { st with trace := st.trace ++
            [event.send_node_prog_return m.vt_id m.prog_type m.req_id res.2] }
      refine ⟨?_, ?_, h3, h4⟩
      · rw [h1]; simp [hvt]
      · intro loc; rw [h2 loc]; simp [hvt]
    · simp only [hvt, if_false]
      obtain ⟨h1, h2, h3, h4⟩ := ih
        { st with
          batched_node_progs := batch_push st.batched_node_progs res.1.loc
            (batched_tuple this_node res),
          S := incr_agg_msg_count st.S node_handle }
      refine ⟨?_, ?_, ?_, h4⟩
      · rw [h1]; simp [hvt]
      · intro loc
        rw [h2 loc]
        unfold batch_push
        by_cases hl : loc = res.1.loc
        · subst hl; simp [hvt]
        · have hl2 : ¬ res.1.loc = loc := fun e => hl e.symm
          simp [hvt, hl, hl2]
      · rw [h3]; simp [incr_agg_msg_count]

/-- The flush loop over distinct shard ids: one message for every listed shard other than
this one whose batch is not empty, carrying that batch; those batches are cleared and
nothing else changes. -/
theorem flush_batches_spec {P NS : Type} (m : node_prog_msg P) (locs : List Nat)
    (hnd : locs.Nodup) :
    ∀ st : run_state P NS,
      (flush_batches m locs st).trace
          = st.trace ++ (locs.filter (fun l =>
              !(st.batched_node_progs l).isEmpty && decide (l ≠ st.S.shard_id))).map
              (fun l => event.send_node_prog l (repack m (st.batched_node_progs l)))
      ∧ (∀ loc, (flush_batches m locs st).batched_node_progs loc
          = if loc ∈ locs ∧ loc ≠ st.S.shard_id then [] else st.batched_node_progs loc)
      ∧ (flush_batches m locs st).S = st.S
      ∧ (flush_batches m locs st).done_request = st.done_request := by
  induction locs with
  | nil => intro st; simp [flush_batches]
  | cons next_loc rest ih =>
    intro st
    have hnotin : next_loc ∉ rest := (List.nodup_cons.1 hnd).1
    have hnd2 : rest.Nodup := (List.nodup_cons.1 hnd).2
    unfold flush_batches
    by_cases hc : (st.batched_node_progs next_loc).isEmpty = false ∧ next_loc ≠ st.S.shard_id
    · rw [if_pos hc]
      obtain ⟨h1, h2, h3, h4⟩ := ih hnd2
        { st with
          trace := st.trace ++
            [event.send_node_prog next_loc (repack m (st.batched_node_progs next_loc))],
          batched_node_progs := batch_clear st.batched_node_progs next_loc }
      have hsame : ∀ l ∈ rest, batch_clear st.batched_node_progs next_loc l
          = st.batched_node_progs l := by
        intro l hl
        unfold batch_clear
        rw [if_neg (by intro e; subst e; exact hnotin hl)]
      refine ⟨?_, ?_, h3, h4⟩
      · rw [h1]
        simp only [List.filter_cons, hc.1, hc.2, Bool.not_false, ne_eq, not_false_eq_true,
          decide_True, Bool.and_self, if_true, List.map_cons, List.append_assoc,
          List.singleton_append]
        congr 2
        rw [List.filter_congr (fun l hl => by rw [hsame l hl])]
        exact List.map_congr_left (fun l hl => by rw [hsame l (List.mem_filter.1 hl).1])
      · intro loc
        rw [h2 loc]
        unfold batch_clear
        by_cases hl : loc = next_loc
        · subst hl
          simp [hc.2]
        · simp [hl]
    · rw [if_neg hc]
      obtain ⟨h1, h2, h3, h4⟩ := ih hnd2 st
      refine ⟨?_, ?_, h3, h4⟩
      · rw [h1]
        have hcb : (!(st.batched_node_progs next_loc).isEmpty
            && decide (next_loc ≠ st.S.shard_id)) = false := by
          by_contra hx
          simp only [Bool.not_eq_false, Bool.and_eq_true, Bool.not_eq_true',
            decide_eq_true_eq] at hx
          exact hc hx
        simp only [List.filter_cons, hcb, Bool.false_eq_true, if_false]
      · intro loc
        rw [h2 loc]
        by_cases hl : loc = next_loc
        · subst hl
          by_cases hs : loc = st.S.shard_id
          · simp [hs]
          · have hemp : (st.batched_node_progs loc).isEmpty = true := by
              by_contra hx
              exact hc ⟨by simpa using hx, hs⟩
            have hnil : st.batched_node_progs loc = [] := List.isEmpty_iff.1 hemp
            simp [hnil]
        · simp [hl]

/-- Storing a program state changes only the state cache. -/
theorem store_node_state_frame {P NS : Type} (S : shard P NS) (key : Nat × Nat × Nat)
    (s : Option NS) :
    (store_node_state S key s).deferred_reads = S.deferred_reads
      ∧ (store_node_state S key s).deferred_writes = S.deferred_writes
      ∧ (store_node_state S key s).nodes = S.nodes
      ∧ (store_node_state S key s).shard_id = S.shard_id := by
  cases s <;> exact ⟨rfl, rfl, rfl, rfl⟩

/-- Sending results back to the timestamper is not a call of the node program. -/
theorem called_handles_returns {P : Type} (vt_id prog_type req_id : Nat)
    (l : List (remote_node × P)) :
    called_handles (l.map
      (fun res => event.send_node_prog_return vt_id prog_type req_id res.2)) = [] := by
  induction l with
  | nil => rfl
  | cons a rest ih => simpa [called_handles] using ih

/-- Sending batches is not a call of the node program. -/
theorem called_handles_sends {P : Type} (f : Nat → node_prog_msg P) (l : List Nat) :
    called_handles (l.map (fun loc => event.send_node_prog loc (f loc))) = [] := by
  induction l with
  | nil => rfl
  | cons a rest ih => simpa [called_handles] using ih

/-- The shard ids are pairwise distinct. -/
theorem shard_ids_nodup (C : weaver_constants) : (shard_ids C).Nodup := by
  unfold shard_ids
  exact List.nodup_range' _ _

/-- What a call of the node program adds to the trace: the call, the results returned to
the timestamper, one message for every other shard with a non-empty batch; of the shard
object it changes the node, the state cache and `agg_msg_count` only. -/
theorem call_prog_spec {P NS : Type} (C : weaver_constants) (E : prog_env P NS)
    (m : node_prog_msg P) (t : node_params_t P) (n : node) (st : run_state P NS) :
    (∃ tail, (call_prog C E m t n st).trace
          = st.trace ++ event.call_node_prog t.handle n t.params :: tail
        ∧ called_handles tail = [])
    ∧ (call_prog C E m t n st).S.deferred_reads = st.S.deferred_reads
    ∧ (call_prog C E m t n st).S.deferred_writes = st.S.deferred_writes
    ∧ (call_prog C E m t n st).S.shard_id = st.S.shard_id
    ∧ (call_prog C E m t n st).S.nodes
        = assoc_set t.handle (prog_result E m t n st.S).n st.S.nodes
    ∧ (call_prog C E m t n st).done_request = st.done_request := by
  unfold call_prog
  obtain ⟨s1, s2, -, s4⟩ := store_node_state_frame st.S (m.prog_type, m.req_id, t.handle)
    (prog_result E m t n st.S).state
  generalize hst1 : ({ st with
        S := record_result m t (prog_result E m t n st.S) st.S,
        trace := st.trace ++ [event.call_node_prog t.handle n t.params] } : run_state P NS)
      = st1
  have ht1 : st1.trace = st.trace ++ [event.call_node_prog t.handle n t.params] := by
    rw [← hst1]
  have hS1 : st1.S = record_result m t (prog_result E m t n st.S) st.S := by rw [← hst1]
  have hd1 : st1.done_request = st.done_request := by rw [← hst1]
  obtain ⟨g1, -, g3, g4⟩ := batch_results_spec m t.handle (this_node_of st.S t)
    (prog_result E m t n st.S).next st1
  generalize batch_results m t.handle (this_node_of st.S t)
    (prog_result E m t n st.S).next st1 = st2 at g1 g3 g4 ⊢
  obtain ⟨f1, -, f3, f4⟩ := flush_batches_spec m (shard_ids C) (List.nodup_range' _ _) st2
  have e1 : st2.S.deferred_reads = st1.S.deferred_reads := by rw [g3]
  have e2 : st2.S.deferred_writes = st1.S.deferred_writes := by rw [g3]
  have e3 : st2.S.shard_id = st1.S.shard_id := by rw [g3]
  have e4 : st2.S.nodes = st1.S.nodes := by rw [g3]
  refine ⟨⟨(List.map (fun res => event.send_node_prog_return m.vt_id m.prog_type m.req_id res.2)
        (List.filter (fun res => decide (res.1.loc = m.vt_id)) (prog_result E m t n st.S).next))
      ++ (List.map (fun l => event.send_node_prog l (repack m (st2.batched_node_progs l)))
        (List.filter (fun l => !(st2.batched_node_progs l).isEmpty
          && decide (l ≠ st2.S.shard_id)) (shard_ids C))), ?_, ?_⟩, ?_, ?_, ?_, ?_, ?_⟩
  · rw [f1, g1, ht1]
    simp only [List.append_assoc, List.singleton_append, List.cons_append, List.nil_append]
  · rw [called_handles_append, called_handles_returns, called_handles_sends]
    rfl
  · rw [f3, e1, hS1]; exact s1
  · rw [f3, e2, hS1]; exact s2
  · rw [f3, e3, hS1]; exact s4
  · rw [f3, e4, hS1]; rfl
  · rw [f4, g4, hd1]

/-- C2 (counterexample): node 10 was deleted at clock value 6 and the request carries the
clock value 6, so the node is not visible at the request (its deletion time is not later).
The deletion test of `unpack_and_run_db` only asks whether the deletion time is earlier
than the request: `compare_two_vts` answers 2 (identical), the tuple is not dropped and
the node program is called on node 10. -/
theorem unpack_and_run_db_visits_node_deleted_at_request :
    acquire_node dispatch_shard 10
        = some { creat_time := clock_at 1, del_time := clock_at 6 }
      ∧ (example_msg 6 [tuple_for 10]).req_vclock = clock_at 6
      ∧ (example_env (fun _ => [])).compare_two_vts (clock_at 6) (clock_at 6) = 2
      ∧ (trace_of (unpack_and_run_db two_shards (example_env (fun _ => [])) 1 dispatch_shard
          (example_msg 6 [tuple_for 10]))).map called_handles = some [10] := by
  refine ⟨rfl, rfl, ?_, ?_⟩
  · decide
  · decide

/-- Results returned to the timestamper are not `NODE_PROG` messages. -/
theorem node_progs_sent_to_returns {P : Type} (loc vt_id prog_type req_id : Nat)
    (l : List (remote_node × P)) :
    node_progs_sent_to loc (l.map
      (fun res => event.send_node_prog_return vt_id prog_type req_id res.2)) = [] := by
  induction l with
  | nil => rfl
  | cons a rest ih => simpa [node_progs_sent_to] using ih

/-- One message per listed shard: among the messages sent to distinct shards, shard `loc`
gets its own and no other. -/
theorem node_progs_sent_to_sends {P : Type} (loc : Nat) (f : Nat → node_prog_msg P)
    (l : List Nat) (hnd : l.Nodup) :
    node_progs_sent_to loc (l.map (fun x => event.send_node_prog x (f x)))
      = if loc ∈ l then [f loc] else [] := by
  induction l with
  | nil => rfl
  | cons a rest ih =>
    have hnotin : a ∉ rest := (List.nodup_cons.1 hnd).1
    have ih2 := ih (List.nodup_cons.1 hnd).2
    simp only [List.map_cons, node_progs_sent_to]
    by_cases h : a = loc
    · subst h
      rw [if_pos rfl, ih2, if_neg hnotin, if_pos (List.mem_cons_self _ _)]
    · rw [if_neg h, ih2]
      have h2 : ¬ loc = a := fun e => h e.symm
      simp [h2]

/-- C4, counterexample: one hop over the two start tuples for the nodes 7 and 8, each call
of the node program yielding one result for shard 2: the hop sends two `NODE_PROG`
messages to shard 2, not one, and `unpack_and_run_db` ends after that hop. -/
theorem run_hop_sends_twice_to_one_shard :
    (node_progs_sent_to 2
        (run_hop two_shards (example_env (fun _ => [{ loc := 2, handle := 20 }]))
          (example_msg 6 [{ handle := 7, params := 0, prev := { loc := 0, handle := 0 } },
                          { handle := 8, params := 0, prev := { loc := 0, handle := 0 } }])
          [{ handle := 7, params := 0, prev := { loc := 0, handle := 0 } },
           { handle := 8, params := 0, prev := { loc := 0, handle := 0 } }]
          (start_state (example_env (fun _ => [{ loc := 2, handle := 20 }]))
            shard_with_two_nodes
            (example_msg 6 [{ handle := 7, params := 0, prev := { loc := 0, handle := 0 } },
                            { handle := 8, params := 0, prev := { loc := 0, handle := 0 } }]))).trace).length
      = 2
    ∧ (trace_of (unpack_and_run_db two_shards
          (example_env (fun _ => [{ loc := 2, handle := 20 }])) 1 shard_with_two_nodes
          (example_msg 6 [{ handle := 7, params := 0, prev := { loc := 0, handle := 0 } },
                          { handle := 8, params := 0, prev := { loc := 0, handle := 0 } }]))).map
        (node_progs_sent_to 2)
      = some [example_msg 6 [{ handle := 20, params := 0, prev := { loc := 1, handle := 7 } }],
              example_msg 6 [{ handle := 20, params := 0, prev := { loc := 1, handle := 8 } }]] := by
  decide

/-- C4, amended: batching is per call of the node program. When the batches of the other
shards are empty before a call (as they are when `unpack_and_run_db` starts), the call
sends to each shard `loc` at most one `NODE_PROG` message: exactly one, carrying all
results of that call for `loc` in order, when `loc` is another valid shard and there is
such a result, and none otherwise; afterwards the batches of the other shards are empty
again. -/
theorem call_prog_batches_per_call {P NS : Type} (C : weaver_constants) (E : prog_env P NS)
    (m : node_prog_msg P) (t : node_params_t P) (n : node) (st : run_state P NS)
    (hempty : ∀ loc ∈ shard_ids C, loc ≠ st.S.shard_id → st.batched_node_progs loc = []) :
    (∃ tail, (call_prog C E m t n st).trace = st.trace ++ tail
      ∧ ∀ loc, node_progs_sent_to loc tail
          = if loc ∈ shard_ids C ∧ loc ≠ st.S.shard_id
                ∧ (outputs_for m (this_node_of st.S t) (prog_result E m t n st.S).next
                    loc).isEmpty = false
            then [{ m with global_req := false,
                           start_node_params :=
                             outputs_for m (this_node_of st.S t)
                               (prog_result E m t n st.S).next loc }]
            else [])
    ∧ ∀ loc ∈ shard_ids C, loc ≠ (call_prog C E m t n st).S.shard_id →
        (call_prog C E m t n st).batched_node_progs loc = [] := by
  unfold call_prog
  obtain ⟨-, -, -, s4⟩ := store_node_state_frame st.S (m.prog_type, m.req_id, t.handle)
    (prog_result E m t n st.S).state
  generalize hst1 : ({ st with
        S := record_result m t (prog_result E m t n st.S) st.S,
        trace := st.trace ++ [event.call_node_prog t.handle n t.params] } : run_state P NS)
      = st1
  have ht1 : st1.trace = st.trace ++ [event.call_node_prog t.handle n t.params] := by
    rw [← hst1]
  have hS1 : st1.S.shard_id = st.S.shard_id := by rw [← hst1]; exact s4
  have hb1 : st1.batched_node_progs = st.batched_node_progs := by rw [← hst1]
  obtain ⟨g1, g2, g3, -⟩ := batch_results_spec m t.handle (this_node_of st.S t)
    (prog_result E m t n st.S).next st1
  generalize batch_results m t.handle (this_node_of st.S t)
    (prog_result E m t n st.S).next st1 = st2 at g1 g2 g3 ⊢
  obtain ⟨f1, f2, f3, -⟩ := flush_batches_spec m (shard_ids C) (List.nodup_range' _ _) st2
  have e3 : st2.S.shard_id = st.S.shard_id := by rw [g3]; exact hS1
  have hb2 : ∀ loc, loc ∈ shard_ids C → loc ≠ st.S.shard_id → st2.batched_node_progs loc
      = outputs_for m (this_node_of st.S t) (prog_result E m t n st.S).next loc := by
    intro loc hin hne
    rw [g2 loc, hb1, hempty loc hin hne]
    rfl
  constructor
  · refine ⟨_, by rw [f1, g1, ht1, List.append_assoc, List.append_assoc], ?_⟩
    intro loc
    rw [node_progs_sent_to_append, node_progs_sent_to_append, node_progs_sent_to_returns,
      node_progs_sent_to_sends loc _ _ ((shard_ids_nodup C).filter _)]
    simp only [node_progs_sent_to, List.nil_append, List.mem_filter, Bool.and_eq_true,
      Bool.not_eq_true', decide_eq_true_eq, e3]
    by_cases hin : loc ∈ shard_ids C
    · by_cases hne : loc = st.S.shard_id
      · simp [hne]
      · rw [hb2 loc hin hne]
        by_cases hout : (outputs_for m (this_node_of st.S t)
            (prog_result E m t n st.S).next loc).isEmpty = false
        · rw [if_pos ⟨hin, hout, hne⟩, if_pos ⟨hin, hne, hout⟩]
          rfl
        · rw [if_neg (fun h => hout h.2.1), if_neg (fun h => hout h.2.2)]
    · rw [if_neg (fun h => hin h.1), if_neg (fun h => hin h.1)]
  · intro loc hin hne
    rw [f3, e3] at hne
    rw [f2 loc, e3, if_pos ⟨hin, hne⟩]

/-- Witness for C4 (amended): the call of the node program on node 7 right after the
start of `unpack_and_run_db`, when every batch is empty. -/
theorem call_prog_batches_per_call_witness :
    (∀ loc ∈ shard_ids two_shards,
        loc ≠ (start_state (example_env (fun _ => [{ loc := 2, handle := 20 }]))
          shard_with_two_nodes (example_msg 6 [])).S.shard_id →
        (start_state (example_env (fun _ => [{ loc := 2, handle := 20 }]))
          shard_with_two_nodes (example_msg 6 [])).batched_node_progs loc = [])
    ∧ ∀ loc ∈ shard_ids two_shards,
        loc ≠ (call_prog two_shards (example_env (fun _ => [{ loc := 2, handle := 20 }]))
          (example_msg 6 []) { handle := 7, params := 0, prev := { loc := 0, handle := 0 } }
          { creat_time := clock_at 5, del_time := never }
          (start_state (example_env (fun _ => [{ loc := 2, handle := 20 }]))
            shard_with_two_nodes (example_msg 6 []))).S.shard_id →
        (call_prog two_shards (example_env (fun _ => [{ loc := 2, handle := 20 }]))
          (example_msg 6 []) { handle := 7, params := 0, prev := { loc := 0, handle := 0 } }
          { creat_time := clock_at 5, del_time := never }
          (start_state (example_env (fun _ => [{ loc := 2, handle := 20 }]))
            shard_with_two_nodes (example_msg 6 []))).batched_node_progs loc = [] :=
  ⟨fun _ _ _ => rfl,
   (call_prog_batches_per_call two_shards (example_env (fun _ => [{ loc := 2, handle := 20 }]))
      (example_msg 6 []) { handle := 7, params := 0, prev := { loc := 0, handle := 0 } }
      { creat_time := clock_at 5, del_time := never }
      (start_state (example_env (fun _ => [{ loc := 2, handle := 20 }]))
        shard_with_two_nodes (example_msg 6 []))
      (fun _ _ _ => rfl)).2⟩

/-! ### Heartbeats between step 1 and step 2 of a migration -/

/-- The token block of `nop` leaves `current_migr` and the heartbeat counters alone. -/
theorem nop_token_step_frame {P NS : Type} (S : shard P NS) :
    (nop_token_step S).1.current_migr = S.current_migr
      ∧ (nop_token_step S).1.nop_count = S.nop_count := by
  unfold nop_token_step
  split
  · split
    · exact ⟨rfl, rfl⟩
    · split <;> exact ⟨rfl, rfl⟩
  · exact ⟨rfl, rfl⟩

/-- The function `check_step3` leaves `current_migr` and the heartbeat counters alone. -/
theorem check_step3_frame {P NS : Type} (C : weaver_constants) (S : shard P NS) :
    (check_step3 C S).2.current_migr = S.current_migr
      ∧ (check_step3 C S).2.nop_count = S.nop_count := by
  unfold check_step3
  split <;> exact ⟨rfl, rfl⟩

/-- A heartbeat processed while a migration is frozen: the counter of its timestamper is
incremented, `current_migr` stays set, and `check_move_migr` tells whether every counter
now equals 2. -/
theorem nop_frozen {P NS : Type} (C : weaver_constants) (S : shard P NS) (nop_arg : nop_data)
    (r : nop_result P NS) (hmig : S.current_migr = true) (hr : nop C S nop_arg = Except.ok r) :
    r.S.current_migr = true
      ∧ r.S.nop_count
          = S.nop_count.set nop_arg.vt_id (S.nop_count.getD nop_arg.vt_id 0 + 1)
      ∧ r.check_move_migr
          = (S.nop_count.set nop_arg.vt_id (S.nop_count.getD nop_arg.vt_id 0 + 1)).all
              (fun x => decide (x = 2)) := by
  unfold nop at hr
  have hstep : nop_count_step S nop_arg.vt_id
      = if nop_arg.vt_id < S.nop_count.length then
          Except.ok
            ({ S with nop_count :=
                S.nop_count.set nop_arg.vt_id (S.nop_count.getD nop_arg.vt_id 0 + 1) },
             (S.nop_count.set nop_arg.vt_id (S.nop_count.getD nop_arg.vt_id 0 + 1)).all
               (fun x => decide (x = 2)))
        else Except.error fault.out_of_range := by
    unfold nop_count_step
    rw [if_pos hmig]
  rw [hstep] at hr
  by_cases hlt : nop_arg.vt_id < S.nop_count.length
  · rw [if_pos hlt] at hr
    simp only at hr
    split at hr
    · cases hr
    · split at hr
      · cases hr
      · cases hr
        refine ⟨?_, ?_, rfl⟩
        · show (check_step3 C _).2.current_migr = true
          rw [(check_step3_frame C _).1]
          show (nop_token_step _).1.current_migr = true
          rw [(nop_token_step_frame _).1]
          exact hmig
        · show (check_step3 C _).2.nop_count = _
          rw [(check_step3_frame C _).2]
          show (nop_token_step _).1.nop_count = _
          rw [(nop_token_step_frame _).2]
  · rw [if_neg hlt] at hr
    cases hr

/-- Once a heartbeat counter has passed 2 while the migration is frozen,
`migrate_node_step2_req` is never called, whatever heartbeats follow. -/
theorem step2_never_after_overshoot {P NS : Type} (C : weaver_constants)
    (nops : List nop_data) :
    ∀ (S : shard P NS) (i : Nat), S.current_migr = true → 3 ≤ S.nop_count.getD i 0 →
      true ∉ step2_triggers C nops S := by
  induction nops with
  | nil => intro S i _ _; simp [step2_triggers]
  | cons nop_arg rest ih =>
    intro S i hmig hi
    unfold step2_triggers
    cases hr : nop C S nop_arg with
    | error e => simp
    | ok r =>
      obtain ⟨h1, h2, h3⟩ := nop_frozen C S nop_arg r hmig hr
      have hilt : i < S.nop_count.length := by
        by_contra hge
        rw [List.getD_eq_default _ _ (Nat.le_of_not_lt hge)] at hi
        omega
      have hget : 3 ≤ r.S.nop_count.getD i 0 := by
        rw [h2]
        by_cases hiv : nop_arg.vt_id = i
        · subst hiv
          rw [List.getD_eq_getElem _ _ (by simpa using hilt)]
          simp only [List.getElem_set_self]
          omega
        · rw [List.getD_eq_getElem _ _ (by simpa using hilt)]
          rw [List.getElem_set_ne hiv]
          rw [List.getD_eq_getElem _ _ hilt] at hi
          exact hi
      have hmove : r.check_move_migr = false := by
        rw [h3, ← h2]
        by_contra hall
        have hall2 : r.S.nop_count.all (fun x => decide (x = 2)) = true := by
          simpa using hall
        rw [List.all_eq_true] at hall2
        have hlen : i < r.S.nop_count.length := by
          rw [h2]; simpa using hilt
        have := hall2 (r.S.nop_count[i]) (List.getElem_mem hlen)
        rw [List.getD_eq_getElem _ _ hlen] at hget
        simp only [decide_eq_true_eq] at this
        omega
      simp only [hmove, Bool.false_eq_true, if_false]
      split
      · simp
      · simp only [List.mem_cons, Bool.true_eq_false, false_or]
        exact ih r.S i h1 hget

/-- C7: with two timestampers, after step 1 froze a node, three heartbeats of timestamper 0
followed by two of timestamper 1: all five are processed and none calls
`migrate_node_step2_req`, although the fifth is the one that brings every timestamper to
at least 2 heartbeats; and no heartbeat that follows ever calls it. With the heartbeats
alternating, the fourth calls it. -/
theorem nop_misses_step2_after_uneven_heartbeats :
    step2_triggers two_vts uneven_heartbeats frozen_shard = [false, false, false, false, false]
    ∧ (∀ more : List nop_data,
        true ∉ step2_triggers two_vts (uneven_heartbeats ++ more) frozen_shard)
    ∧ step2_triggers two_vts [heartbeat 0, heartbeat 1, heartbeat 0, heartbeat 1] frozen_shard
        = [false, false, false, true] := by
  refine ⟨by decide, ?_, by decide⟩
  intro more
  have h3 : ∀ (S : shard Nat Unit) (l : List nop_data), S.current_migr = true →
      S.nop_count = [0, 0] →
      true ∉ step2_triggers two_vts (heartbeat 0 :: heartbeat 0 :: heartbeat 0 :: l) S := by
    intro S l hmig hcnt
    unfold step2_triggers
    cases hr1 : nop two_vts S (heartbeat 0) with
    | error e => simp
    | ok r1 =>
      obtain ⟨a1, a2, a3⟩ := nop_frozen two_vts S (heartbeat 0) r1 hmig hr1
      rw [hcnt] at a2 a3
      have hm1 : r1.check_move_migr = false := by rw [a3]; decide
      simp only [hm1, Bool.false_eq_true, if_false]
      split
      · simp
      · simp only [List.mem_cons, Bool.true_eq_false, false_or]
        unfold step2_triggers
        cases hr2 : nop two_vts r1.S (heartbeat 0) with
        | error e => simp
        | ok r2 =>
          obtain ⟨b1, b2, b3⟩ := nop_frozen two_vts r1.S (heartbeat 0) r2 a1 hr2
          rw [a2] at b2 b3
          have hm2 : r2.check_move_migr = false := by rw [b3]; decide
          simp only [hm2, Bool.false_eq_true, if_false]
          split
          · simp
          · simp only [List.mem_cons, Bool.true_eq_false, false_or]
            unfold step2_triggers
            cases hr3 : nop two_vts r2.S (heartbeat 0) with
            | error e => simp
            | ok r3 =>
              obtain ⟨c1, c2, c3⟩ := nop_frozen two_vts r2.S (heartbeat 0) r3 b1 hr3
              rw [b2] at c2 c3
              have hm3 : r3.check_move_migr = false := by rw [c3]; decide
              simp only [hm3, Bool.false_eq_true, if_false]
              split
              · simp
              · simp only [List.mem_cons, Bool.true_eq_false, false_or]
                exact step2_never_after_overshoot two_vts l r3.S 0 c1 (by rw [c2]; decide)
  exact h3 frozen_shard _ rfl rfl

/-! ### Installing a migrated node -/

/-- C9, counterexample: the buffer of node 7 holds an edge deletion with vclock value 5
before one with vclock value 3; `migrate_node_step2_resp` applies them in that order, the
later vclock first. -/
theorem migrate_node_step2_resp_applies_in_buffer_order :
    (migr_trace_of (migrate_node_step2_resp shards_2_3 idle_store
        (fun _ => example_env (fun _ => [])) 1 receiving_shard 7 2 packed_node)).map
        applied_writes
      = some [(write_type.EDGE_DELETE_REQ, clock_at 5), (write_type.EDGE_DELETE_REQ, clock_at 3)]
    ∧ kronos_compare_two_vts (fun _ _ => 0) (clock_at 5) (clock_at 3) = 1 := by
  decide

/-- Setting a key removes no key of the map. -/
theorem lookup_assoc_set_isSome {α : Type} (k k2 : Nat) (v : α) (l : List (Nat × α))
    (h : (l.lookup k2).isSome = true) : ((assoc_set k v l).lookup k2).isSome = true := by
  by_cases hk : k2 = k
  · subst hk
    rw [lookup_assoc_set_self]
    rfl
  · rw [lookup_assoc_set_ne _ _ _ _ hk]
    exact h

/-- After the entries of a key are erased the key has no entry. -/
theorem lookup_filter_ne {α : Type} (k : Nat) (l : List (Nat × α)) :
    (l.filter (fun p => decide (p.1 ≠ k))).lookup k = none := by
  induction l with
  | nil => rfl
  | cons p rest ih =>
    obtain ⟨k1, v1⟩ := p
    by_cases h : k1 = k
    · subst h
      simpa [List.filter_cons] using ih
    · have h2 : (k == k1) = false := by simpa using fun e => h e.symm
      simp only [List.filter_cons, ne_eq, h, not_false_eq_true, decide_True, if_true,
        List.lookup, h2]
      exact ih

/-- A visit keeps an installed node installed: a read is only buffered for a node that is
missing, and a call of the node program removes no node. -/
theorem visit_node_installed {P NS : Type} (C : weaver_constants) (E : prog_env P NS)
    (m : node_prog_msg P) (t : node_params_t P) (st : run_state P NS) (h : Nat)
    (hinst : installed h st.S) : installed h (visit_node C E m t st).1.S := by
  obtain ⟨i1, i2, i3⟩ := hinst
  unfold visit_node
  split
  · rename_i hn
    have hne : h ≠ t.handle := by
      intro e
      rw [e, hn] at i1
      cases i1
    refine ⟨i1, ?_, i3⟩
    show (assoc_set _ _ _).lookup h = none
    rw [lookup_assoc_set_ne _ _ _ _ hne]
    exact i2
  · rename_i n hn
    split
    · exact ⟨i1, i2, i3⟩
    · split
      · exact ⟨i1, i2, i3⟩
      · split
        · exact ⟨i1, i2, i3⟩
        · obtain ⟨-, c2, c3, -, c5, -⟩ := call_prog_spec C E m t n
            { st with S := (check_done_request E st.S m.req_id).2 }
          refine ⟨?_, ?_, ?_⟩
          · unfold acquire_node
            rw [c5]
            exact lookup_assoc_set_isSome _ _ _ _ i1
          · rw [c2]; exact i2
          · rw [c3]; exact i3

/-- A hop keeps an installed node installed. -/
theorem run_hop_installed {P NS : Type} (C : weaver_constants) (E : prog_env P NS)
    (m : node_prog_msg P) (h : Nat) (tuples : List (node_params_t P)) :
    ∀ st : run_state P NS, installed h st.S → installed h (run_hop C E m tuples st).S := by
  induction tuples with
  | nil => intro st hinst; exact hinst
  | cons t rest ih =>
    intro st hinst
    unfold run_hop
    split
    · exact visit_node_installed C E m t st h hinst
    · exact ih _ (visit_node_installed C E m t st h hinst)

/-- The dispatch loop keeps an installed node installed, however far it gets. -/
theorem run_hops_installed {P NS : Type} (C : weaver_constants) (E : prog_env P NS)
    (m : node_prog_msg P) (h : Nat) (fuel : Nat) :
    ∀ (start : List (node_params_t P)) (st : run_state P NS), installed h st.S →
      installed h (run_hops C E m fuel start st).1.S := by
  induction fuel with
  | zero => intro start st hinst; exact hinst
  | succ k ih =>
    intro start st hinst
    unfold run_hops
    split
    · exact hinst
    · apply ih
      exact run_hop_installed C E m h start st hinst

/-- A run of `unpack_and_run_db` keeps an installed node installed. -/
theorem unpack_and_run_db_installed {P NS : Type} (C : weaver_constants) (E : prog_env P NS)
    (fuel : Nat) (S : shard P NS) (m : node_prog_msg P) (h : Nat) (out : outcome P NS)
    (hout : unpack_and_run_db C E fuel S m = Except.ok out) (hinst : installed h S) :
    installed h out.S := by
  obtain ⟨f1, -, f3, f4⟩ := start_state_frame E S m
  have hstart : installed h (start_state E S m).S := by
    obtain ⟨i1, i2, i3⟩ := hinst
    refine ⟨?_, ?_, ?_⟩
    · unfold acquire_node; rw [f1]; exact i1
    · rw [f3]; exact i2
    · rw [f4]; exact i3
  unfold unpack_and_run_db at hout
  split at hout
  · cases hout
  · split at hout
    · split at hout
      · cases hout
      · cases hout
        exact hstart
    · cases hout
      exact run_hops_installed C E m h fuel _ _ hstart

/-- The re-dispatched programs of a trace in two parts. -/
theorem redispatched_append {P : Type} (l1 l2 : List (migr_event P)) :
    redispatched (l1 ++ l2) = redispatched l1 ++ redispatched l2 := by
  induction l1 with
  | nil => rfl
  | cons e rest ih => cases e <;> simp [redispatched, ih]

/-- The applied writes of a trace in two parts. -/
theorem applied_writes_append {P : Type} (l1 l2 : List (migr_event P)) :
    applied_writes (l1 ++ l2) = applied_writes l1 ++ applied_writes l2 := by
  induction l1 with
  | nil => rfl
  | cons e rest ih => cases e <;> simp [applied_writes, ih]

/-- The actions of a node program are neither re-dispatches nor writes. -/
theorem redispatched_prog {P : Type} (tr : List (event P)) :
    redispatched (tr.map migr_event.prog) = []
      ∧ applied_writes (tr.map migr_event.prog) = [] := by
  induction tr with
  | nil => exact ⟨rfl, rfl⟩
  | cons e rest ih => simpa [redispatched, applied_writes] using ih

/-- A non-global `NODE_PROG` with a clock of the right size makes `unpack_and_run_db`
return (possibly with the iteration bound reached). -/
theorem unpack_and_run_db_non_global_ok {P NS : Type} (C : weaver_constants)
    (E : prog_env P NS) (fuel : Nat) (S : shard P NS) (m : node_prog_msg P)
    (hg : m.global_req = false) (hclk : m.req_vclock.clock.length = C.NUM_VTS) :
    ∃ out, unpack_and_run_db C E fuel S m = Except.ok out := by
  unfold unpack_and_run_db
  rw [if_neg (by simpa using hclk), if_neg (by simp [hg])]
  exact ⟨_, rfl⟩

/-- The loop over the buffered writes of node `h`, all of which name `h`: every write of a
handled type is applied, in buffer order, and under the assumptions on the graph store no
node is removed and the deferred buffers are not touched. -/
theorem apply_deferred_writes_ok {P NS : Type} (G : store_env P NS) (hframe : G.frame)
    (h : Nat) (writes : List deferred_write)
    (hw : ∀ w ∈ writes, w.type ≠ write_type.OTHER → w.node = h) :
    ∀ acc : shard P NS × List (migr_event P),
      ∃ S1, apply_deferred_writes G h writes acc
          = Except.ok (S1, acc.2 ++ writes.filterMap (write_event h))
        ∧ (∀ k, (acquire_node acc.1 k).isSome = true → (acquire_node S1 k).isSome = true)
        ∧ S1.deferred_reads = acc.1.deferred_reads
        ∧ S1.deferred_writes = acc.1.deferred_writes := by
  obtain ⟨fr1, fr2, fr3, -⟩ := hframe
  induction writes with
  | nil => intro acc; exact ⟨acc.1, by simp [apply_deferred_writes], fun _ hk => hk, rfl, rfl⟩
  | cons w rest ih =>
    intro acc
    have hrest : ∀ w1 ∈ rest, w1.type ≠ write_type.OTHER → w1.node = h :=
      fun w1 hw1 => hw w1 (List.mem_cons_of_mem _ hw1)
    have hnode : w.type ≠ write_type.OTHER → w.node = h := hw w (List.mem_cons_self _ _)
    unfold apply_deferred_writes
    cases hty : w.type with
    | NODE_DELETE_REQ =>
      have hn := hnode (by rw [hty]; exact fun e => nomatch e)
      simp only [hn, if_true]
      obtain ⟨S1, e1, e2, e3, e4⟩ := ih hrest
        (G.delete_node_nonlocking acc.1 h w.vclk,
         acc.2 ++ [migr_event.delete_node_nonlocking h w.vclk])
      obtain ⟨k1, k2, k3⟩ := fr1 h w.vclk acc.1
      refine ⟨S1, ?_, fun k hk => e2 k (k1 k hk), e3.trans k2, e4.trans k3⟩
      rw [e1]
      simp [List.filterMap_cons, write_event, hty]
    | EDGE_CREATE_REQ =>
      have hn := hnode (by rw [hty]; exact fun e => nomatch e)
      simp only [hn, if_true]
      obtain ⟨S1, e1, e2, e3, e4⟩ := ih hrest
        (G.create_edge_nonlocking acc.1 h w.edge w.n2 w.loc2 w.vclk,
         acc.2 ++ [migr_event.create_edge_nonlocking h w.edge w.n2 w.loc2 w.vclk])
      obtain ⟨k1, k2, k3⟩ := fr2 h w.edge w.n2 w.loc2 w.vclk acc.1
      refine ⟨S1, ?_, fun k hk => e2 k (k1 k hk), e3.trans k2, e4.trans k3⟩
      rw [e1]
      simp [List.filterMap_cons, write_event, hty]
    | EDGE_DELETE_REQ =>
      have hn := hnode (by rw [hty]; exact fun e => nomatch e)
      simp only [hn, if_true]
      obtain ⟨S1, e1, e2, e3, e4⟩ := ih hrest
        (G.delete_edge_nonlocking acc.1 h w.edge w.vclk,
         acc.2 ++ [migr_event.delete_edge_nonlocking h w.edge w.vclk])
      obtain ⟨k1, k2, k3⟩ := fr3 h w.edge w.vclk acc.1
      refine ⟨S1, ?_, fun k hk => e2 k (k1 k hk), e3.trans k2, e4.trans k3⟩
      rw [e1]
      simp [List.filterMap_cons, write_event, hty]
    | OTHER =>
      obtain ⟨S1, e1, e2, e3, e4⟩ := ih hrest acc
      refine ⟨S1, ?_, e2, e3, e4⟩
      simp only
      rw [e1]
      simp [List.filterMap_cons, write_event, hty]

/-- The loop over the buffered reads of an installed node, all of them non-global with a
clock of the right size: every message is handed to `unpack_and_run_db`, in buffer order,
nothing else is added to the trace but the actions of those programs, and the node stays
installed. -/
theorem apply_buffered_reads_ok {P NS : Type} (C : weaver_constants)
    (programs : Nat → prog_env P NS) (fuel : Nat) (h : Nat) (reads : List (node_prog_msg P))
    (hreads : ∀ m ∈ reads, m.global_req = false ∧ m.req_vclock.clock.length = C.NUM_VTS) :
    ∀ acc : shard P NS × List (migr_event P) × Bool, installed h acc.1 →
      ∃ S1 post ret, apply_buffered_reads C programs fuel reads acc
          = Except.ok (S1, acc.2.1 ++ post, ret)
        ∧ redispatched post = reads ∧ applied_writes post = [] ∧ installed h S1 := by
  induction reads with
  | nil =>
    intro acc _
    exact ⟨acc.1, [], acc.2.2, by simp [apply_buffered_reads], rfl, rfl, by assumption⟩
  | cons m rest ih =>
    intro acc hinst
    obtain ⟨hg, hclk⟩ := hreads m (List.mem_cons_self _ _)
    obtain ⟨out, hout⟩ := unpack_and_run_db_non_global_ok C (programs m.prog_type) fuel
      acc.1 m hg hclk
    have hinst2 := unpack_and_run_db_installed C (programs m.prog_type) fuel acc.1 m h out
      hout hinst
    unfold apply_buffered_reads
    rw [hout]
    simp only
    obtain ⟨S1, post, ret, e1, e2, e3, e4⟩ := ih
      (fun m1 hm1 => hreads m1 (List.mem_cons_of_mem _ hm1))
      (out.S, acc.2.1 ++ [migr_event.unpack_and_run_db m] ++ out.trace.map migr_event.prog,
       acc.2.2 && out.returned) hinst2
    refine ⟨S1, [migr_event.unpack_and_run_db m] ++ out.trace.map migr_event.prog ++ post, ret,
      ?_, ?_, ?_, e4⟩
    · rw [e1]
      simp only [List.append_assoc]
    · rw [redispatched_append, redispatched_append, (redispatched_prog _).1, e2]
      rfl
    · rw [applied_writes_append, applied_writes_append, (redispatched_prog _).2, e3]
      rfl

/-- Marking a node stable removes no node and leaves the deferred buffers alone. -/
theorem set_stable_frame {P NS : Type} (S : shard P NS) (h : Nat) :
    (∀ k, (acquire_node S k).isSome = true → (acquire_node (set_stable S h) k).isSome = true)
      ∧ (set_stable S h).deferred_reads = S.deferred_reads
      ∧ (set_stable S h).deferred_writes = S.deferred_writes := by
  unfold set_stable
  split
  · exact ⟨fun _ hk => hk, rfl, rfl⟩
  · exact ⟨fun k hk => lookup_assoc_set_isSome _ _ _ _ hk, rfl, rfl⟩

/-- The block that drains the buffered writes of node `h`, all of which name `h`: the
writes of a handled type are applied in buffer order and the entry is erased. -/
theorem drain_deferred_writes_ok {P NS : Type} (G : store_env P NS) (hframe : G.frame)
    (h : Nat) (S : shard P NS)
    (hw : ∀ w ∈ (S.deferred_writes.lookup h).getD [],
      w.type ≠ write_type.OTHER → w.node = h) :
    ∃ S2, drain_deferred_writes G h S
        = Except.ok (S2, ((S.deferred_writes.lookup h).getD []).filterMap (write_event h))
      ∧ (∀ k, (acquire_node S k).isSome = true → (acquire_node S2 k).isSome = true)
      ∧ S2.deferred_reads = S.deferred_reads
      ∧ S2.deferred_writes.lookup h = none := by
  unfold drain_deferred_writes
  cases hl : S.deferred_writes.lookup h with
  | none => exact ⟨S, rfl, fun _ hk => hk, rfl, hl⟩
  | some writes =>
    rw [hl] at hw
    obtain ⟨S1, e1, e2, e3, -⟩ := apply_deferred_writes_ok G hframe h writes hw (S, [])
    simp only [e1, List.nil_append, Option.getD_some]
    exact ⟨_, rfl, e2, e3, lookup_filter_ne h _⟩

/-- The run of `migrate_node_step2_resp` when the buffered writes of `h` name `h` and its
buffered reads are non-global requests with clocks of the right size: it returns, its
trace is the indexing of the out-edges, the buffered writes in buffer order, the
neighbour updates, the switch to stable and the local neighbour update, followed by the
buffered reads re-dispatched in buffer order, and `h` ends installed. -/
theorem migrate_node_step2_resp_run {P NS : Type} (C : weaver_constants) (G : store_env P NS)
    (programs : Nat → prog_env P NS) (fuel : Nat) (S : shard P NS) (h from_loc : Nat)
    (n : node) (hframe : G.frame)
    (hw : ∀ w ∈ (S.deferred_writes.lookup h).getD [],
      w.type ≠ write_type.OTHER → w.node = h)
    (hreads : ∀ m ∈ (S.deferred_reads.lookup h).getD [],
      m.global_req = false ∧ m.req_vclock.clock.length = C.NUM_VTS) :
    ∃ out post, migrate_node_step2_resp C G programs fuel S h from_loc n = Except.ok out
      ∧ out.trace
          = n.out_edges.map (fun e => migr_event.edge_map_emplace e.2.nbr.handle h)
            ++ ((S.deferred_writes.lookup h).getD []).filterMap (write_event h)
            ++ send_nbr_updates C S.shard_id h from_loc
            ++ [migr_event.set_stable h, migr_event.update_migrated_nbr h from_loc S.shard_id]
            ++ post
      ∧ redispatched post = (S.deferred_reads.lookup h).getD []
      ∧ applied_writes post = []
      ∧ installed h out.S := by
  unfold migrate_node_step2_resp
  simp only
  generalize hS1 : ({ S with nodes := assoc_set h n S.nodes,
                             edge_map := index_out_edges h n.out_edges S.edge_map }
                      : shard P NS) = S1
  have a1 : (acquire_node S1 h).isSome = true := by
    rw [← hS1]
    unfold acquire_node
    show ((assoc_set h n S.nodes).lookup h).isSome = true
    rw [lookup_assoc_set_self]
    rfl
  have a2 : S1.deferred_reads = S.deferred_reads := by rw [← hS1]
  have a3 : S1.deferred_writes = S.deferred_writes := by rw [← hS1]
  obtain ⟨S2, d1, d2, d3, d4⟩ := drain_deferred_writes_ok G hframe h S1 (by rw [a3]; exact hw)
  rw [d1, a3]
  simp only
  obtain ⟨t1, t2, t3⟩ := set_stable_frame S2 h
  have hinst : installed h (G.update_migrated_nbr
      { set_stable S2 h with
        deferred_reads := (set_stable S2 h).deferred_reads.filter
          (fun p => decide (p.1 ≠ h)) } h from_loc S.shard_id) := by
    obtain ⟨u1, u2, u3⟩ := hframe.2.2.2 h from_loc S.shard_id
      { set_stable S2 h with
        deferred_reads := (set_stable S2 h).deferred_reads.filter
          (fun p => decide (p.1 ≠ h)) }
    refine ⟨u1 h (t1 h (d2 h a1)), ?_, ?_⟩
    · rw [u2]
      exact lookup_filter_ne h _
    · rw [u3]
      show (set_stable S2 h).deferred_writes.lookup h = none
      rw [t3]
      exact d4
  have hrd : (set_stable S2 h).deferred_reads = S.deferred_reads := by rw [t2, d3, a2]
  obtain ⟨S6, post, ret, r1, r2, r3, r4⟩ := apply_buffered_reads_ok C programs fuel h
    (((set_stable S2 h).deferred_reads.lookup h).getD []) (by rw [hrd]; exact hreads)
    (G.update_migrated_nbr
      { set_stable S2 h with
        deferred_reads := (set_stable S2 h).deferred_reads.filter
          (fun p => decide (p.1 ≠ h)) } h from_loc S.shard_id,
     n.out_edges.map (fun e => migr_event.edge_map_emplace e.2.nbr.handle h)
       ++ ((S.deferred_writes.lookup h).getD []).filterMap (write_event h)
       ++ send_nbr_updates C S.shard_id h from_loc
       ++ [migr_event.set_stable h, migr_event.update_migrated_nbr h from_loc S.shard_id],
     true) hinst
  rw [r1]
  exact ⟨_, post, rfl, rfl, by rw [r2, hrd], r3, r4⟩

/-- The writes recorded for a buffer are its writes of a handled type, in buffer order. -/
theorem applied_writes_write_events {P : Type} (h : Nat) (writes : List deferred_write) :
    applied_writes (writes.filterMap (write_event h) : List (migr_event P))
      = (writes.filter (fun w => decide (w.type ≠ write_type.OTHER))).map
          (fun w => (w.type, w.vclk)) := by
  induction writes with
  | nil => rfl
  | cons w rest ih =>
    cases hty : w.type <;>
      simp [List.filterMap_cons, List.filter_cons, write_event, hty, applied_writes, ih]

/-- Indexing out-edges applies no write. -/
theorem applied_writes_edge_map {P : Type} (h : Nat) (l : List (Nat × edge)) :
    applied_writes (l.map (fun e => migr_event.edge_map_emplace e.2.nbr.handle h)
      : List (migr_event P)) = [] := by
  induction l with
  | nil => rfl
  | cons a rest ih => simpa [applied_writes] using ih

/-- Sending the neighbour updates applies no write. -/
theorem applied_writes_send_nbr_updates {P : Type} (C : weaver_constants)
    (shard_id h from_loc : Nat) :
    applied_writes (send_nbr_updates C shard_id h from_loc : List (migr_event P)) = [] := by
  unfold send_nbr_updates
  induction (shard_ids C).filter (fun upd_shard => decide (upd_shard ≠ shard_id)) with
  | nil => rfl
  | cons a rest ih => simpa [applied_writes] using ih

/-- C9, amended: when `migrate_node_step2_resp` installs node `h` (the buffered writes
naming `h`, the buffered reads being non-global requests with clocks of the right size, the
graph-store methods keeping the buffers), the buffered writes of `deferred_writes[h]` of a
handled type are applied to `h` in buffer order, each under its own vclock; so they are
applied in strictly increasing vclock order whenever the buffer is in that order. -/
theorem migrate_node_step2_resp_writes_in_buffer_order {P NS : Type} (C : weaver_constants)
    (G : store_env P NS) (programs : Nat → prog_env P NS) (fuel : Nat) (S : shard P NS)
    (h from_loc : Nat) (n : node) (hframe : G.frame)
    (hw : ∀ w ∈ (S.deferred_writes.lookup h).getD [],
      w.type ≠ write_type.OTHER → w.node = h)
    (hreads : ∀ m ∈ (S.deferred_reads.lookup h).getD [],
      m.global_req = false ∧ m.req_vclock.clock.length = C.NUM_VTS) :
    ∃ out, migrate_node_step2_resp C G programs fuel S h from_loc n = Except.ok out
      ∧ applied_writes out.trace
          = (((S.deferred_writes.lookup h).getD []).filter
              (fun w => decide (w.type ≠ write_type.OTHER))).map (fun w => (w.type, w.vclk))
      ∧ ∀ compare_two_vts : vclock → vclock → Int,
          ((S.deferred_writes.lookup h).getD []).Pairwise
              (fun w1 w2 => compare_two_vts w1.vclk w2.vclk = 0) →
          (applied_writes out.trace).Pairwise
              (fun a1 a2 => compare_two_vts a1.2 a2.2 = 0) := by
  obtain ⟨out, post, e1, e2, -, e4, -⟩ :=
    migrate_node_step2_resp_run C G programs fuel S h from_loc n hframe hw hreads
  have happ : applied_writes out.trace
      = (((S.deferred_writes.lookup h).getD []).filter
          (fun w => decide (w.type ≠ write_type.OTHER))).map (fun w => (w.type, w.vclk)) := by
    rw [e2, applied_writes_append, applied_writes_append, applied_writes_append,
      applied_writes_append, applied_writes_edge_map, applied_writes_write_events,
      applied_writes_send_nbr_updates, e4]
    simp [applied_writes]
  refine ⟨out, e1, happ, ?_⟩
  intro cmp hsorted
  rw [happ]
  exact List.Pairwise.map _ (fun _ _ hab => hab) (hsorted.sublist (List.filter_sublist _))

/-- The methods of `idle_store` keep the buffers. -/
theorem idle_store_frame : idle_store.frame :=
  ⟨fun _ _ _ => ⟨fun _ hk => hk, rfl, rfl⟩, fun _ _ _ _ _ _ => ⟨fun _ hk => hk, rfl, rfl⟩,
   fun _ _ _ _ => ⟨fun _ hk => hk, rfl, rfl⟩, fun _ _ _ _ => ⟨fun _ hk => hk, rfl, rfl⟩⟩

/-- Witness for C9 (amended): node 7 arriving at shard 3 with two buffered edge deletions. -/
theorem migrate_node_step2_resp_writes_in_buffer_order_witness :
    ∃ out, migrate_node_step2_resp shards_2_3 idle_store (fun _ => example_env (fun _ => []))
          1 receiving_shard 7 2 packed_node = Except.ok out
      ∧ applied_writes out.trace
          = (((receiving_shard.deferred_writes.lookup 7).getD []).filter
              (fun w => decide (w.type ≠ write_type.OTHER))).map (fun w => (w.type, w.vclk))
      ∧ ∀ compare_two_vts : vclock → vclock → Int,
          ((receiving_shard.deferred_writes.lookup 7).getD []).Pairwise
              (fun w1 w2 => compare_two_vts w1.vclk w2.vclk = 0) →
          (applied_writes out.trace).Pairwise
              (fun a1 a2 => compare_two_vts a1.2 a2.2 = 0) :=
  migrate_node_step2_resp_writes_in_buffer_order shards_2_3 idle_store
    (fun _ => example_env (fun _ => [])) 1 receiving_shard 7 2 packed_node idle_store_frame
    (by decide) (by decide)

/-- Membership in the list of shard ids. -/
theorem mem_shard_ids (C : weaver_constants) (t : Nat) :
    t ∈ shard_ids C ↔ C.SHARD_ID_INCR ≤ t ∧ t < C.SHARD_ID_INCR + C.NUM_SHARDS := by
  unfold shard_ids
  exact List.mem_range'_1

/-- The successor of a valid shard id, in closed form. -/
theorem ring_successor_eq (C : weaver_constants) (s : Nat) (hs : s ∈ shard_ids C)
    (hbound : C.SHARD_ID_INCR + C.NUM_SHARDS < 2 ^ 64) :
    ring_successor C s
      = C.SHARD_ID_INCR + (s - C.SHARD_ID_INCR + 1) % C.NUM_SHARDS := by
  obtain ⟨h1, h2⟩ := (mem_shard_ids C s).1 hs
  unfold ring_successor
  have hmod : (s + 1 + 2 ^ 64 - C.SHARD_ID_INCR) % 2 ^ 64 = s + 1 - C.SHARD_ID_INCR := by
    have : s + 1 + 2 ^ 64 - C.SHARD_ID_INCR = (s + 1 - C.SHARD_ID_INCR) + 2 ^ 64 := by omega
    rw [this, Nat.add_mod_right, Nat.mod_eq_of_lt (by omega)]
  rw [hmod]
  by_cases hlast : s + 1 = C.SHARD_ID_INCR + C.NUM_SHARDS
  · have e1 : s - C.SHARD_ID_INCR + 1 = C.NUM_SHARDS := by omega
    rw [if_pos (by omega), e1, Nat.mod_self]
    rfl
  · rw [if_neg (by omega), Nat.mod_eq_of_lt (by omega)]
    omega

/-- Following the successor `k` times from a valid shard id, in closed form. -/
theorem ring_successor_iterate (C : weaver_constants) (s : Nat) (hs : s ∈ shard_ids C)
    (hbound : C.SHARD_ID_INCR + C.NUM_SHARDS < 2 ^ 64) (k : Nat) :
    (ring_successor C)^[k] s
      = C.SHARD_ID_INCR + (s - C.SHARD_ID_INCR + k) % C.NUM_SHARDS := by
  obtain ⟨h1, h2⟩ := (mem_shard_ids C s).1 hs
  have hN : 0 < C.NUM_SHARDS := by omega
  induction k with
  | zero =>
    rw [Function.iterate_zero, id, Nat.add_zero, Nat.mod_eq_of_lt (by omega)]
    omega
  | succ k ih =>
    rw [Function.iterate_succ_apply', ih, ring_successor_eq C _ _ hbound]
    · have e : C.SHARD_ID_INCR + (s - C.SHARD_ID_INCR + k) % C.NUM_SHARDS - C.SHARD_ID_INCR
          = (s - C.SHARD_ID_INCR + k) % C.NUM_SHARDS := by omega
      rw [e, Nat.mod_add_mod, Nat.add_assoc]
    · rw [mem_shard_ids]
      have := Nat.mod_lt (s - C.SHARD_ID_INCR + k) hN
      omega

/-- C11: `shard_daemon_end` on a shard with a valid id and a positive hop counter passes the
token to the ring successor: the destination is
`SHARD_ID_INCR + ((shard_id - SHARD_ID_INCR + 1) mod NUM_SHARDS)`, a valid shard id; the
message carries the hop counter decremented by exactly 1 and the unchanged minting
timestamper; `migr_token` becomes false; and following the successor `NUM_SHARDS` times
from the shard returns to it after visiting every shard once. -/
theorem shard_daemon_end_passes_token {P NS : Type} (C : weaver_constants) (S : shard P NS)
    (hvalid : S.shard_id ∈ shard_ids C)
    (hbound : C.SHARD_ID_INCR + C.NUM_SHARDS < 2 ^ 64)
    (hhops : 0 < S.migr_token_hops) (hhops64 : S.migr_token_hops < 2 ^ 64) :
    (shard_daemon_end C S).2
        = migr_action.send_migration_token
            (C.SHARD_ID_INCR + (S.shard_id - C.SHARD_ID_INCR + 1) % C.NUM_SHARDS)
            (S.migr_token_hops - 1) S.migr_vt
    ∧ C.SHARD_ID_INCR + (S.shard_id - C.SHARD_ID_INCR + 1) % C.NUM_SHARDS ∈ shard_ids C
    ∧ (shard_daemon_end C S).1.migr_token = false
    ∧ (shard_daemon_end C S).1.migr_token_hops = S.migr_token_hops - 1
    ∧ (shard_daemon_end C S).1.migr_vt = S.migr_vt
    ∧ (ring_successor C)^[C.NUM_SHARDS] S.shard_id = S.shard_id
    ∧ ((List.range C.NUM_SHARDS).map (fun k => (ring_successor C)^[k] S.shard_id)).Nodup
    ∧ ∀ t ∈ shard_ids C, ∃ k, k < C.NUM_SHARDS ∧ (ring_successor C)^[k] S.shard_id = t := by
  obtain ⟨h1, h2⟩ := (mem_shard_ids C S.shard_id).1 hvalid
  have hN : 0 < C.NUM_SHARDS := by omega
  have hdec : (S.migr_token_hops + 2 ^ 64 - 1) % 2 ^ 64 = S.migr_token_hops - 1 := by
    have : S.migr_token_hops + 2 ^ 64 - 1 = (S.migr_token_hops - 1) + 2 ^ 64 := by omega
    rw [this, Nat.add_mod_right, Nat.mod_eq_of_lt (by omega)]
  refine ⟨?_, ?_, rfl, hdec, rfl, ?_, ?_, ?_⟩
  · unfold shard_daemon_end
    rw [ring_successor_eq C _ hvalid hbound, hdec]
  · rw [mem_shard_ids]
    have := Nat.mod_lt (S.shard_id - C.SHARD_ID_INCR + 1) hN
    omega
  · rw [ring_successor_iterate C _ hvalid hbound, Nat.add_mod_right,
      Nat.mod_eq_of_lt (by omega)]
    omega
  · apply List.Nodup.map_on _ (List.nodup_range _)
    intro k1 hk1 k2 hk2 heq
    rw [List.mem_range] at hk1 hk2
    rw [ring_successor_iterate C _ hvalid hbound, ring_successor_iterate C _ hvalid hbound]
      at heq
    have hmod : (S.shard_id - C.SHARD_ID_INCR + k1) % C.NUM_SHARDS
        = (S.shard_id - C.SHARD_ID_INCR + k2) % C.NUM_SHARDS := by omega
    have hk : k1 % C.NUM_SHARDS = k2 % C.NUM_SHARDS :=
      Nat.ModEq.add_left_cancel' _ hmod
    rwa [Nat.mod_eq_of_lt hk1, Nat.mod_eq_of_lt hk2] at hk
  · intro t ht
    obtain ⟨t1, t2⟩ := (mem_shard_ids C t).1 ht
    refine ⟨(t - C.SHARD_ID_INCR + C.NUM_SHARDS - (S.shard_id - C.SHARD_ID_INCR))
      % C.NUM_SHARDS, Nat.mod_lt _ hN, ?_⟩
    rw [ring_successor_iterate C _ hvalid hbound, Nat.add_mod_mod]
    have e : S.shard_id - C.SHARD_ID_INCR
        + (t - C.SHARD_ID_INCR + C.NUM_SHARDS - (S.shard_id - C.SHARD_ID_INCR))
        = (t - C.SHARD_ID_INCR) + C.NUM_SHARDS := by omega
    rw [e, Nat.add_mod_right, Nat.mod_eq_of_lt (by omega)]
    omega

/-- Witness for C11: shard 3 of the shards 2 and 3 holding the token with 5 hops left
passes it to shard 2 with 4 hops left. -/
theorem shard_daemon_end_passes_token_witness :
    token_holder.shard_id ∈ shard_ids shards_2_3
    ∧ (shard_daemon_end shards_2_3 token_holder).2
        = migr_action.send_migration_token 2 4 0 := by
  refine ⟨by decide, ?_⟩
  have h := (shard_daemon_end_passes_token shards_2_3 token_holder (by decide) (by decide)
    (by decide) (by decide)).1
  rw [h]
  decide

/-! ### The arg max over the shards -/

/-- Invariant of the arg-max loop: after the indices `done` (and this shard), `max_pos` is
one of them with the largest score, and `max_indices` lists, without repetition, exactly
those of them that have that score. -/
theorem arg_max_loop_inv (self : Nat) (migr_score : List ℚ) (js : List Nat) :
    ∀ (done : List Nat) (st : arg_max_state),
      (∀ j ∈ js, j ∉ done) → js.Nodup →
      (st.max_pos ∈ self :: done
        ∧ (∀ k ∈ self :: done, migr_score.getD k 0 ≤ migr_score.getD st.max_pos 0)
        ∧ (∀ j, j ∈ st.max_indices ↔
            j ∈ self :: done ∧ migr_score.getD j 0 = migr_score.getD st.max_pos 0)
        ∧ st.max_indices.Nodup) →
      ((arg_max_loop self migr_score js st).max_pos ∈ self :: (done ++ js)
        ∧ (∀ k ∈ self :: (done ++ js),
            migr_score.getD k 0
              ≤ migr_score.getD (arg_max_loop self migr_score js st).max_pos 0)
        ∧ (∀ j, j ∈ (arg_max_loop self migr_score js st).max_indices ↔
            j ∈ self :: (done ++ js)
              ∧ migr_score.getD j 0
                = migr_score.getD (arg_max_loop self migr_score js st).max_pos 0)
        ∧ (arg_max_loop self migr_score js st).max_indices.Nodup) := by
  induction js with
  | nil =>
    intro done st _ _ hinv
    simpa [arg_max_loop] using hinv
  | cons j rest ih =>
    intro done st hfresh hnd hinv
    obtain ⟨i1, i2, i3, i4⟩ := hinv
    have hjrest : j ∉ rest := (List.nodup_cons.1 hnd).1
    have hnd2 : rest.Nodup := (List.nodup_cons.1 hnd).2
    have hjdone : j ∉ done := hfresh j (List.mem_cons_self _ _)
    have hfresh2 : ∀ j1 ∈ rest, j1 ∉ done ++ [j] := by
      intro j1 hj1 hmem
      rcases List.mem_append.1 hmem with h | h
      · exact hfresh j1 (List.mem_cons_of_mem _ hj1) h
      · rw [List.mem_singleton] at h
        subst h
        exact hjrest hj1
    have hassoc : done ++ j :: rest = (done ++ [j]) ++ rest := by simp
    have hmem : ∀ x, x ∈ self :: (done ++ [j]) ↔ x ∈ self :: done ∨ x = j := by
      intro x
      simp only [List.mem_cons, List.mem_append, List.mem_singleton, List.not_mem_nil,
        or_false]
      tauto
    rw [hassoc]
    unfold arg_max_loop
    by_cases hself : j = self
    · rw [if_pos hself]
      apply ih (done ++ [j]) st hfresh2 hnd2
      refine ⟨(hmem _).2 (Or.inl i1), ?_, ?_, i4⟩
      · intro k hk
        rcases (hmem k).1 hk with h | h
        · exact i2 k h
        · rw [h, hself]
          exact i2 self (List.mem_cons_self _ _)
      · intro x
        rw [i3 x, hmem x]
        constructor
        · exact fun h => ⟨Or.inl h.1, h.2⟩
        · rintro ⟨h | h, h2⟩
          · exact ⟨h, h2⟩
          · exact ⟨by rw [h, hself]; exact List.mem_cons_self _ _, h2⟩
    · rw [if_neg hself]
      have hjnot : j ∉ self :: done := by
        intro h
        rcases List.mem_cons.1 h with h | h
        · exact hself h
        · exact hjdone h
      by_cases hlt : migr_score.getD st.max_pos 0 < migr_score.getD j 0
      · rw [if_pos hlt]
        apply ih (done ++ [j]) _ hfresh2 hnd2
        refine ⟨(hmem _).2 (Or.inr rfl), ?_, ?_, List.nodup_singleton j⟩
        · intro k hk
          rcases (hmem k).1 hk with h | h
          · exact le_of_lt (lt_of_le_of_lt (i2 k h) hlt)
          · rw [h]
        · intro x
          rw [List.mem_singleton, hmem x]
          constructor
          · intro h
            subst h
            exact ⟨Or.inr rfl, rfl⟩
          · rintro ⟨h | h, h2⟩
            · exact absurd h2 (ne_of_lt (lt_of_le_of_lt (i2 x h) hlt))
            · exact h
      · rw [if_neg hlt]
        by_cases heq : migr_score.getD st.max_pos 0 = migr_score.getD j 0
        · rw [if_pos heq]
          apply ih (done ++ [j]) _ hfresh2 hnd2
          refine ⟨(hmem _).2 (Or.inl i1), ?_, ?_, ?_⟩
          · intro k hk
            rcases (hmem k).1 hk with h | h
            · exact i2 k h
            · rw [h]
              exact le_of_eq heq.symm
          · intro x
            rw [List.mem_append, List.mem_singleton, i3 x, hmem x]
            constructor
            · rintro (h | h)
              · exact ⟨Or.inl h.1, h.2⟩
              · exact ⟨Or.inr h, by rw [h]; exact heq.symm⟩
            · rintro ⟨h | h, h2⟩
              · exact Or.inl ⟨h, h2⟩
              · exact Or.inr h
          · apply List.Nodup.append i4 (List.nodup_singleton j)
            intro x hx1 hx2
            rw [List.mem_singleton] at hx2
            subst hx2
            exact hjnot ((i3 x).1 hx1).1
        · rw [if_neg heq]
          apply ih (done ++ [j]) _ hfresh2 hnd2
          have hjlt : migr_score.getD j 0 < migr_score.getD st.max_pos 0 :=
            lt_of_le_of_ne (not_lt.1 hlt) (fun h => heq h.symm)
          refine ⟨(hmem _).2 (Or.inl i1), ?_, ?_, i4⟩
          · intro k hk
            rcases (hmem k).1 hk with h | h
            · exact i2 k h
            · rw [h]
              exact le_of_lt hjlt
          · intro x
            rw [i3 x, hmem x]
            constructor
            · exact fun h => ⟨Or.inl h.1, h.2⟩
            · rintro ⟨h | h, h2⟩
              · exact ⟨h, h2⟩
              · rw [h] at h2
                exact absurd h2 (ne_of_lt hjlt)

/-- Every index left in `min_indices` by the loop of `get_balanced_assignment` comes from
`max_indices` or was in `min_indices` before. -/
theorem balanced_loop_mem (shard_node_count : List Nat) (min_cap : Nat) (l : List Nat) :
    ∀ (min_indices : List Nat) (x : Nat),
      x ∈ balanced_loop shard_node_count min_cap l min_indices → x ∈ l ∨ x ∈ min_indices := by
  induction l with
  | nil => intro mi x hx; exact Or.inr hx
  | cons idx rest ih =>
    intro mi x hx
    unfold balanced_loop at hx
    split at hx
    · rcases ih _ x hx with h | h
      · exact Or.inl (List.mem_cons_of_mem _ h)
      · rw [List.mem_singleton] at h
        exact Or.inl (h ▸ List.mem_cons_self _ _)
    · split at hx
      · rcases ih _ x hx with h | h
        · exact Or.inl (List.mem_cons_of_mem _ h)
        · rcases List.mem_append.1 h with h | h
          · exact Or.inr h
          · rw [List.mem_singleton] at h
            exact Or.inl (h ▸ List.mem_cons_self _ _)
      · rcases ih _ x hx with h | h
        · exact Or.inl (List.mem_cons_of_mem _ h)
        · exact Or.inr h

/-- The index returned by `get_balanced_assignment` is one of `max_indices`. -/
theorem get_balanced_assignment_mem (shard_node_count max_indices : List Nat) (rand d : Nat)
    (h : get_balanced_assignment shard_node_count max_indices rand = Except.ok d) :
    d ∈ max_indices := by
  unfold get_balanced_assignment at h
  split at h
  · cases h
  · rename_i first tail
    split at h
    · cases h
    · rename_i hlen
      cases h
      have hpos : 0 < (balanced_loop shard_node_count (shard_node_count.getD first 0)
          (first :: tail) []).length := Nat.pos_of_ne_zero hlen
      have hlt := Nat.mod_lt rand hpos
      rw [List.getD_eq_getElem _ _ hlt]
      rcases balanced_loop_mem _ _ _ _ _ (List.getElem_mem hlt) with h1 | h1
      · exact h1
      · cases h1

/-- The loop of `get_balanced_assignment` never empties a non-empty `min_indices`. -/
theorem balanced_loop_ne_nil (shard_node_count : List Nat) (min_cap : Nat) (l : List Nat) :
    ∀ min_indices : List Nat, min_indices ≠ [] →
      balanced_loop shard_node_count min_cap l min_indices ≠ [] := by
  induction l with
  | nil => intro mi h; exact h
  | cons idx rest ih =>
    intro mi h
    unfold balanced_loop
    split
    · exact ih _ (List.cons_ne_nil _ _)
    · split
      · exact ih _ (by simp)
      · exact ih _ h

/-- On a non-empty `max_indices`, `get_balanced_assignment` returns an index: its first
element has the count `min_cap`, so `min_indices` is not empty. -/
theorem get_balanced_assignment_returns (shard_node_count max_indices : List Nat) (rand : Nat)
    (h : max_indices ≠ []) :
    ∃ d, get_balanced_assignment shard_node_count max_indices rand = Except.ok d := by
  cases max_indices with
  | nil => exact absurd rfl h
  | cons first tail =>
    have hne : balanced_loop shard_node_count (shard_node_count.getD first 0)
        (first :: tail) [] ≠ [] := by
      unfold balanced_loop
      simp only [lt_self_iff_false, if_false, if_true, List.nil_append]
      exact balanced_loop_ne_nil _ _ _ _ (List.cons_ne_nil _ _)
    have hlen : (balanced_loop shard_node_count (shard_node_count.getD first 0)
        (first :: tail) []).length ≠ 0 := fun e => hne (List.length_eq_zero.mp e)
    simp only [get_balanced_assignment, hlen, if_false]
    exact ⟨_, rfl⟩

/-- C12: in `migration_wrapper`, when this shard's index is below `NUM_SHARDS`, after the
arg-max loop `max_indices` contains exactly the shard indices `j` in `[0, NUM_SHARDS)`
whose `migr_score[j]` is the maximum of `migr_score` over all shards, each once; so the
index that `get_balanced_assignment` then returns, whatever the node counts and the value
of `rand()`, is a shard of maximal score. Scores are exact rationals. -/
theorem find_arg_max_exact (C : weaver_constants) (self : Nat) (n : node)
    (hself : self < C.NUM_SHARDS) :
    (∀ j, j ∈ (find_arg_max C self n).max_indices ↔
        j < C.NUM_SHARDS
          ∧ ∀ k, k < C.NUM_SHARDS → n.migr_score.getD k 0 ≤ n.migr_score.getD j 0)
    ∧ (find_arg_max C self n).max_indices.Nodup
    ∧ ∀ (shard_node_count : List Nat) (rand : Nat),
        ∃ d, get_balanced_assignment shard_node_count (find_arg_max C self n).max_indices rand
            = Except.ok d
          ∧ d < C.NUM_SHARDS
          ∧ ∀ k, k < C.NUM_SHARDS → n.migr_score.getD k 0 ≤ n.migr_score.getD d 0 := by
  obtain ⟨a1, a2, a3, a4⟩ := arg_max_loop_inv self n.migr_score (List.range C.NUM_SHARDS) []
    { max_pos := self, max_indices := [self], msg_count := n.msg_count }
    (fun _ _ h => by cases h) (List.nodup_range _)
    ⟨List.mem_cons_self _ _, by
      intro k hk
      rw [List.mem_singleton] at hk
      rw [hk], by
      intro j
      simp only [List.mem_singleton, List.mem_cons, List.not_mem_nil, or_false]
      constructor
      · intro h; exact ⟨h, by rw [h]⟩
      · intro h; exact h.1, List.nodup_singleton _⟩
  have hset : ∀ x, x ∈ self :: ([] ++ List.range C.NUM_SHARDS) ↔ x < C.NUM_SHARDS := by
    intro x
    simp only [List.nil_append, List.mem_cons, List.mem_range]
    constructor
    · rintro (h | h)
      · rw [h]; exact hself
      · exact h
    · exact fun h => Or.inr h
  have hexact : ∀ j, j ∈ (find_arg_max C self n).max_indices ↔
      j < C.NUM_SHARDS
        ∧ ∀ k, k < C.NUM_SHARDS → n.migr_score.getD k 0 ≤ n.migr_score.getD j 0 := by
    intro j
    unfold find_arg_max
    rw [a3 j, hset j]
    constructor
    · rintro ⟨h1, h2⟩
      refine ⟨h1, fun k hk => ?_⟩
      rw [h2]
      exact a2 k ((hset k).2 hk)
    · rintro ⟨h1, h2⟩
      refine ⟨h1, le_antisymm (a2 j ((hset j).2 h1)) ?_⟩
      exact h2 _ ((hset _).1 a1)
  refine ⟨hexact, a4, ?_⟩
  intro snc rand
  have hne : (find_arg_max C self n).max_indices ≠ [] := by
    intro e
    have hmem : (arg_max_loop self n.migr_score (List.range C.NUM_SHARDS)
        { max_pos := self, max_indices := [self], msg_count := n.msg_count }).max_pos
        ∈ (find_arg_max C self n).max_indices := (a3 _).2 ⟨a1, rfl⟩
    rw [e] at hmem
    cases hmem
  obtain ⟨d, hd⟩ := get_balanced_assignment_returns snc _ rand hne
  exact ⟨d, hd, (hexact d).1 (get_balanced_assignment_mem _ _ _ _ hd)⟩

/-- Witness for C12: shard index 0 of the two LDG shards and the node without out-edges. -/
theorem find_arg_max_exact_witness :
    0 < ldg_shards.NUM_SHARDS
      ∧ (find_arg_max ldg_shards 0 lone_candidate).max_indices.Nodup :=
  ⟨by decide, (find_arg_max_exact ldg_shards 0 lone_candidate (by decide)).2.1⟩

/-! ### Breaking ties between the best shards -/

/-- C13: for `shard_node_count = [5, 3, 4]` and `max_indices = [0, 1, 2]`, whatever value
`rand()` returns, `get_balanced_assignment` returns index 2, whose count 4 is not the
minimum: index 1 has count 3. The loop compares every count with the count of
`max_indices[0]` and never lowers that bound. -/
theorem get_balanced_assignment_not_least_loaded :
    (∀ rand : Nat, get_balanced_assignment [5, 3, 4] [0, 1, 2] rand = Except.ok 2)
    ∧ ([5, 3, 4] : List Nat).getD 1 0 < ([5, 3, 4] : List Nat).getD 2 0 := by
  refine ⟨?_, by decide⟩
  intro rand
  have hloop : balanced_loop [5, 3, 4] (([5, 3, 4] : List Nat).getD 0 0) [0, 1, 2] [] = [2] := by
    decide
  unfold get_balanced_assignment
  simp only [hloop, List.length_singleton, Nat.mod_one]
  rfl

/-- C14: on shard 2 of the shards 2 and 3, a candidate node without out-edges has the same
score 0 for both shards, yet `migration_wrapper` calls `migrate_node_step1` for it with
destination 3: the tie puts both shards into `max_indices` and
`get_balanced_assignment` picks shard 3, which holds fewer nodes. -/
theorem migration_wrapper_migrates_on_equal_scores :
    (scored_node ldg_shards lone_candidate_shard.shard_node_count lone_candidate).migr_score
      = [0, 0]
    ∧ actions_of (migration_wrapper ldg_shards first_rand lone_candidate_shard)
      = some [migr_action.migrate_node_step1 7 3, migr_action.update_node_mapping 7 3] := by
  have hscore : (scored_node ldg_shards lone_candidate_shard.shard_node_count
      lone_candidate).migr_score = [0, 0] := by
    simp [scored_node, score_node, ldg_shards, lone_candidate, ldg_scale, ldg_counts,
      List.range, List.range.loop]
  have harg : candidate_arg_max ldg_shards lone_candidate_shard
      lone_candidate_shard.shard_node_count lone_candidate
        = { max_pos := 0, max_indices := [0, 1], msg_count := [0, 0] } := by
    unfold candidate_arg_max find_arg_max
    rw [hscore]
    simp [arg_max_loop, shard_index, ldg_shards, lone_candidate_shard, List.range,
      List.range.loop, scored_node, score_node, lone_candidate]
  refine ⟨hscore, ?_⟩
  have hskip : skip_candidate first_rand lone_candidate_shard lone_candidate = false := by
    decide
  have hbal : get_balanced_assignment lone_candidate_shard.shard_node_count [0, 1]
      (first_rand.rand lone_candidate_shard.rand_calls) = Except.ok 1 := by
    rfl
  unfold migration_wrapper
  have hcands : lone_candidate_shard.sorted_nodes = [(7, 0)] := rfl
  rw [hcands]
  unfold migration_loop
  have hacq : acquire_node lone_candidate_shard 7 = some lone_candidate := rfl
  simp only [hacq, hskip, harg, hbal]
  rfl

/-- The position decided for a candidate leaves the shard id as it is. -/
theorem decided_shard_id {P NS : Type} (C : weaver_constants) (S : shard P NS)
    (shard_node_count : List Nat) (node_handle : Nat) (n : node) (migr_pos : Nat)
    (rest : List (Nat × Nat)) :
    (decided C S shard_node_count node_handle n migr_pos rest).shard_id = S.shard_id := rfl

/-- Whatever the candidates, `migration_wrapper` calls `migrate_node_step1` only with a
destination different from this shard. -/
theorem migration_loop_never_to_self {P NS : Type} (C : weaver_constants) (R : migr_env)
    (cands : List (Nat × Nat)) :
    ∀ (shard_node_count : List Nat) (S : shard P NS) (out : shard P NS × List migr_action),
      migration_loop C R shard_node_count cands S = Except.ok out →
      ∀ h d, migr_action.migrate_node_step1 h d ∈ out.2 → d ≠ S.shard_id := by
  induction cands with
  | nil =>
    intro snc S out hout h d hmem
    unfold migration_loop at hout
    cases hout
    simp [shard_daemon_end] at hmem
  | cons cand rest ih =>
    intro snc S out hout h d hmem
    unfold migration_loop at hout
    split at hout
    · exact ih _ _ out hout h d hmem
    · split at hout
      · exact ih _ _ out hout h d hmem
      · split at hout
        · cases hout
        · rename_i pos hpos
          split at hout
          · rename_i hne
            split at hout
            · cases hout
            · rename_i S2 actions hstep
              cases hout
              rcases List.mem_cons.1 hmem with heq | hin
              · cases heq
                exact hne
              · unfold migrate_node_step1 at hstep
                split at hstep
                · cases hstep
                · split at hstep
                  · have := ih _ _ (S2, actions) hstep h d hin
                    rwa [decided_shard_id] at this
                  · unfold freeze_node at hstep
                    split at hstep
                    · cases hstep
                    · cases hstep
                      simp at hin
          · have := ih _ _ out hout h d hmem
            rwa [decided_shard_id] at this

/-! ### Migration scores -/

/-- Reading a list after one position was overwritten. -/
theorem getD_set {α : Type} (l : List α) (i j : Nat) (a d : α) :
    (l.set i a).getD j d = if i = j ∧ i < l.length then a else l.getD j d := by
  simp only [List.getD_eq_getElem?_getD, List.getElem?_set]
  by_cases h : i = j
  · subst h
    by_cases h2 : i < l.length
    · simp [h2]
    · simp [h2, List.getElem?_eq_none (Nat.le_of_not_lt h2)]
  · simp [h]

/-- The CLDG loop over the shards keeps the length of the score vector. -/
theorem cldg_scores_length (C : weaver_constants) (snc mc : List Nat) (js : List Nat) :
    ∀ ms : List ℚ, (cldg_scores C snc mc js ms).length = ms.length := by
  induction js with
  | nil => intro ms; rfl
  | cons k rest ih => intro ms; simp [cldg_scores, ih]

/-- A character code fits 64 bits. -/
theorem char_toNat_lt (c : Char) : c.toNat < 2 ^ 64 := by
  have h := c.valid
  have : c.toNat < 1114112 := by
    rcases h with h | h
    · exact lt_trans h (by decide)
    · exact h.2
  omega

/-- The test `next_digit > 9` rejects exactly the characters that are not decimal digits,
and on a digit `next_digit` is its value. -/
theorem next_digit_spec (c : Char) :
    (is_digit c = true → next_digit c = c.toNat - 48 ∧ next_digit c ≤ 9)
    ∧ (is_digit c = false → 9 < next_digit c) := by
  have h := char_toNat_lt c
  unfold is_digit next_digit
  constructor
  · intro hd
    simp only [Bool.and_eq_true, decide_eq_true_eq] at hd
    omega
  · intro hd
    simp only [Bool.and_eq_false_iff, decide_eq_false_iff_not] at hd
    omega

/-- A whitespace character is not a decimal digit. -/
theorem is_space_not_digit (c : Char) (h : is_space c = true) : is_digit c = false := by
  unfold is_space at h
  simp only [Bool.or_eq_true, decide_eq_true_eq] at h
  rcases h with ((h | h) | h) | h <;> subst h <;> rfl

/-- The token at the end of the line is empty. -/
theorem token_at_end (line : List Char) (idx : Nat) (h : line.length ≤ idx) :
    token_at line idx = [] := by
  unfold token_at
  rw [List.drop_eq_nil_of_le h]
  rfl

/-- The token at a whitespace character is empty; at another character it starts with
that character. -/
theorem token_at_lt (l : List Char) (idx : Nat) (h : idx < l.length) :
    token_at l idx =
      if is_space (char_at l idx) then []
      else char_at l idx :: token_at l (idx + 1) := by
  unfold token_at char_at
  rw [List.drop_eq_getElem_cons h, List.getD_eq_getElem _ _ h]
  cases hs : is_space (l.get ⟨idx, h⟩)
  · simp only [List.get_eq_getElem] at hs
    simp only [List.takeWhile_cons, hs, Bool.not_false, if_true, Bool.false_eq_true, if_false]
  · simp only [List.get_eq_getElem] at hs
    simp only [List.takeWhile_cons, hs, Bool.not_true, if_true, Bool.false_eq_true, if_false]

/-- The empty token is well formed for every start value below `2 ^ 64`. -/
theorem empty_token_ok (n : Nat) (hn : n < 2 ^ 64) :
    (∀ c ∈ ([] : List Char), is_digit c = true) ∧ digits_value_from n [] ≤ 2 ^ 64 - 1 := by
  refine ⟨fun c hc => ?_, ?_⟩
  · cases hc
  · show n ≤ 2 ^ 64 - 1
    omega

/-- One iteration of the loop of `parse_single_uint64`. -/
theorem parse_loop_succ (C : weaver_constants) (l : List Char) (fuel : Nat)
    (st : parse_state) :
    parse_loop C l (fuel + 1) st =
      if !is_space (char_at l st.idx) && decide (st.idx < l.length) then
        if 9 < next_digit (char_at l st.idx) then { st with bad := true }
        else if C.MAX_UINT64 / 10 < st.n then { st with bad := true }
        else if (st.n * 10 % 2 ^ 64 + next_digit (char_at l st.idx)) % 2 ^ 64
            < st.n * 10 % 2 ^ 64 then
          { st with n := st.n * 10 % 2 ^ 64, bad := true }
        else
          parse_loop C l fuel
            { st with
              n := (st.n * 10 % 2 ^ 64 + next_digit (char_at l st.idx)) % 2 ^ 64,
              idx := st.idx + 1 }
      else st := rfl

/-- The value of a digit run is at least the value it continues from. -/
theorem le_digits_value_from (digits : List Char) :
    ∀ acc : Nat, acc ≤ digits_value_from acc digits := by
  induction digits with
  | nil => intro acc; exact le_refl _
  | cons c rest ih =>
    intro acc
    have h := ih (acc * 10 + (c.toNat - 48))
    simp only [digits_value_from, List.foldl_cons] at h ⊢
    omega

/-- The loop of `parse_single_uint64`, started inside the line with `n` below `2 ^ 64` and
enough iterations: on a well-formed rest of the token it leaves `bad`, stores the value and
stops behind the token; otherwise it sets `bad`. -/
theorem parse_loop_spec (C : weaver_constants) (hmax : C.MAX_UINT64 = 2 ^ 64 - 1)
    (line : List Char) :
    ∀ (fuel : Nat) (st : parse_state),
      st.idx ≤ line.length → line.length - st.idx ≤ fuel → st.n < 2 ^ 64 →
      (((∀ c ∈ token_at line st.idx, is_digit c = true)
          ∧ digits_value_from st.n (token_at line st.idx) ≤ 2 ^ 64 - 1) →
        parse_loop C line fuel st =
          { idx := st.idx + (token_at line st.idx).length,
            n := digits_value_from st.n (token_at line st.idx),
            bad := st.bad })
      ∧ (¬ ((∀ c ∈ token_at line st.idx, is_digit c = true)
          ∧ digits_value_from st.n (token_at line st.idx) ≤ 2 ^ 64 - 1) →
        (parse_loop C line fuel st).bad = true) := by
  intro fuel
  induction fuel with
  | zero =>
    intro st hidx hfuel hn
    have htok : token_at line st.idx = [] := token_at_end _ _ (by omega)
    rw [htok]
    constructor
    · intro _
      simp [parse_loop, digits_value_from]
    · intro h
      exact absurd (empty_token_ok _ hn) h
  | succ fuel ih =>
    intro st hidx hfuel hn
    by_cases hlt : st.idx < line.length
    · by_cases hs : is_space (char_at line st.idx) = true
      · have htok : token_at line st.idx = [] := by rw [token_at_lt _ _ hlt, if_pos hs]
        rw [htok]
        constructor
        · intro _
          rw [parse_loop_succ]
          simp [hs, digits_value_from]
        · intro h
          exact absurd (empty_token_ok _ hn) h
      · have htok : token_at line st.idx
            = char_at line st.idx :: token_at line (st.idx + 1) := by
          rw [token_at_lt _ _ hlt, if_neg hs]
        have hcond : (!is_space (char_at line st.idx) && decide (st.idx < line.length))
            = true := by simp [hs, hlt]
        have hval : digits_value_from st.n (token_at line st.idx)
            = digits_value_from (st.n * 10 + ((char_at line st.idx).toNat - 48))
                (token_at line (st.idx + 1)) := by
          rw [htok]; rfl
        have hmono := le_digits_value_from (token_at line (st.idx + 1))
          (st.n * 10 + ((char_at line st.idx).toNat - 48))
        rw [← hval] at hmono
        by_cases hd : is_digit (char_at line st.idx) = true
        · obtain ⟨hnd, hle⟩ := (next_digit_spec _).1 hd
          have h9 : ¬ 9 < next_digit (char_at line st.idx) := by omega
          by_cases hmul : C.MAX_UINT64 / 10 < st.n
          · have hbig : ¬ digits_value_from st.n (token_at line st.idx) ≤ 2 ^ 64 - 1 := by
              rw [hmax] at hmul
              omega
            constructor
            · intro h; exact absurd h.2 hbig
            · intro _
              rw [parse_loop_succ]
              simp only [hcond, h9, hmul, if_true, if_false]
          · have hn10 : st.n * 10 % 2 ^ 64 = st.n * 10 := by
              rw [hmax] at hmul
              exact Nat.mod_eq_of_lt (by omega)
            have hn10lt : st.n * 10 < 2 ^ 64 := by
              rw [hmax] at hmul
              omega
            by_cases hadd : (st.n * 10 % 2 ^ 64 + next_digit (char_at line st.idx)) % 2 ^ 64
                < st.n * 10 % 2 ^ 64
            · have hbig : ¬ digits_value_from st.n (token_at line st.idx) ≤ 2 ^ 64 - 1 := by
                rw [hn10] at hadd
                have : ¬ st.n * 10 + next_digit (char_at line st.idx) < 2 ^ 64 := by
                  intro hsmall
                  rw [Nat.mod_eq_of_lt hsmall] at hadd
                  omega
                omega
              constructor
              · intro h; exact absurd h.2 hbig
              · intro _
                rw [parse_loop_succ]
                simp only [hcond, h9, hmul, hadd, if_true, if_false]
            · have hsum : st.n * 10 + next_digit (char_at line st.idx) < 2 ^ 64 := by
                rw [hn10] at hadd
                by_contra hge
                have h1 : (st.n * 10 + next_digit (char_at line st.idx)) % 2 ^ 64
                    = st.n * 10 + next_digit (char_at line st.idx) - 2 ^ 64 := by
                  rw [Nat.mod_eq_sub_mod (by omega)]
                  exact Nat.mod_eq_of_lt (by omega)
                omega
              have hnew : (st.n * 10 % 2 ^ 64 + next_digit (char_at line st.idx)) % 2 ^ 64
                  = st.n * 10 + ((char_at line st.idx).toNat - 48) := by
                rw [hn10, Nat.mod_eq_of_lt hsum, hnd]
              have hstep : parse_loop C line (fuel + 1) st
                  = parse_loop C line fuel
                      { st with
                        n := st.n * 10 + ((char_at line st.idx).toNat - 48),
                        idx := st.idx + 1 } := by
                rw [← hnew, parse_loop_succ]
                simp only [hcond, h9, hmul, hadd, if_true, if_false]
              obtain ⟨ih1, ih2⟩ := ih
                { st with
                  n := st.n * 10 + ((char_at line st.idx).toNat - 48),
                  idx := st.idx + 1 }
                (show st.idx + 1 ≤ line.length from hlt)
                (show line.length - (st.idx + 1) ≤ fuel by omega)
                (show st.n * 10 + ((char_at line st.idx).toNat - 48) < 2 ^ 64 by
                  rw [← hnd]; exact hsum)
              simp only at ih1 ih2
              have hall : (∀ c ∈ token_at line st.idx, is_digit c = true)
                  ↔ ∀ c ∈ token_at line (st.idx + 1), is_digit c = true := by
                rw [htok]
                simp [hd]
              rw [hstep, hall, hval]
              constructor
              · intro h
                rw [ih1 h, htok, List.length_cons, Nat.add_assoc,
                  Nat.add_comm 1 (token_at line (st.idx + 1)).length]
              · intro h
                exact ih2 h
        · have hd2 : is_digit (char_at line st.idx) = false := by
            simpa using hd
          have h9 := (next_digit_spec _).2 hd2
          have hbad : ¬ (∀ c ∈ token_at line st.idx, is_digit c = true) := by
            intro hall
            exact hd (hall _ (by rw [htok]; exact List.mem_cons_self _ _))
          constructor
          · intro h; exact absurd h.1 hbad
          · intro _
            rw [parse_loop_succ]
            simp only [hcond, h9, if_true]
    · have htok : token_at line st.idx = [] := token_at_end _ _ (by omega)
      rw [htok]
      constructor
      · intro _
        rw [parse_loop_succ]
        simp [hlt, digits_value_from]
      · intro h
        exact absurd (empty_token_ok _ hn) h

/-- A run is well formed when it is made of digits and its value fits 64 bits. -/
theorem well_formed_iff (digits : List Char) :
    well_formed digits = true ↔
      (∀ c ∈ digits, is_digit c = true) ∧ digits_value_from 0 digits ≤ 2 ^ 64 - 1 := by
  unfold well_formed digits_value
  rw [Bool.and_eq_true, List.all_eq_true, decide_eq_true_eq]

/-- What `parse_single_uint64` does, in terms of the token at `idx`. -/
theorem parse_single_uint64_run (C : weaver_constants) (hmax : C.MAX_UINT64 = 2 ^ 64 - 1)
    (l : List Char) (idx : Nat) (bad : Bool) (hidx : idx ≤ l.length) :
    (well_formed (token_at l idx) = true →
      parse_single_uint64 C l idx bad =
        { idx := idx + (token_at l idx).length, n := digits_value (token_at l idx),
          bad := bad })
    ∧ (well_formed (token_at l idx) = false → (parse_single_uint64 C l idx bad).bad = true) := by
  obtain ⟨h1, h2⟩ := parse_loop_spec C hmax l (l.length - idx)
    { idx := idx, n := 0, bad := bad } hidx (le_refl _) (by show 0 < 2 ^ 64; omega)
  constructor
  · intro h
    exact h1 ((well_formed_iff _).1 h)
  · intro h
    refine h2 (fun hw => ?_)
    rw [(well_formed_iff _).2 hw] at h
    cases h

/-- The token stops inside the line, at a whitespace character or at the end. -/
theorem token_at_stop (l : List Char) :
    ∀ (k idx : Nat), l.length - idx ≤ k → idx ≤ l.length →
      idx + (token_at l idx).length ≤ l.length
        ∧ (idx + (token_at l idx).length < l.length →
            is_space (char_at l (idx + (token_at l idx).length)) = true) := by
  intro k
  induction k with
  | zero =>
    intro idx hk hidx
    rw [token_at_end l idx (by omega)]
    exact ⟨hidx, fun h => absurd h (by simp only [List.length_nil]; omega)⟩
  | succ k ih =>
    intro idx hk hidx
    by_cases hlt : idx < l.length
    · rw [token_at_lt l idx hlt]
      by_cases hs : is_space (char_at l idx) = true
      · rw [if_pos hs]
        exact ⟨hidx, fun _ => hs⟩
      · rw [if_neg hs, List.length_cons]
        obtain ⟨a, b⟩ := ih (idx + 1) (by omega) hlt
        rw [show idx + ((token_at l (idx + 1)).length + 1)
          = idx + 1 + (token_at l (idx + 1)).length by omega]
        exact ⟨a, b⟩
    · rw [token_at_end l idx (by omega)]
      exact ⟨hidx, fun h => absurd h (by simp only [List.length_nil]; omega)⟩

/-- The longest prefix satisfying a test is a prefix. -/
theorem take_length_takeWhile {α : Type} (p : α → Bool) (l : List α) :
    l.take (l.takeWhile p).length = l.takeWhile p := by
  induction l with
  | nil => rfl
  | cons x xs ih =>
    rw [List.takeWhile_cons]
    split
    · rw [List.length_cons, List.take_succ_cons, ih]
    · rfl

/-- C16: for every line and start index `idx <= |line|`, with `MAX_UINT64 = 2^64 - 1`:
if the characters from `idx` up to the first whitespace character (space, tab, CR, LF) or
the end of the line are not all decimal digits, or denote a value above `2^64 - 1`,
`parse_single_uint64` sets `bad` to true; otherwise it leaves `bad` unchanged, stores in
`n` the exact value of the digit run (0 for an empty run) and leaves `idx` behind the run,
which is the first whitespace character after the start or `|line|`. -/
theorem parse_single_uint64_spec (C : weaver_constants) (hmax : C.MAX_UINT64 = 2 ^ 64 - 1)
    (l : List Char) (idx : Nat) (bad : Bool) (hidx : idx ≤ l.length) :
    (well_formed (token_at l idx) = false → (parse_single_uint64 C l idx bad).bad = true)
    ∧ (well_formed (token_at l idx) = true →
        (parse_single_uint64 C l idx bad).bad = bad
          ∧ (parse_single_uint64 C l idx bad).n = digits_value (token_at l idx)
          ∧ (parse_single_uint64 C l idx bad).idx = idx + (token_at l idx).length)
    ∧ ((parse_single_uint64 C l idx bad).bad = true ↔
        bad = true ∨ well_formed (token_at l idx) = false)
    ∧ digits_value [] = 0
    ∧ (∀ c ∈ token_at l idx, is_space c = false)
    ∧ (l.drop idx).take (token_at l idx).length = token_at l idx
    ∧ idx + (token_at l idx).length ≤ l.length
    ∧ (idx + (token_at l idx).length < l.length →
        is_space (char_at l (idx + (token_at l idx).length)) = true) := by
  obtain ⟨h1, h2⟩ := parse_single_uint64_run C hmax l idx bad hidx
  obtain ⟨h3, h4⟩ := token_at_stop l (l.length - idx) idx (le_refl _) hidx
  refine ⟨h2, ?_, ?_, rfl, ?_, ?_, h3, h4⟩
  · intro h
    rw [h1 h]
    exact ⟨rfl, rfl, rfl⟩
  · cases hw : well_formed (token_at l idx)
    · simp [h2 hw]
    · rw [h1 hw]
      simp
  · intro c hc
    have := List.mem_takeWhile_imp hc
    simpa using this
  · exact take_length_takeWhile _ _

/-- Witness for C16: the line `12 345` parsed from index 0. -/
theorem parse_single_uint64_spec_witness :
    ldg_shards.MAX_UINT64 = 2 ^ 64 - 1 ∧ 0 ≤ snap_line.length
      ∧ (well_formed (token_at snap_line 0) = true →
          (parse_single_uint64 ldg_shards snap_line 0 false).bad = false
            ∧ (parse_single_uint64 ldg_shards snap_line 0 false).n
                = digits_value (token_at snap_line 0)
            ∧ (parse_single_uint64 ldg_shards snap_line 0 false).idx
                = 0 + (token_at snap_line 0).length) :=
  ⟨rfl, Nat.zero_le _,
    (parse_single_uint64_spec ldg_shards rfl snap_line 0 false (Nat.zero_le _)).2.1⟩

/-- The whitespace run at the end of the line is empty. -/
theorem spaces_at_end (l : List Char) (idx : Nat) (h : l.length ≤ idx) :
    spaces_at l idx = [] := by
  unfold spaces_at
  rw [List.drop_eq_nil_of_le h]
  rfl

/-- The whitespace run at a whitespace character starts with it; at another character it
is empty. -/
theorem spaces_at_lt (l : List Char) (idx : Nat) (h : idx < l.length) :
    spaces_at l idx =
      if is_space (char_at l idx) then char_at l idx :: spaces_at l (idx + 1) else [] := by
  unfold spaces_at char_at
  rw [List.drop_eq_getElem_cons h, List.getD_eq_getElem _ _ h]
  cases hs : is_space (l.get ⟨idx, h⟩)
  · simp only [List.get_eq_getElem] at hs
    simp only [List.takeWhile_cons, hs, Bool.false_eq_true, if_false]
  · simp only [List.get_eq_getElem] at hs
    simp only [List.takeWhile_cons, hs, if_true]

/-- The character read at the end of the line is the null character, not whitespace. -/
theorem is_space_char_at_end (l : List Char) (idx : Nat) (h : l.length ≤ idx) :
    is_space (char_at l idx) = false := by
  unfold char_at
  rw [List.getD_eq_default _ _ h]
  rfl

/-- The whitespace loop of `parse_two_uint64` stops behind the whitespace run. -/
theorem skip_spaces_spec (l : List Char) :
    ∀ (fuel i : Nat), l.length - i ≤ fuel → i ≤ l.length →
      skip_spaces l fuel i = i + (spaces_at l i).length := by
  intro fuel
  induction fuel with
  | zero =>
    intro i hf hi
    rw [spaces_at_end l i (by omega)]
    rfl
  | succ fuel ih =>
    intro i hf hi
    by_cases hlt : i < l.length
    · rw [spaces_at_lt l i hlt]
      cases hs : is_space (char_at l i)
      · simp only [skip_spaces, hs, Bool.false_eq_true, if_false, List.length_nil, Nat.add_zero]
      · simp only [skip_spaces, hs, if_true, List.length_cons]
        rw [ih (i + 1) (by omega) hlt]
        omega
    · rw [spaces_at_end l i (by omega)]
      simp only [skip_spaces, is_space_char_at_end l i (by omega), Bool.false_eq_true,
        if_false, List.length_nil, Nat.add_zero]

/-- The whitespace run stays inside the line. -/
theorem spaces_at_stop (l : List Char) (idx : Nat) (h : idx ≤ l.length) :
    idx + (spaces_at l idx).length ≤ l.length := by
  have h1 : (spaces_at l idx).length ≤ (l.drop idx).length := by
    unfold spaces_at
    rw [← take_length_takeWhile is_space (l.drop idx), List.length_take]
    exact Nat.min_le_right _ _
  rw [List.length_drop] at h1
  omega

/-- What `parse_two_uint64` does, in terms of the first token and of the token behind the
whitespace that follows it. -/
theorem parse_two_uint64_run (C : weaver_constants) (hmax : C.MAX_UINT64 = 2 ^ 64 - 1)
    (l : List Char) :
    ((well_formed (token_at l 0) = false
        ∨ (token_at l 0).length = l.length
        ∨ well_formed (token_at l (second_start l)) = false) →
      parse_two_uint64 C l = (0, 0))
    ∧ (well_formed (token_at l 0) = true → (token_at l 0).length ≠ l.length →
        well_formed (token_at l (second_start l)) = true →
        parse_two_uint64 C l
          = (digits_value (token_at l 0), digits_value (token_at l (second_start l)))) := by
  obtain ⟨a1, a2⟩ := parse_single_uint64_run C hmax l 0 false (Nat.zero_le _)
  have hstop := (token_at_stop l l.length 0 (by omega) (Nat.zero_le _)).1
  rw [Nat.zero_add] at hstop
  cases hw1 : well_formed (token_at l 0)
  · refine ⟨fun _ => ?_, fun h => by cases h⟩
    unfold parse_two_uint64
    rw [a2 hw1]
    rfl
  · have e1 := a1 hw1
    rw [Nat.zero_add] at e1
    have hskip : skip_spaces l (l.length - (token_at l 0).length) (token_at l 0).length
        = second_start l := skip_spaces_spec l _ _ (le_refl _) hstop
    have hsecond : second_start l ≤ l.length := spaces_at_stop l _ hstop
    obtain ⟨b1, b2⟩ := parse_single_uint64_run C hmax l (second_start l) false hsecond
    by_cases hend : (token_at l 0).length = l.length
    · refine ⟨fun _ => ?_, fun _ h => absurd hend h⟩
      unfold parse_two_uint64
      rw [e1]
      simp only [hend, decide_True, Bool.or_true, if_true]
    · cases hw2 : well_formed (token_at l (second_start l))
      · refine ⟨fun _ => ?_, fun _ _ h => by cases h⟩
        unfold parse_two_uint64
        rw [e1]
        simp only [hend, decide_False, Bool.or_false, Bool.false_eq_true, if_false, hskip,
          b2 hw2, if_true]
      · refine ⟨fun h => ?_, fun _ _ _ => ?_⟩
        · rcases h with h | h | h
          · cases h
          · exact absurd h hend
          · cases h
        · unfold parse_two_uint64
          rw [e1]
          simp only [hend, decide_False, Bool.or_false, Bool.false_eq_true, if_false, hskip,
            b1 hw2]

/-- The longest prefix satisfying a test of `a ++ b` is `a` when all of `a` passes the
test and the first element of `b`, if any, fails it. -/
theorem takeWhile_append_stop {α : Type} (p : α → Bool) (a b : List α)
    (ha : ∀ x ∈ a, p x = true) (hb : ∀ x, b.head? = some x → p x = false) :
    (a ++ b).takeWhile p = a := by
  induction a with
  | nil =>
    cases b with
    | nil => rfl
    | cons x xs =>
      rw [List.nil_append, List.takeWhile_cons, hb x rfl]
      rfl
  | cons y ys ih =>
    rw [List.cons_append, List.takeWhile_cons, ha y (List.mem_cons_self _ _), if_pos rfl,
      ih (fun x hx => ha x (List.mem_cons_of_mem _ hx))]

/-- The first element of a concatenation whose first part is not empty. -/
theorem head?_append_ne_nil {α : Type} (a b : List α) (h : a ≠ []) :
    (a ++ b).head? = a.head? := by
  cases a with
  | nil => exact absurd rfl h
  | cons x xs => rfl

/-- C17: with `MAX_UINT64 = 2^64 - 1`, for every line of the form `d1 w d2 t`, where `d1`
and `d2` are non-empty runs of decimal digits with values at most `2^64 - 1`, `w` is a
non-empty run of whitespace and `t` a possibly empty run of whitespace, `parse_two_uint64`
returns `n1 = value(d1)` and `n2 = value(d2)`; and for every line whose first token, or
whose token behind the whitespace after the first token, holds a character that is not a
digit or denotes a value above `2^64 - 1`, it returns `n1 = n2 = 0`. -/
theorem parse_two_uint64_spec (C : weaver_constants) (hmax : C.MAX_UINT64 = 2 ^ 64 - 1) :
    (∀ d1 w d2 t : List Char,
      d1 ≠ [] → d2 ≠ [] → well_formed d1 = true → well_formed d2 = true →
      w ≠ [] → (∀ c ∈ w, is_space c = true) → (∀ c ∈ t, is_space c = true) →
      parse_two_uint64 C (d1 ++ w ++ d2 ++ t) = (digits_value d1, digits_value d2))
    ∧ (∀ l : List Char,
        (well_formed (token_at l 0) = false
          ∨ well_formed (token_at l (second_start l)) = false) →
        parse_two_uint64 C l = (0, 0)) := by
  constructor
  · intro d1 w d2 t hd1 hd2 hw1 hw2 hw hws hts
    have hdig1 : ∀ c ∈ d1, (!is_space c) = true := by
      intro c hc
      cases hs : is_space c
      · rfl
      · have := ((well_formed_iff d1).1 hw1).1 c hc
        rw [is_space_not_digit c hs] at this
        cases this
    have hdig2 : ∀ c ∈ d2, (!is_space c) = true := by
      intro c hc
      cases hs : is_space c
      · rfl
      · have := ((well_formed_iff d2).1 hw2).1 c hc
        rw [is_space_not_digit c hs] at this
        cases this
    have htok1 : token_at (d1 ++ w ++ d2 ++ t) 0 = d1 := by
      unfold token_at
      rw [List.drop_zero, List.append_assoc, List.append_assoc]
      refine takeWhile_append_stop _ _ _ hdig1 (fun x hx => ?_)
      rw [head?_append_ne_nil _ _ hw] at hx
      rw [hws x (List.mem_of_mem_head? hx)]
      rfl
    have hsp : spaces_at (d1 ++ w ++ d2 ++ t) d1.length = w := by
      unfold spaces_at
      rw [List.append_assoc, List.append_assoc, List.drop_left, ← List.append_assoc]
      rw [List.append_assoc]
      refine takeWhile_append_stop _ _ _ hws (fun x hx => ?_)
      rw [head?_append_ne_nil _ _ hd2] at hx
      have := hdig2 x (List.mem_of_mem_head? hx)
      simpa using this
    have hstart : second_start (d1 ++ w ++ d2 ++ t) = (d1 ++ w).length := by
      unfold second_start
      rw [htok1, hsp, List.length_append]
    have htok2 : token_at (d1 ++ w ++ d2 ++ t) (second_start (d1 ++ w ++ d2 ++ t)) = d2 := by
      rw [hstart]
      unfold token_at
      rw [List.append_assoc (d1 ++ w), List.drop_left]
      refine takeWhile_append_stop _ _ _ hdig2 (fun x hx => ?_)
      rw [hts x (List.mem_of_mem_head? hx)]
      rfl
    have hrun := (parse_two_uint64_run C hmax (d1 ++ w ++ d2 ++ t)).2
    rw [htok1, htok2] at hrun
    refine hrun hw1 ?_ hw2
    simp only [List.length_append]
    have : 0 < w.length := List.length_pos.mpr hw
    omega
  · intro l h
    refine (parse_two_uint64_run C hmax l).1 ?_
    rcases h with h | h
    · exact Or.inl h
    · exact Or.inr (Or.inr h)

/-- Witness for C17: a line with an overflowing first integer is parsed to `(0, 0)`. -/
theorem parse_two_uint64_spec_witness :
    ldg_shards.MAX_UINT64 = 2 ^ 64 - 1
      ∧ parse_two_uint64 ldg_shards overflowing_line = (0, 0) :=
  ⟨rfl, (parse_two_uint64_spec ldg_shards rfl).2 overflowing_line (Or.inl (by decide))⟩

/-! ### Wire messages -/

/-- Reading the bytes of an integer back, continuing from `acc`. -/
theorem foldl_encode (w : Nat) :
    ∀ (acc v : Nat),
      (encode w v).foldl (fun a x => a * 256 + x) acc = acc * 256 ^ w + v % 256 ^ w := by
  induction w with
  | zero => intro acc v; simp [encode, Nat.mod_one]
  | succ w ih =>
    intro acc v
    rw [encode, List.foldl_cons, ih, Nat.mod_pow_succ, pow_succ]
    ring

/-- Decoding the `w` bytes of `v` gives `v` reduced to `w` bytes. -/
theorem decode_encode (w v : Nat) : decode (encode w v) = v % 256 ^ w := by
  unfold decode
  rw [foldl_encode, Nat.zero_mul, Nat.zero_add]

/-- An integer of width `w` takes `w` bytes. -/
theorem length_encode (w : Nat) : ∀ v : Nat, (encode w v).length = w := by
  induction w with
  | zero => intro v; rfl
  | succ w ih => intro v; rw [encode, List.length_cons, ih]

/-- Reading depends only on the bytes of the range read. -/
theorem read_at_congr (f g : Nat → Nat) :
    ∀ (w idx : Nat), (∀ k, idx ≤ k → k < idx + w → f k = g k) →
      read_at f idx w = read_at g idx w := by
  intro w
  induction w with
  | zero => intro idx _; rfl
  | succ w ih =>
    intro idx h
    rw [read_at, read_at, h idx (le_refl _) (by omega),
      ih (idx + 1) (fun k h1 h2 => h k (by omega) (by omega))]

/-- Reading where bytes were just stored gives these bytes. -/
theorem read_at_write_at (bs : List Nat) :
    ∀ (f : Nat → Nat) (idx : Nat), read_at (write_at f idx bs) idx bs.length = bs := by
  induction bs with
  | nil => intro f idx; rfl
  | cons x xs ih =>
    intro f idx
    rw [List.length_cons, read_at]
    have h0 : write_at f idx (x :: xs) idx = x := by
      simp [write_at]
    have h1 : read_at (write_at f idx (x :: xs)) (idx + 1) xs.length
        = read_at (write_at f (idx + 1) xs) (idx + 1) xs.length := by
      refine read_at_congr _ _ _ _ (fun k hk1 hk2 => ?_)
      have e : k - idx = (k - (idx + 1)) + 1 := by omega
      have c1 : idx ≤ k ∧ k < idx + (x :: xs).length := by
        rw [List.length_cons]; omega
      have c2 : idx + 1 ≤ k ∧ k < idx + 1 + xs.length := ⟨hk1, hk2⟩
      simp only [write_at, c1, c2, and_self, if_true]
      rw [e, List.getD_cons_succ]
    rw [h0, h1, ih]

/-- Unpacking depends only on the capacity and on the bytes of the range read. -/
theorem unpack_fields_congr (b b1 : buffer) (hcap : b.capacity = b1.capacity) :
    ∀ (ws : List Nat) (idx : Nat),
      (∀ k, idx ≤ k → k < idx + ws.sum → b.bytes k = b1.bytes k) →
      unpack_fields b idx ws = unpack_fields b1 idx ws := by
  intro ws
  induction ws with
  | nil => intro idx _; rfl
  | cons w rest ih =>
    intro idx h
    rw [List.sum_cons] at h
    rw [unpack_fields, unpack_fields, hcap,
      ih (idx + w) (fun k h1 h2 => h k (by omega) (by omega)),
      read_at_congr b.bytes b1.bytes w idx (fun k h1 h2 => h k h1 (by omega))]

/-- Unpacking several variables in one statement reads the first and then the others
behind it. -/
theorem unpack_fields_cons (b : buffer) (idx w v : Nat) (ws vs : List Nat)
    (h : unpack_fields b idx (w :: ws) = Except.ok (v :: vs)) :
    unpack_fields b idx [w] = Except.ok [v] ∧ unpack_fields b (idx + w) ws = Except.ok vs := by
  rw [unpack_fields] at h
  split at h
  · rename_i hc
    split at h
    · cases h
    · rename_i vals hv
      cases h
      refine ⟨?_, hv⟩
      simp [unpack_fields, hc]
  · cases h

/-- A packing statement that fits the capacity succeeds; it keeps the capacity and the
bytes before its offset, and unpacking variables of the same widths at the same offset
gives the packed values, each reduced to its width. -/
theorem pack_fields_spec (fields : List (Nat × Nat)) :
    ∀ (b : buffer) (idx : Nat), idx + (fields.map Prod.fst).sum ≤ b.capacity →
      ∃ b1, pack_fields b idx fields = Except.ok b1
        ∧ b1.capacity = b.capacity
        ∧ (∀ k, k < idx → b1.bytes k = b.bytes k)
        ∧ unpack_fields b1 idx (fields.map Prod.fst)
            = Except.ok (fields.map (fun f => f.2 % 256 ^ f.1)) := by
  induction fields with
  | nil => intro b idx _; exact ⟨b, rfl, rfl, fun _ _ => rfl, rfl⟩
  | cons f rest ih =>
    intro b idx h
    rw [List.map_cons, List.sum_cons] at h
    obtain ⟨b1, h1, h2, h3, h4⟩ := ih
      { b with bytes := write_at b.bytes idx (encode f.1 f.2) } (idx + f.1)
      (by show idx + f.1 + _ ≤ b.capacity; omega)
    have hfit : idx + f.1 ≤ b.capacity := by omega
    refine ⟨b1, ?_, h2, ?_, ?_⟩
    · rw [pack_fields, if_pos hfit, h1]
    · intro k hk
      rw [h3 k (by omega)]
      show write_at b.bytes idx (encode f.1 f.2) k = b.bytes k
      have : ¬ (idx ≤ k ∧ k < idx + (encode f.1 f.2).length) := by omega
      simp only [write_at, this, if_false]
    · have hread : read_at b1.bytes idx f.1 = encode f.1 f.2 := by
        rw [read_at_congr b1.bytes (write_at b.bytes idx (encode f.1 f.2)) f.1 idx
          (fun k _ hk => h3 k hk)]
        have := read_at_write_at (encode f.1 f.2) b.bytes idx
        rw [length_encode] at this
        exact this
      have hfit1 : idx + f.1 ≤ b1.capacity := by rw [h2]; exact hfit
      rw [List.map_cons, List.map_cons, unpack_fields, if_pos hfit1, h4, hread, decode_encode]

/-- An unpacking loop depends only on the capacity and on the bytes of the range it
reads. -/
theorem unpack_loop_congr {σ : Type} (ws : List Nat) (stride : Nat)
    (body : Nat → List Nat → σ → σ) (b b1 : buffer) (hcap : b.capacity = b1.capacity)
    (hws : ws.sum ≤ stride) :
    ∀ (is : List Nat) (idx : Nat) (s : σ),
      idx + stride * is.length < 2 ^ 32 →
      (∀ k, idx ≤ k → k < idx + stride * is.length → b.bytes k = b1.bytes k) →
      unpack_loop ws stride body b is idx s = unpack_loop ws stride body b1 is idx s := by
  intro is
  induction is with
  | nil => intro idx s _ _; rfl
  | cons i rest ih =>
    intro idx s hlt h
    rw [List.length_cons, Nat.mul_succ] at hlt h
    have hnext : next_index idx stride = idx + stride :=
      Nat.mod_eq_of_lt (by omega)
    rw [unpack_loop, unpack_loop,
      unpack_fields_congr b b1 hcap ws idx (fun k h1 h2 => h k h1 (by omega))]
    cases unpack_fields b1 idx ws with
    | error err => rfl
    | ok vals =>
      simp only
      rw [hnext]
      exact ih (idx + stride) _ (by omega) (fun k h1 h2 => h k (by omega) (by omega))

/-- A packing loop whose rows all have the widths `ws`, with `stride` bytes per row, that
fits the capacity and the 32-bit index, succeeds and leaves the index behind the last row;
it keeps the capacity and the bytes before its start, and the unpacking loop over the same
range reads back the values of every row. -/
theorem pack_loop_spec {σ : Type} (row : Nat → Option (List (Nat × Nat))) (ws : List Nat)
    (stride : Nat) (body : Nat → List Nat → σ → σ) (hws : ws.sum = stride) :
    ∀ (is : List Nat) (b : buffer) (idx : Nat),
      (∀ i ∈ is, ∃ fields, row i = some fields ∧ fields.map Prod.fst = ws) →
      idx + stride * is.length ≤ b.capacity →
      idx + stride * is.length < 2 ^ 32 →
      ∃ b1, pack_loop row stride is b idx = Except.ok (b1, idx + stride * is.length)
        ∧ b1.capacity = b.capacity
        ∧ (∀ k, k < idx → b1.bytes k = b.bytes k)
        ∧ ∀ s : σ, unpack_loop ws stride body b1 is idx s
            = Except.ok (is.foldl (fun st i => body i (row_values row i) st) s,
                idx + stride * is.length) := by
  intro is
  induction is with
  | nil =>
    intro b idx _ _ _
    exact ⟨b, rfl, rfl, fun _ _ => rfl, fun _ => rfl⟩
  | cons i rest ih =>
    intro b idx hrow hcap hlt
    rw [List.length_cons, Nat.mul_succ] at hcap hlt
    obtain ⟨fields, hf, hw⟩ := hrow i (List.mem_cons_self _ _)
    obtain ⟨b1, p1, p2, p3, p4⟩ := pack_fields_spec fields b idx
      (by rw [hw, hws]; omega)
    obtain ⟨b2, q1, q2, q3, q4⟩ := ih b1 (idx + stride)
      (fun j hj => hrow j (List.mem_cons_of_mem _ hj)) (by rw [p2]; omega) (by omega)
    have hnext : next_index idx stride = idx + stride :=
      Nat.mod_eq_of_lt (by omega)
    have hidx : idx + stride + stride * rest.length
        = idx + (stride * rest.length + stride) := by omega
    refine ⟨b2, ?_, by rw [q2, p2], fun k hk => by rw [q3 k (by omega), p3 k hk], ?_⟩
    · rw [List.length_cons, Nat.mul_succ, pack_loop, hf]
      simp only [p1, hnext, q1, hidx]
    · intro s
      have hread : unpack_fields b2 idx ws
          = Except.ok (row_values row i) := by
        rw [unpack_fields_congr b2 b1 q2 ws idx (fun k _ hk => q3 k (by omega)), ← hw, p4]
        simp only [row_values, hf, Option.getD_some]
      rw [List.length_cons, Nat.mul_succ, unpack_loop, hread]
      simp only [hnext, q4, List.foldl_cons, hidx]

/-- Two lists of the same length with the same entries are equal. -/
theorem ext_getD (l1 l2 : List Nat) (hlen : l1.length = l2.length)
    (h : ∀ j, l1.getD j 0 = l2.getD j 0) : l1 = l2 := by
  refine List.ext_getElem hlen (fun j h1 h2 => ?_)
  have := h j
  rw [List.getD_eq_getElem _ _ h1, List.getD_eq_getElem _ _ h2] at this
  exact this

/-- A loop that stores `g i` at every index `i` of a range keeps the length of the vector
and changes exactly the entries of the range. -/
theorem foldl_set_range (g : Nat → Nat) :
    ∀ (n s : Nat) (vec : List Nat),
      ((List.range' s n).foldl (fun vc i => vc.set i (g i)) vec).length = vec.length
        ∧ ∀ j, ((List.range' s n).foldl (fun vc i => vc.set i (g i)) vec).getD j 0
            = if s ≤ j ∧ j < s + n ∧ j < vec.length then g j else vec.getD j 0 := by
  intro n
  induction n with
  | zero =>
    intro s vec
    refine ⟨rfl, fun j => ?_⟩
    have : ¬ (s ≤ j ∧ j < s + 0 ∧ j < vec.length) := by omega
    simp only [List.range'_zero, List.foldl_nil, this, if_false]
  | succ n ih =>
    intro s vec
    obtain ⟨a, b⟩ := ih (s + 1) (vec.set s (g s))
    rw [List.range'_succ, List.foldl_cons]
    refine ⟨by rw [a, List.length_set], fun j => ?_⟩
    rw [b j, List.length_set, getD_set]
    by_cases h1 : s + 1 ≤ j ∧ j < s + 1 + n ∧ j < vec.length
    · have h2 : s ≤ j ∧ j < s + (n + 1) ∧ j < vec.length := by omega
      rw [if_pos h1, if_pos h2]
    · rw [if_neg h1]
      by_cases h3 : s = j ∧ s < vec.length
      · have h2 : s ≤ j ∧ j < s + (n + 1) ∧ j < vec.length := by omega
        rw [if_pos h3, if_pos h2, h3.1]
      · have h2 : ¬ (s ≤ j ∧ j < s + (n + 1) ∧ j < vec.length) := by omega
        rw [if_neg h3, if_neg h2]

/-- A loop that appends `g i` for every index `i` of a range appends the values of `g` on
the range. -/
theorem foldl_push_range (g : Nat → Nat) :
    ∀ (n s : Nat) (acc : List Nat),
      (List.range' s n).foldl (fun st i => st ++ [g i]) acc
        = acc ++ (List.range' s n).map g := by
  intro n
  induction n with
  | zero => intro s acc; simp
  | succ n ih =>
    intro s acc
    rw [List.range'_succ, List.foldl_cons, ih, List.map_cons, List.append_assoc]
    rfl

/-- A loop that appends `g i` and `h i` to two vectors for every index `i` of a range. -/
theorem foldl_push_pair_range (g h : Nat → Nat) :
    ∀ (n s : Nat) (acc : List Nat × List Nat),
      (List.range' s n).foldl (fun st i => (st.1 ++ [g i], st.2 ++ [h i])) acc
        = (acc.1 ++ (List.range' s n).map g, acc.2 ++ (List.range' s n).map h) := by
  intro n
  induction n with
  | zero => intro s acc; simp
  | succ n ih =>
    intro s acc
    rw [List.range'_succ, List.foldl_cons, ih, List.map_cons, List.map_cons,
      List.append_assoc, List.append_assoc]
    rfl

/-- A function that agrees with a list on its index range maps the range to the list. -/
theorem map_range_eq (g : Nat → Nat) (v : List Nat)
    (h : ∀ i, i < v.length → g i = v.getD i 0) : (List.range v.length).map g = v := by
  refine List.ext_getElem (by simp) (fun j h1 h2 => ?_)
  rw [List.getElem_map, List.getElem_range, h j h2, List.getD_eq_getElem _ _ h2]

/-- The value read back for element `i` of a packed vector of 64-bit values. -/
theorem row_of_value (v : List Nat) (hv : ∀ x ∈ v, x < 2 ^ 64) (i : Nat) (hi : i < v.length) :
    (row_values (row_of v) i).getD 0 0 = v.getD i 0 := by
  have hx : v[i] < 2 ^ 64 := hv _ (List.getElem_mem hi)
  simp only [row_values, row_of, List.getElem?_eq_getElem hi, Option.getD_some,
    List.map_cons, List.map_nil, List.getD_cons_zero, List.getD_eq_getElem _ _ hi]
  exact Nat.mod_eq_of_lt (by omega)

/-- The values read back for row `i` of the packed deletion pairs. -/
theorem del_row_value (dn dt : List Nat) (hn : ∀ x ∈ dn, x < 2 ^ 64)
    (ht : ∀ x ∈ dt, x < 2 ^ 64) (hlen : dn.length = dt.length) (i : Nat) (hi : i < dn.length) :
    (row_values (del_row dn dt) i).getD 0 0 = dn.getD i 0
      ∧ (row_values (del_row dn dt) i).getD 1 0 = dt.getD i 0 := by
  have hi2 : i < dt.length := by omega
  have hx : dn[i] < 2 ^ 64 := hn _ (List.getElem_mem hi)
  have hy : dt[i] < 2 ^ 64 := ht _ (List.getElem_mem hi2)
  simp only [row_values, del_row, List.getElem?_eq_getElem hi, List.getElem?_eq_getElem hi2,
    Option.getD_some, List.map_cons, List.map_nil, List.getD_cons_zero, List.getD_cons_succ,
    List.getD_eq_getElem _ _ hi, List.getD_eq_getElem _ _ hi2]
  exact ⟨Nat.mod_eq_of_lt (by omega), Nat.mod_eq_of_lt (by omega)⟩

/-- The statement `index += k` without wrap-around. -/
theorem next_index_eq (index k : Nat) (h : index + k < 2 ^ 32) :
    next_index index k = index + k :=
  Nat.mod_eq_of_lt h

/-- Unpacking the message built by `prep_node_create` returns the creation time. -/
theorem unpack_prep_node_create (C : weaver_constants) (creat_time : Nat)
    (hsize : C.BUSYBEE_HEADER_SIZE + 4 + 8 < 2 ^ 32) (ht : creat_time < 2 ^ 64) :
    ∃ m, prep_node_create C creat_time = Except.ok m
      ∧ m.type = msg_type.NODE_CREATE_REQ
      ∧ unpack_node_create C m = Except.ok (m, creat_time) := by
  obtain ⟨b, p1, p2, _, p4⟩ := pack_fields_spec
    [(4, msg_type.NODE_CREATE_REQ.code), (8, creat_time)]
    (buffer.create (C.BUSYBEE_HEADER_SIZE + 4 + 8)) C.BUSYBEE_HEADER_SIZE
    (by simp only [buffer.create, List.map_cons, List.map_nil, List.sum_cons, List.sum_nil]
        omega)
  have hv : ([(4, msg_type.NODE_CREATE_REQ.code), (8, creat_time)] : List (Nat × Nat)).map
      (fun f => f.2 % 256 ^ f.1) = [msg_type.NODE_CREATE_REQ.code, creat_time] := by
    simp only [List.map_cons, List.map_nil, msg_type.code]
    rw [Nat.mod_eq_of_lt (show creat_time < 256 ^ 8 by omega)]
    rfl
  rw [hv] at p4
  simp only [List.map_cons, List.map_nil] at p4
  obtain ⟨u1, u2⟩ := unpack_fields_cons _ _ _ _ _ _ p4
  have hn : next_index C.BUSYBEE_HEADER_SIZE 4 = C.BUSYBEE_HEADER_SIZE + 4 :=
    next_index_eq _ _ (by omega)
  refine ⟨{ type := msg_type.NODE_CREATE_REQ, buf := some b }, ?_, rfl, ?_⟩
  · simp only [prep_node_create, p1]
  · simp only [unpack_node_create, u1, if_true, hn, u2]

/-- Unpacking the message built by `prep_create_ack` returns the address and the type that
was packed. -/
theorem unpack_prep_create_ack (C : weaver_constants) (mem_addr : Nat) (node : Bool)
    (hsize : C.BUSYBEE_HEADER_SIZE + 4 + 8 < 2 ^ 32) (ha : mem_addr < 2 ^ 64) :
    ∃ m, prep_create_ack C mem_addr node = Except.ok m
      ∧ m.type = (if node then msg_type.NODE_CREATE_ACK else msg_type.EDGE_CREATE_ACK)
      ∧ unpack_create_ack C m = Except.ok (m, mem_addr) := by
  obtain ⟨b, p1, p2, _, p4⟩ := pack_fields_spec
    [(4, (if node then msg_type.NODE_CREATE_ACK else msg_type.EDGE_CREATE_ACK).code),
     (8, mem_addr)]
    (buffer.create (C.BUSYBEE_HEADER_SIZE + 4 + 8)) C.BUSYBEE_HEADER_SIZE
    (by simp only [buffer.create, List.map_cons, List.map_nil, List.sum_cons, List.sum_nil]
        omega)
  have hv : ([(4, (if node then msg_type.NODE_CREATE_ACK
        else msg_type.EDGE_CREATE_ACK).code), (8, mem_addr)] : List (Nat × Nat)).map
      (fun f => f.2 % 256 ^ f.1)
      = [(if node then msg_type.NODE_CREATE_ACK else msg_type.EDGE_CREATE_ACK).code,
          mem_addr] := by
    simp only [List.map_cons, List.map_nil]
    rw [Nat.mod_eq_of_lt (show mem_addr < 256 ^ 8 by omega)]
    cases node <;> rfl
  rw [hv] at p4
  simp only [List.map_cons, List.map_nil] at p4
  obtain ⟨u1, u2⟩ := unpack_fields_cons _ _ _ _ _ _ p4
  have hn : next_index C.BUSYBEE_HEADER_SIZE 4 = C.BUSYBEE_HEADER_SIZE + 4 :=
    next_index_eq _ _ (by omega)
  refine ⟨{ type := if node then msg_type.NODE_CREATE_ACK else msg_type.EDGE_CREATE_ACK,
            buf := some b }, ?_, rfl, ?_⟩
  · simp only [prep_create_ack, p1]
  · cases node
    · simp [unpack_create_ack, u1, hn, u2, msg_type.code]
    · simp only [unpack_create_ack, u1, hn, u2, if_true]

/-- Unpacking the message built by `prep_node_delete` returns the node handle and the
deletion time. -/
theorem unpack_prep_node_delete (C : weaver_constants) (node_handle del_time : Nat)
    (hsize : C.BUSYBEE_HEADER_SIZE + 4 + 8 + 8 < 2 ^ 32) (hn : node_handle < 2 ^ 64)
    (ht : del_time < 2 ^ 64) :
    ∃ m, prep_node_delete C node_handle del_time = Except.ok m
      ∧ m.type = msg_type.NODE_DELETE_REQ
      ∧ unpack_node_delete C m = Except.ok (node_handle, del_time) := by
  obtain ⟨b, p1, p2, _, p4⟩ := pack_fields_spec
    [(4, msg_type.NODE_DELETE_REQ.code), (8, node_handle), (8, del_time)]
    (buffer.create (C.BUSYBEE_HEADER_SIZE + 4 + 8 + 8)) C.BUSYBEE_HEADER_SIZE
    (by simp only [buffer.create, List.map_cons, List.map_nil, List.sum_cons, List.sum_nil]
        omega)
  have hv : ([(4, msg_type.NODE_DELETE_REQ.code), (8, node_handle), (8, del_time)] :
        List (Nat × Nat)).map (fun f => f.2 % 256 ^ f.1)
      = [msg_type.NODE_DELETE_REQ.code, node_handle, del_time] := by
    simp only [List.map_cons, List.map_nil, msg_type.code]
    rw [Nat.mod_eq_of_lt (show node_handle < 256 ^ 8 by omega),
      Nat.mod_eq_of_lt (show del_time < 256 ^ 8 by omega)]
    rfl
  rw [hv] at p4
  simp only [List.map_cons, List.map_nil] at p4
  obtain ⟨u1, u2⟩ := unpack_fields_cons _ _ _ _ _ _ p4
  have hn : next_index C.BUSYBEE_HEADER_SIZE 4 = C.BUSYBEE_HEADER_SIZE + 4 :=
    next_index_eq _ _ (by omega)
  refine ⟨{ type := msg_type.NODE_DELETE_REQ, buf := some b }, ?_, rfl, ?_⟩
  · simp only [prep_node_delete, p1]
  · simp only [unpack_node_delete, u1, if_true, hn, u2]

/-- Unpacking, into empty vectors, the message built by `prep_reachable_rep` from two lists
of equal length returns the packed values. -/
theorem unpack_prep_reachable_rep (C : weaver_constants) (req_counter : Nat)
    (is_reachable : Bool) (src_node : Nat) (src_loc : location) (del_nodes del_times : List Nat)
    (hlen : del_nodes.length = del_times.length)
    (hsize : C.BUSYBEE_HEADER_SIZE + 34 + 16 * del_nodes.length < 2 ^ 32)
    (hreq : req_counter < 2 ^ 32) (hsrc : src_node < 2 ^ 64) (haddr : src_loc.addr < 2 ^ 32)
    (hport : src_loc.port < 2 ^ 16) (hn : ∀ x ∈ del_nodes, x < 2 ^ 64)
    (ht : ∀ x ∈ del_times, x < 2 ^ 64) :
    ∃ m, prep_reachable_rep C req_counter is_reachable src_node src_loc del_nodes del_times
          = Except.ok m
      ∧ m.type = msg_type.REACHABLE_REPLY
      ∧ unpack_reachable_rep C m [] []
          = Except.ok (m,
              { req_counter := req_counter,
                is_reachable := is_reachable,
                src_node := src_node,
                num_del_nodes := del_nodes.length,
                del_nodes := del_nodes,
                del_times := del_times,
                src_loc := src_loc }) := by
  obtain ⟨b1, p1, p2, _, p4⟩ := pack_fields_spec
    [(4, msg_type.REACHABLE_REPLY.code), (8, del_nodes.length)]
    (buffer.create (C.BUSYBEE_HEADER_SIZE + 4 + 4 + 4 + 8 + 2 + 4 + 8 + del_nodes.length * 8
      + del_times.length * 8)) C.BUSYBEE_HEADER_SIZE
    (by simp only [buffer.create, List.map_cons, List.map_nil, List.sum_cons, List.sum_nil]
        omega)
  have hcap1 : b1.capacity = C.BUSYBEE_HEADER_SIZE + 34 + 16 * del_nodes.length := by
    rw [p2]
    simp only [buffer.create]
    omega
  have hi1 : next_index C.BUSYBEE_HEADER_SIZE (4 + 8) = C.BUSYBEE_HEADER_SIZE + 12 :=
    next_index_eq _ _ (by omega)
  obtain ⟨b2, q1, q2, q3, q4⟩ := pack_loop_spec (del_row del_nodes del_times) [8, 8] (8 + 8)
    (fun _ vals (s : List Nat × List Nat) => (s.1 ++ [vals.getD 0 0], s.2 ++ [vals.getD 1 0]))
    rfl (List.range del_nodes.length) b1 (C.BUSYBEE_HEADER_SIZE + 12)
    (by
      intro i hi
      have hi1 : i < del_nodes.length := List.mem_range.mp hi
      have hi2 : i < del_times.length := by omega
      refine ⟨[(8, del_nodes[i]), (8, del_times[i])], ?_, rfl⟩
      simp only [del_row, List.getElem?_eq_getElem hi1, List.getElem?_eq_getElem hi2])
    (by rw [hcap1, List.length_range]; omega)
    (by rw [List.length_range]; omega)
  rw [List.length_range] at q1 q4
  obtain ⟨b3, r1, r2, r3, r4⟩ := pack_fields_spec
    [(4, req_counter), (4, if is_reachable then 1 else 0), (8, src_node),
     (4, src_loc.addr), (2, src_loc.port)]
    b2 (C.BUSYBEE_HEADER_SIZE + 12 + (8 + 8) * del_nodes.length)
    (by simp only [q2, hcap1, List.map_cons, List.map_nil, List.sum_cons, List.sum_nil]
        omega)
  have hv1 : ([(4, msg_type.REACHABLE_REPLY.code), (8, del_nodes.length)] :
        List (Nat × Nat)).map (fun f => f.2 % 256 ^ f.1)
      = [msg_type.REACHABLE_REPLY.code, del_nodes.length] := by
    simp only [List.map_cons, List.map_nil, msg_type.code]
    rw [Nat.mod_eq_of_lt (show del_nodes.length < 256 ^ 8 by omega)]
    rfl
  rw [hv1] at p4
  simp only [List.map_cons, List.map_nil] at p4
  obtain ⟨u1, u2⟩ := unpack_fields_cons _ _ _ _ _ _ p4
  have hv3 : ([(4, req_counter), (4, if is_reachable then 1 else 0), (8, src_node),
        (4, src_loc.addr), (2, src_loc.port)] : List (Nat × Nat)).map
        (fun f => f.2 % 256 ^ f.1)
      = [req_counter, if is_reachable then 1 else 0, src_node, src_loc.addr,
          src_loc.port] := by
    simp only [List.map_cons, List.map_nil]
    rw [Nat.mod_eq_of_lt (show req_counter < 256 ^ 4 by omega),
      Nat.mod_eq_of_lt (show src_node < 256 ^ 8 by omega),
      Nat.mod_eq_of_lt (show src_loc.addr < 256 ^ 4 by omega),
      Nat.mod_eq_of_lt (show src_loc.port < 256 ^ 2 by omega)]
    cases is_reachable <;> rfl
  rw [hv3] at r4
  simp only [List.map_cons, List.map_nil] at r4
  have hcap31 : b3.capacity = b1.capacity := by rw [r2, q2]
  have w1 : unpack_fields b3 C.BUSYBEE_HEADER_SIZE [4]
      = Except.ok [msg_type.REACHABLE_REPLY.code] := by
    rw [unpack_fields_congr b3 b1 hcap31 [4] _
      (fun k _ hk => by
        simp only [List.sum_cons, List.sum_nil] at hk
        rw [r3 k (by omega), q3 k (by omega)])]
    exact u1
  have w2 : unpack_fields b3 (C.BUSYBEE_HEADER_SIZE + 4) [8]
      = Except.ok [del_nodes.length] := by
    rw [unpack_fields_congr b3 b1 hcap31 [8] _
      (fun k _ hk => by
        simp only [List.sum_cons, List.sum_nil] at hk
        rw [r3 k (by omega), q3 k (by omega)])]
    exact u2
  have w3 := q4 ([], [])
  rw [← unpack_loop_congr [8, 8] (8 + 8) _ b3 b2 r2 (le_refl _) (List.range del_nodes.length)
    (C.BUSYBEE_HEADER_SIZE + 12) ([], [])
    (by rw [List.length_range]; omega)
    (fun k _ hk => by
      rw [List.length_range] at hk
      exact r3 k hk)] at w3
  have hfold : (List.range del_nodes.length).foldl
      (fun (st : List Nat × List Nat) i =>
        (st.1 ++ [(row_values (del_row del_nodes del_times) i).getD 0 0],
         st.2 ++ [(row_values (del_row del_nodes del_times) i).getD 1 0])) ([], [])
      = (del_nodes, del_times) := by
    rw [List.range_eq_range', foldl_push_pair_range, ← List.range_eq_range', List.nil_append,
      List.nil_append,
      map_range_eq _ del_nodes (fun i hi => (del_row_value _ _ hn ht hlen i hi).1)]
    have e : (List.range del_nodes.length).map
        (fun i => (row_values (del_row del_nodes del_times) i).getD 1 0) = del_times := by
      rw [hlen]
      exact map_range_eq _ del_times
        (fun i hi => (del_row_value _ _ hn ht hlen i (by omega)).2)
    rw [e]
  rw [hfold] at w3
  have hi2 : next_index C.BUSYBEE_HEADER_SIZE 4 = C.BUSYBEE_HEADER_SIZE + 4 :=
    next_index_eq _ _ (by omega)
  have hi3 : next_index (C.BUSYBEE_HEADER_SIZE + 4) 8 = C.BUSYBEE_HEADER_SIZE + 12 :=
    next_index_eq _ _ (by omega)
  refine ⟨{ type := msg_type.REACHABLE_REPLY, buf := some b3 }, ?_, rfl, ?_⟩
  · simp only [prep_reachable_rep, p1, hi1, q1, r1]
  · simp only [unpack_reachable_rep, w1, if_true, hi2, w2, hi3, w3, r4]
    cases is_reachable <;> rfl

/-- The loop of `unpack_reachable_prop` that fills the vector clock reads back a packed
clock of `n` entries. -/
theorem foldl_set_clock (v : List Nat) (hv : ∀ x ∈ v, x < 2 ^ 64) :
    (List.range v.length).foldl
        (fun (vc : List Nat) i => vc.set i ((row_values (row_of v) i).getD 0 0))
        (List.replicate v.length 0)
      = v := by
  obtain ⟨a, b⟩ := foldl_set_range (fun i => (row_values (row_of v) i).getD 0 0) v.length 0
    (List.replicate v.length 0)
  rw [List.range_eq_range']
  refine ext_getD _ _ (by rw [a, List.length_replicate]) (fun j => ?_)
  rw [b j, List.length_replicate]
  by_cases hj : j < v.length
  · rw [if_pos ⟨Nat.zero_le _, by omega, hj⟩]
    exact row_of_value v hv j hj
  · rw [if_neg (by omega), List.getD_eq_default _ _ (by rw [List.length_replicate]; omega),
      List.getD_eq_default _ _ (by omega)]

/-- The loop of `unpack_reachable_prop` that collects the source nodes reads back the
packed nodes. -/
theorem foldl_push_nodes (v : List Nat) (hv : ∀ x ∈ v, x < 2 ^ 64) :
    (List.range v.length).foldl
        (fun (src : List Nat) i => src ++ [(row_values (row_of v) i).getD 0 0]) []
      = v := by
  rw [List.range_eq_range', foldl_push_range, ← List.range_eq_range', List.nil_append]
  exact map_range_eq _ v (fun i hi => row_of_value v hv i hi)

/-- Every index of the range has a row of one 64-bit value. -/
theorem row_of_range (v : List Nat) (n : Nat) (hn : n ≤ v.length) :
    ∀ i ∈ List.range n, ∃ fields, row_of v i = some fields ∧ fields.map Prod.fst = [8] := by
  intro i hi
  have hi1 : i < v.length := lt_of_lt_of_le (List.mem_range.mp hi) hn
  refine ⟨[(8, v[i])], ?_, rfl⟩
  simp only [row_of, List.getElem?_eq_getElem hi1]

/-- Unpacking the message built by `prep_reachable_prop` from a vector clock of
`NUM_SHARDS` entries returns the packed values. -/
theorem unpack_prep_reachable_prop (C : weaver_constants) (src_nodes : List Nat)
    (src_loc : location) (dest_node : Nat) (dest_loc : location)
    (req_counter prev_req_counter : Nat) (vector_clock : List Nat)
    (hclk : vector_clock.length = C.NUM_SHARDS)
    (hsize : C.BUSYBEE_HEADER_SIZE + 40 + 8 * src_nodes.length + 8 * C.NUM_SHARDS < 2 ^ 32)
    (hsrc : ∀ x ∈ src_nodes, x < 2 ^ 64) (hvc : ∀ x ∈ vector_clock, x < 2 ^ 64)
    (hsa : src_loc.addr < 2 ^ 32) (hsp : src_loc.port < 2 ^ 16) (hdest : dest_node < 2 ^ 64)
    (hda : dest_loc.addr < 2 ^ 32) (hdp : dest_loc.port < 2 ^ 16)
    (hreq : req_counter < 2 ^ 32) (hprev : prev_req_counter < 2 ^ 32) :
    ∃ m, prep_reachable_prop C src_nodes src_loc dest_node dest_loc req_counter
            prev_req_counter vector_clock = Except.ok m
      ∧ m.type = msg_type.REACHABLE_PROP
      ∧ unpack_reachable_prop C m
          = Except.ok (m,
              { src_nodes := src_nodes,
                src_loc := src_loc,
                dest_node := dest_node,
                dest_loc := dest_loc,
                req_counter := req_counter,
                prev_req_counter := prev_req_counter,
                vector_clock := vector_clock }) := by
  obtain ⟨b1, p1, p2, _, p4⟩ := pack_fields_spec [(4, msg_type.REACHABLE_PROP.code)]
    (buffer.create (C.BUSYBEE_HEADER_SIZE + 4 + 8 + src_nodes.length * 8 + 4 + 2 + 8 + 4 + 2
      + 4 + 4 + C.NUM_SHARDS * 8)) C.BUSYBEE_HEADER_SIZE
    (by simp only [buffer.create, List.map_cons, List.map_nil, List.sum_cons, List.sum_nil]
        omega)
  have hcap1 : b1.capacity
      = C.BUSYBEE_HEADER_SIZE + 40 + 8 * src_nodes.length + 8 * C.NUM_SHARDS := by
    rw [p2]
    simp only [buffer.create]
    omega
  have hi1 : next_index C.BUSYBEE_HEADER_SIZE 4 = C.BUSYBEE_HEADER_SIZE + 4 :=
    next_index_eq _ _ (by omega)
  obtain ⟨b2, q1, q2, q3, q4⟩ := pack_loop_spec (row_of vector_clock) [8] 8
    (fun i vals (vc : List Nat) => vc.set i (vals.getD 0 0))
    rfl (List.range C.NUM_SHARDS) b1 (C.BUSYBEE_HEADER_SIZE + 4)
    (row_of_range vector_clock C.NUM_SHARDS (by omega))
    (by rw [hcap1, List.length_range]; omega)
    (by rw [List.length_range]; omega)
  rw [List.length_range] at q1 q4
  obtain ⟨b3, r1, r2, r3, r4⟩ := pack_fields_spec [(8, src_nodes.length)] b2
    (C.BUSYBEE_HEADER_SIZE + 4 + 8 * C.NUM_SHARDS)
    (by simp only [q2, hcap1, List.map_cons, List.map_nil, List.sum_cons, List.sum_nil]
        omega)
  have hi3 : next_index (C.BUSYBEE_HEADER_SIZE + 4 + 8 * C.NUM_SHARDS) 8
      = C.BUSYBEE_HEADER_SIZE + 4 + 8 * C.NUM_SHARDS + 8 :=
    next_index_eq _ _ (by omega)
  obtain ⟨b4, s1, s2, s3, s4⟩ := pack_loop_spec (row_of src_nodes) [8] 8
    (fun _ vals (src : List Nat) => src ++ [vals.getD 0 0])
    rfl (List.range src_nodes.length) b3 (C.BUSYBEE_HEADER_SIZE + 4 + 8 * C.NUM_SHARDS + 8)
    (row_of_range src_nodes src_nodes.length (le_refl _))
    (by rw [r2, q2, hcap1, List.length_range]; omega)
    (by rw [List.length_range]; omega)
  rw [List.length_range] at s1 s4
  obtain ⟨b5, t1, t2, t3, t4⟩ := pack_fields_spec
    [(4, src_loc.addr), (2, src_loc.port), (8, dest_node), (4, dest_loc.addr),
     (2, dest_loc.port), (4, req_counter), (4, prev_req_counter)]
    b4 (C.BUSYBEE_HEADER_SIZE + 4 + 8 * C.NUM_SHARDS + 8 + 8 * src_nodes.length)
    (by simp only [s2, r2, q2, hcap1, List.map_cons, List.map_nil, List.sum_cons,
          List.sum_nil]
        omega)
  have hv1 : ([(4, msg_type.REACHABLE_PROP.code)] : List (Nat × Nat)).map
      (fun f => f.2 % 256 ^ f.1) = [msg_type.REACHABLE_PROP.code] := rfl
  rw [hv1] at p4
  simp only [List.map_cons, List.map_nil] at p4
  have hv3 : ([(8, src_nodes.length)] : List (Nat × Nat)).map (fun f => f.2 % 256 ^ f.1)
      = [src_nodes.length] := by
    simp only [List.map_cons, List.map_nil]
    rw [Nat.mod_eq_of_lt (show src_nodes.length < 256 ^ 8 by omega)]
  rw [hv3] at r4
  simp only [List.map_cons, List.map_nil] at r4
  have hv5 : ([(4, src_loc.addr), (2, src_loc.port), (8, dest_node), (4, dest_loc.addr),
        (2, dest_loc.port), (4, req_counter), (4, prev_req_counter)] :
        List (Nat × Nat)).map (fun f => f.2 % 256 ^ f.1)
      = [src_loc.addr, src_loc.port, dest_node, dest_loc.addr, dest_loc.port, req_counter,
          prev_req_counter] := by
    simp only [List.map_cons, List.map_nil]
    rw [Nat.mod_eq_of_lt (show src_loc.addr < 256 ^ 4 by omega),
      Nat.mod_eq_of_lt (show src_loc.port < 256 ^ 2 by omega),
      Nat.mod_eq_of_lt (show dest_node < 256 ^ 8 by omega),
      Nat.mod_eq_of_lt (show dest_loc.addr < 256 ^ 4 by omega),
      Nat.mod_eq_of_lt (show dest_loc.port < 256 ^ 2 by omega),
      Nat.mod_eq_of_lt (show req_counter < 256 ^ 4 by omega),
      Nat.mod_eq_of_lt (show prev_req_counter < 256 ^ 4 by omega)]
  rw [hv5] at t4
  simp only [List.map_cons, List.map_nil] at t4
  have w1 : unpack_fields b5 C.BUSYBEE_HEADER_SIZE [4]
      = Except.ok [msg_type.REACHABLE_PROP.code] := by
    rw [unpack_fields_congr b5 b1 (by rw [t2, s2, r2, q2]) [4] _
      (fun k _ hk => by
        simp only [List.sum_cons, List.sum_nil] at hk
        rw [t3 k (by omega), s3 k (by omega), r3 k (by omega), q3 k (by omega)])]
    exact p4
  have w2 := q4 (List.replicate C.NUM_SHARDS 0)
  rw [← unpack_loop_congr [8] 8 _ b5 b2 (by rw [t2, s2, r2]) (le_refl _)
    (List.range C.NUM_SHARDS) (C.BUSYBEE_HEADER_SIZE + 4) (List.replicate C.NUM_SHARDS 0)
    (by rw [List.length_range]; omega)
    (fun k _ hk => by
      rw [List.length_range] at hk
      rw [t3 k (by omega), s3 k (by omega), r3 k (by omega)])] at w2
  have hclock := foldl_set_clock vector_clock hvc
  rw [hclk] at hclock
  rw [hclock] at w2
  have w3 : unpack_fields b5 (C.BUSYBEE_HEADER_SIZE + 4 + 8 * C.NUM_SHARDS) [8]
      = Except.ok [src_nodes.length] := by
    rw [unpack_fields_congr b5 b3 (by rw [t2, s2]) [8] _
      (fun k _ hk => by
        simp only [List.sum_cons, List.sum_nil] at hk
        rw [t3 k (by omega), s3 k (by omega)])]
    exact r4
  have w4 := s4 []
  rw [← unpack_loop_congr [8] 8 _ b5 b4 t2 (le_refl _)
    (List.range src_nodes.length) (C.BUSYBEE_HEADER_SIZE + 4 + 8 * C.NUM_SHARDS + 8) []
    (by rw [List.length_range]; omega)
    (fun k _ hk => by
      rw [List.length_range] at hk
      exact t3 k hk),
    foldl_push_nodes src_nodes hsrc] at w4
  refine ⟨{ type := msg_type.REACHABLE_PROP, buf := some b5 }, ?_, rfl, ?_⟩
  · simp only [prep_reachable_prop, p1, hi1, q1, r1, hi3, s1, t1]
  · simp only [unpack_reachable_prop, w1, if_true, hi1, w2, w3, hi3, w4, t4]

/-- C18: for each prep/unpack pair of `message.h` that carries plain values, a message that
fits the 32-bit index is built without fault and unpacking it returns the packed values:
`node_create` (creation time), `node_delete` (node handle and deletion time), `create_ack`
(address, with the type `NODE_CREATE_ACK` or `EDGE_CREATE_ACK` that was packed),
`reachable_prop` (source nodes, both locations, destination node, both counters and a
vector clock of `NUM_SHARDS` entries) and `reachable_rep` (request counter, reachability
flag, source node and location and, for two lists of equal length unpacked into empty
vectors, the same two lists with `num_del_nodes` their length). Values are within the range
of their C++ types. -/
theorem unpack_prep_identity (C : weaver_constants) :
    (∀ creat_time : Nat,
      C.BUSYBEE_HEADER_SIZE + 4 + 8 < 2 ^ 32 → creat_time < 2 ^ 64 →
      ∃ m, prep_node_create C creat_time = Except.ok m
        ∧ m.type = msg_type.NODE_CREATE_REQ
        ∧ unpack_node_create C m = Except.ok (m, creat_time))
    ∧ (∀ node_handle del_time : Nat,
      C.BUSYBEE_HEADER_SIZE + 4 + 8 + 8 < 2 ^ 32 → node_handle < 2 ^ 64 →
      del_time < 2 ^ 64 →
      ∃ m, prep_node_delete C node_handle del_time = Except.ok m
        ∧ m.type = msg_type.NODE_DELETE_REQ
        ∧ unpack_node_delete C m = Except.ok (node_handle, del_time))
    ∧ (∀ mem_addr : Nat,
      C.BUSYBEE_HEADER_SIZE + 4 + 8 < 2 ^ 32 → mem_addr < 2 ^ 64 →
      (∃ m, prep_node_create_ack C mem_addr = Except.ok m
        ∧ m.type = msg_type.NODE_CREATE_ACK
        ∧ unpack_create_ack C m = Except.ok (m, mem_addr))
      ∧ ∃ m, prep_edge_create_ack C mem_addr = Except.ok m
        ∧ m.type = msg_type.EDGE_CREATE_ACK
        ∧ unpack_create_ack C m = Except.ok (m, mem_addr))
    ∧ (∀ (src_nodes : List Nat) (src_loc : location) (dest_node : Nat) (dest_loc : location)
        (req_counter prev_req_counter : Nat) (vector_clock : List Nat),
      vector_clock.length = C.NUM_SHARDS →
      C.BUSYBEE_HEADER_SIZE + 40 + 8 * src_nodes.length + 8 * C.NUM_SHARDS < 2 ^ 32 →
      (∀ x ∈ src_nodes, x < 2 ^ 64) → (∀ x ∈ vector_clock, x < 2 ^ 64) →
      src_loc.addr < 2 ^ 32 → src_loc.port < 2 ^ 16 → dest_node < 2 ^ 64 →
      dest_loc.addr < 2 ^ 32 → dest_loc.port < 2 ^ 16 →
      req_counter < 2 ^ 32 → prev_req_counter < 2 ^ 32 →
      ∃ m, prep_reachable_prop C src_nodes src_loc dest_node dest_loc req_counter
              prev_req_counter vector_clock = Except.ok m
        ∧ m.type = msg_type.REACHABLE_PROP
        ∧ unpack_reachable_prop C m
            = Except.ok (m,
                { src_nodes := src_nodes,
                  src_loc := src_loc,
                  dest_node := dest_node,
                  dest_loc := dest_loc,
                  req_counter := req_counter,
                  prev_req_counter := prev_req_counter,
                  vector_clock := vector_clock }))
    ∧ (∀ (req_counter : Nat) (is_reachable : Bool) (src_node : Nat) (src_loc : location)
        (del_nodes del_times : List Nat),
      del_nodes.length = del_times.length →
      C.BUSYBEE_HEADER_SIZE + 34 + 16 * del_nodes.length < 2 ^ 32 →
      req_counter < 2 ^ 32 → src_node < 2 ^ 64 → src_loc.addr < 2 ^ 32 →
      src_loc.port < 2 ^ 16 → (∀ x ∈ del_nodes, x < 2 ^ 64) →
      (∀ x ∈ del_times, x < 2 ^ 64) →
      ∃ m, prep_reachable_rep C req_counter is_reachable src_node src_loc del_nodes
              del_times = Except.ok m
        ∧ m.type = msg_type.REACHABLE_REPLY
        ∧ unpack_reachable_rep C m [] []
            = Except.ok (m,
                { req_counter := req_counter,
                  is_reachable := is_reachable,
                  src_node := src_node,
                  num_del_nodes := del_nodes.length,
                  del_nodes := del_nodes,
                  del_times := del_times,
                  src_loc := src_loc })) := by
  refine ⟨fun t h1 h2 => unpack_prep_node_create C t h1 h2,
    fun n t h1 h2 h3 => unpack_prep_node_delete C n t h1 h2 h3,
    fun a h1 h2 => ⟨unpack_prep_create_ack C a true h1 h2,
      unpack_prep_create_ack C a false h1 h2⟩,
    fun src sl d dl r p vc h1 h2 h3 h4 h5 h6 h7 h8 h9 h10 h11 =>
      unpack_prep_reachable_prop C src sl d dl r p vc h1 h2 h3 h4 h5 h6 h7 h8 h9 h10 h11,
    fun r reach s sl dn dt h1 h2 h3 h4 h5 h6 h7 h8 =>
      unpack_prep_reachable_rep C r reach s sl dn dt h1 h2 h3 h4 h5 h6 h7 h8⟩

/-- Witness for C18: a reachability reply with two deleted nodes, for a header of 5
bytes. -/
theorem unpack_prep_identity_witness :
    ∃ m, prep_reachable_rep wire_constants 5 true 77 { addr := 3, port := 4 } [1, 2] [10, 20]
          = Except.ok m
      ∧ m.type = msg_type.REACHABLE_REPLY
      ∧ unpack_reachable_rep wire_constants m [] []
          = Except.ok (m,
              { req_counter := 5,
                is_reachable := true,
                src_node := 77,
                num_del_nodes := ([1, 2] : List Nat).length,
                del_nodes := [1, 2],
                del_times := [10, 20],
                src_loc := { addr := 3, port := 4 } }) :=
  (unpack_prep_identity wire_constants).2.2.2.2 5 true 77 { addr := 3, port := 4 } [1, 2]
    [10, 20] rfl (by decide) (by decide) (by decide) (by decide) (by decide) (by decide)
    (by decide)

/-! ### Reading the properties of a node -/

/-- The loop of `read_node_props_node_program` appends the selected properties in
iteration order. -/
theorem collect_props_eq (fetch_all : Bool) (keys : List String)
    (properties : List (String × String)) :
    ∀ node_props : List (String × String),
      collect_props fetch_all keys properties node_props
        = node_props ++ properties.filter (fun p => fetch_all || decide (p.1 ∈ keys)) := by
  induction properties with
  | nil => intro np; simp [collect_props]
  | cons p rest ih =>
    intro np
    unfold collect_props
    by_cases h : (fetch_all || decide (p.1 ∈ keys)) = true
    · rw [if_pos h, ih, List.filter_cons, if_pos h, List.append_assoc]
      rfl
    · rw [if_neg h, ih, List.filter_cons, if_neg h]

/-- C19: `read_node_props_node_program` appends to `params.node_props`, in the iteration
order of the node's visible properties, exactly the pairs `(key, value)` whose key occurs
in `params.keys`, or the pairs of all visible properties when `params.keys` is empty, and
returns `DEPTH_FIRST` with exactly one next hop, addressed to the coordinator and carrying
those params; on a node whose only visible property is `(K, V)`, with empty keys and empty
`node_props`, the result is `[(K, V)]`. -/
theorem read_node_props_node_program_spec (coordinator : remote_node) :
    (∀ (properties : List (String × String)) (params : read_node_props_params),
      read_node_props_node_program coordinator properties params
        = (search_type.DEPTH_FIRST,
           [(coordinator,
             { keys := params.keys,
               node_props := params.node_props
                 ++ properties.filter
                     (fun p => params.keys.isEmpty || decide (p.1 ∈ params.keys)) })]))
    ∧ (∀ (properties : List (String × String)) (node_props : List (String × String)),
        read_node_props_node_program coordinator properties
            { keys := [], node_props := node_props }
          = (search_type.DEPTH_FIRST,
             [(coordinator, { keys := [], node_props := node_props ++ properties })]))
    ∧ ∀ K V : String,
        read_node_props_node_program coordinator [(K, V)] { keys := [], node_props := [] }
          = (search_type.DEPTH_FIRST,
             [(coordinator, { keys := [], node_props := [(K, V)] })]) := by
  have h1 : ∀ (properties : List (String × String)) (params : read_node_props_params),
      read_node_props_node_program coordinator properties params
        = (search_type.DEPTH_FIRST,
           [(coordinator,
             { keys := params.keys,
               node_props := params.node_props
                 ++ properties.filter
                     (fun p => params.keys.isEmpty || decide (p.1 ∈ params.keys)) })]) := by
    intro properties params
    unfold read_node_props_node_program
    rw [collect_props_eq]
  have h2 : ∀ (properties : List (String × String)) (node_props : List (String × String)),
      read_node_props_node_program coordinator properties
          { keys := [], node_props := node_props }
        = (search_type.DEPTH_FIRST,
           [(coordinator, { keys := [], node_props := node_props ++ properties })]) := by
    intro properties node_props
    rw [h1]
    simp
  refine ⟨h1, h2, fun K V => ?_⟩
  rw [h2]
  rfl

/-! ### Configuration constants -/

/-- The values of `NumShards` over a sequence of updates start with the initial value and
never fall below it. -/
theorem num_shards_history_ge (calls : List Nat) :
    ∀ NumShards : Nat, ∀ v ∈ num_shards_history NumShards calls, NumShards ≤ v := by
  induction calls with
  | nil =>
    intro N v hv
    simp only [num_shards_history, List.mem_singleton] at hv
    rw [hv]
  | cons x rest ih =>
    intro N v hv
    unfold num_shards_history update_config_constants at hv
    by_cases h : N ≤ x
    · simp only [h, if_true, List.mem_cons] at hv
      rcases hv with hv | hv
      · rw [hv]
      · exact le_trans h (ih x v hv)
    · simp only [h, if_false, List.mem_singleton] at hv
      rw [hv]

/-- The values of `NumShards` over a sequence of updates never decrease. -/
theorem num_shards_history_sorted (calls : List Nat) :
    ∀ NumShards : Nat, (num_shards_history NumShards calls).Pairwise (fun a b => a ≤ b) := by
  induction calls with
  | nil => intro N; simp [num_shards_history]
  | cons x rest ih =>
    intro N
    unfold num_shards_history update_config_constants
    by_cases h : N ≤ x
    · simp only [h, if_true]
      refine List.Pairwise.cons (fun v hv => ?_) (ih x)
      exact le_trans h (num_shards_history_ge rest x v hv)
    · simp only [h, if_false]
      exact List.pairwise_singleton _ _

/-- A sequence of updates that succeeds and ends with `num_shards` leaves that value. -/
theorem update_all_last (calls : List Nat) :
    ∀ (NumShards num_shards v : Nat),
      update_all NumShards (calls ++ [num_shards]) = Except.ok v → v = num_shards := by
  induction calls with
  | nil =>
    intro N x v h
    simp only [List.nil_append, update_all, update_config_constants] at h
    by_cases hx : N ≤ x
    · simp only [hx, if_true] at h
      cases h
      rfl
    · simp only [hx, if_false] at h
      cases h
  | cons y rest ih =>
    intro N x v h
    simp only [List.cons_append, update_all, update_config_constants] at h
    by_cases hy : N ≤ y
    · simp only [hy, if_true] at h
      exact ih y x v h
    · simp only [hy, if_false] at h
      cases h

/-- C20: across every sequence of `update_config_constants` calls, `NumShards` never
decreases: a call with `num_shards` below the current value fails its assertion, so that
`NumShards` keeps its value, any other call sets `NumShards` to `num_shards`, and
`get_num_shards` returns the value set by the last successful update. -/
theorem update_config_constants_monotone :
    (∀ (NumShards : Nat) (calls : List Nat),
      (num_shards_history NumShards calls).Pairwise (fun a b => a ≤ b))
    ∧ (∀ NumShards num_shards : Nat, num_shards < NumShards →
        update_config_constants NumShards num_shards = Except.error fault.assertion_failed
          ∧ ∀ calls : List Nat,
              num_shards_history NumShards (num_shards :: calls) = [NumShards])
    ∧ (∀ NumShards num_shards : Nat, NumShards ≤ num_shards →
        update_config_constants NumShards num_shards = Except.ok num_shards
          ∧ get_num_shards num_shards = num_shards)
    ∧ ∀ (NumShards num_shards v : Nat) (calls : List Nat),
        update_all NumShards (calls ++ [num_shards]) = Except.ok v →
        get_num_shards v = num_shards := by
  refine ⟨fun N calls => num_shards_history_sorted calls N, ?_, ?_, ?_⟩
  · intro N x h
    have hx : ¬ N ≤ x := by omega
    refine ⟨by simp only [update_config_constants, hx, if_false], fun calls => ?_⟩
    simp only [num_shards_history, update_config_constants, hx, if_false]
  · intro N x h
    exact ⟨by simp only [update_config_constants, h, if_true], rfl⟩
  · intro N x v calls h
    exact update_all_last calls N x v h

/-- Witness for C20: from 3 shards, the updates to 5 and then to 8 succeed and leave 8. -/
theorem update_config_constants_monotone_witness :
    update_all 3 ([5] ++ [8]) = Except.ok 8 ∧ get_num_shards 8 = 8 :=
  ⟨rfl, update_config_constants_monotone.2.2.2 3 8 8 [5] rfl⟩

/-! ### Client transactions -/

/-- The loop of `recv_coord` ends once `comm->recv` returns a code other than
`BUSYBEE_INTERRUPTED`. -/
theorem recv_coord_returns (E : client_env) :
    ∀ (k calls fuel : Nat),
      (E.recv (calls + k)).1 ≠ busybee_returncode.BUSYBEE_INTERRUPTED → k < fuel →
      ∃ out, recv_coord E fuel calls = some out := by
  intro k
  induction k with
  | zero =>
    intro calls fuel h hf
    cases fuel with
    | zero => omega
    | succ fuel =>
      rw [Nat.add_zero] at h
      exact ⟨_, by rw [recv_coord, if_neg h]⟩
  | succ k ih =>
    intro calls fuel h hf
    cases fuel with
    | zero => omega
    | succ fuel =>
      rw [recv_coord]
      split
      · exact ih (calls + 1) fuel (by rw [Nat.add_assoc, Nat.add_comm 1 k]; exact h) (by omega)
      · exact ⟨_, rfl⟩

/-- The loop of `reconfigure` ends once `maintain_sm_connection` succeeds. -/
theorem reconfigure_returns (E : client_env) :
    ∀ (k calls fuel : Nat), E.sm_ok (calls + k) = true → k < fuel →
      ∃ out, reconfigure E fuel calls = some out := by
  intro k
  induction k with
  | zero =>
    intro calls fuel h hf
    cases fuel with
    | zero => omega
    | succ fuel =>
      rw [Nat.add_zero] at h
      exact ⟨_, by rw [reconfigure, if_pos h]⟩
  | succ k ih =>
    intro calls fuel h hf
    cases fuel with
    | zero => omega
    | succ fuel =>
      rw [reconfigure]
      split
      · exact ⟨_, rfl⟩
      · exact ih (calls + 1) fuel (by rw [Nat.add_assoc, Nat.add_comm 1 k]; exact h) (by omega)

/-- The part of `end_tx` behind the send adds no send to the trace and returns `true`
exactly when `recv_coord` returns `BUSYBEE_SUCCESS` with a reply of type
`CLIENT_TX_SUCCESS`. -/
theorem end_tx_recv_spec (E : client_env) (fuel : Nat) (c : client)
    (trace : List client_event) (r : end_tx_result)
    (h : end_tx_recv E fuel c trace = some r) :
    sent_txs r.trace = sent_txs trace
      ∧ (r.ret = Except.ok true ↔
          ∃ calls, recv_coord E fuel c.recv_calls
            = some ((busybee_returncode.BUSYBEE_SUCCESS, reply_type.CLIENT_TX_SUCCESS),
                calls)) := by
  have hsent : ∀ t : List client_event,
      sent_txs (t ++ [client_event.reconfigure]) = sent_txs t := by
    intro t
    induction t with
    | nil => rfl
    | cons e rest ih =>
      cases e with
      | send_client_tx_init a b => simp [sent_txs, ih]
      | reconfigure => simpa [sent_txs] using ih
  unfold end_tx_recv at h
  cases hrecv : recv_coord E fuel c.recv_calls with
  | none => rw [hrecv] at h; cases h
  | some out =>
    obtain ⟨⟨code, ty⟩, calls⟩ := out
    rw [hrecv] at h
    simp only at h
    by_cases h1 : code = busybee_returncode.BUSYBEE_TIMEOUT
        ∨ code = busybee_returncode.BUSYBEE_DISRUPTED
    · rw [if_pos h1] at h
      cases hre : reconfigure E fuel c.sm_calls with
      | none => rw [hre] at h; cases h
      | some k =>
        rw [hre] at h
        cases h
        refine ⟨hsent trace, ?_⟩
        constructor
        · intro e; cases e
        · rintro ⟨calls2, e⟩
          cases e
          rcases h1 with h1 | h1 <;> cases h1
    · rw [if_neg h1] at h
      by_cases h2 : code = busybee_returncode.BUSYBEE_SUCCESS
      · rw [if_pos h2] at h
        by_cases h3 : ty = reply_type.CLIENT_TX_SUCCESS
        · rw [if_pos h3] at h
          cases h
          exact ⟨rfl, fun _ => ⟨calls, by rw [h2, h3]⟩, fun _ => rfl⟩
        · rw [if_neg h3] at h
          by_cases h4 : ty = reply_type.CLIENT_TX_ABORT
          · rw [if_pos h4] at h
            cases h
            refine ⟨rfl, ?_⟩
            constructor
            · intro e; cases e
            · rintro ⟨calls2, e⟩
              cases e
              exact absurd rfl h3
          · rw [if_neg h4] at h
            cases h
            refine ⟨rfl, ?_⟩
            constructor
            · intro e; cases e
            · rintro ⟨calls2, e⟩
              cases e
              exact absurd rfl h3
      · rw [if_neg h2] at h
        cases h
        refine ⟨rfl, ?_⟩
        constructor
        · intro e; cases e
        · rintro ⟨calls2, e⟩
          cases e
          exact absurd rfl h2

/-- C21: with no active transaction `end_tx` returns false without sending anything. With
an active transaction, whenever it returns it has sent `CLIENT_TX_INIT(cur_tx_id, cur_tx)`
to the coordinator exactly once, whatever the send and receive codes, and it returns true
exactly when the send returns `BUSYBEE_SUCCESS`, `recv_coord` returns `BUSYBEE_SUCCESS`
and the type of the reply is `CLIENT_TX_SUCCESS`; and it does return when `comm->recv`
eventually returns a code other than `BUSYBEE_INTERRUPTED` and `maintain_sm_connection`
eventually succeeds. -/
theorem end_tx_spec (E : client_env) (c : client) :
    (c.cur_tx_id = 2 ^ 64 - 1 →
      ∀ fuel, end_tx E fuel c = some { ret := Except.ok false, c := c, trace := [] })
    ∧ (c.cur_tx_id ≠ 2 ^ 64 - 1 →
        ∀ (fuel : Nat) (r : end_tx_result), end_tx E fuel c = some r →
          sent_txs r.trace = [(c.cur_tx_id, c.cur_tx)]
            ∧ (r.ret = Except.ok true ↔
                E.send = busybee_returncode.BUSYBEE_SUCCESS
                  ∧ ∃ calls, recv_coord E fuel c.recv_calls
                      = some ((busybee_returncode.BUSYBEE_SUCCESS,
                          reply_type.CLIENT_TX_SUCCESS), calls)))
    ∧ (c.cur_tx_id ≠ 2 ^ 64 - 1 →
        (∃ k, (E.recv (c.recv_calls + k)).1 ≠ busybee_returncode.BUSYBEE_INTERRUPTED) →
        (∃ k, E.sm_ok (c.sm_calls + k) = true) →
        ∃ fuel r, end_tx E fuel c = some r) := by
  refine ⟨?_, ?_, ?_⟩
  · intro h fuel
    rw [end_tx, if_pos h]
  · intro h fuel r hr
    rw [end_tx, if_neg h] at hr
    by_cases h1 : E.send = busybee_returncode.BUSYBEE_DISRUPTED
    · rw [if_pos h1] at hr
      cases hre : reconfigure E fuel c.sm_calls with
      | none => rw [hre] at hr; cases hr
      | some k =>
        rw [hre] at hr
        cases hr
        refine ⟨rfl, ?_⟩
        constructor
        · intro e; cases e
        · rintro ⟨e, -⟩
          rw [h1] at e
          cases e
    · rw [if_neg h1] at hr
      by_cases h2 : E.send ≠ busybee_returncode.BUSYBEE_SUCCESS
      · rw [if_pos h2] at hr
        cases hr
        refine ⟨rfl, ?_⟩
        constructor
        · intro e; cases e
        · rintro ⟨e, -⟩
          exact absurd e h2
      · rw [if_neg h2] at hr
        obtain ⟨a, b⟩ := end_tx_recv_spec E fuel c _ r hr
        refine ⟨a, ?_⟩
        rw [b]
        constructor
        · intro e; exact ⟨not_not.mp h2, e⟩
        · intro e; exact e.2
  · rintro h ⟨k1, hk1⟩ ⟨k2, hk2⟩
    obtain ⟨out1, ho1⟩ := recv_coord_returns E k1 c.recv_calls (k1 + k2 + 1) hk1 (by omega)
    obtain ⟨out2, ho2⟩ := reconfigure_returns E k2 c.sm_calls (k1 + k2 + 1) hk2 (by omega)
    refine ⟨k1 + k2 + 1, ?_⟩
    rw [end_tx, if_neg h]
    by_cases h1 : E.send = busybee_returncode.BUSYBEE_DISRUPTED
    · rw [if_pos h1, ho2]
      exact ⟨_, rfl⟩
    · rw [if_neg h1]
      by_cases h2 : E.send ≠ busybee_returncode.BUSYBEE_SUCCESS
      · rw [if_pos h2]
        exact ⟨_, rfl⟩
      · rw [if_neg h2, end_tx_recv, ho1]
        simp only [ho2]
        split
        · exact ⟨_, rfl⟩
        · split
          · split
            · exact ⟨_, rfl⟩
            · split <;> exact ⟨_, rfl⟩
          · exact ⟨_, rfl⟩

/-- Witness for C21: the client without a transaction sends nothing. -/
theorem end_tx_spec_witness :
    ({} : client).cur_tx_id = 2 ^ 64 - 1
      ∧ ∀ fuel, end_tx working_transport fuel {}
          = some { ret := Except.ok false, c := {}, trace := [] } :=
  ⟨rfl, (end_tx_spec working_transport {}).1 rfl⟩

/-- C29: a client with the open transaction 1 whose send is disrupted: `end_tx` returns
false through the early `return` behind `reconfigure`, before the statements that reset
`cur_tx_id` and clear `cur_tx`; the transaction stays active, and the next `begin_tx`
fails its assertion "only one concurrent transaction per client". -/
theorem end_tx_leaves_tx_active_after_disrupted_send :
    (∀ fuel, client_after (end_tx disrupted_send (fuel + 1) open_client)
        = some { open_client with sm_calls := 1 })
    ∧ open_client.cur_tx_id ≠ 2 ^ 64 - 1
    ∧ open_client.cur_tx ≠ []
    ∧ begin_tx { open_client with sm_calls := 1 } = Except.error fault.assertion_failed := by
  refine ⟨fun fuel => rfl, by decide, by decide, rfl⟩

/-! ### Starting a shard -/

/-- For a wrong argument count `main` of the shard returns -1 without doing anything. -/
theorem shard_main_wrong_argc (atoi : String → Int) (argv : List String)
    (h2 : argv.length ≠ 2) (h4 : argv.length ≠ 4) :
    shard_main atoi argv = ([], some (-1)) := by
  rw [shard_main, if_pos ⟨h2, h4⟩]

/-- C22: for the arguments `weaver-shard 1 foo graph.txt`, whose graph-file format `foo` is
none of `tsv`, `snap`, `weaver`, `main` of the shard does not return -1: it loads the file
as a `SNAP` graph and enters the receive loop. For the three arguments
`weaver-shard 1 snap`, a wrong argument count, it returns -1 without doing anything. -/
theorem shard_main_accepts_unknown_format (atoi : String → Int) :
    shard_main atoi ["weaver-shard", "1", "foo", "graph.txt"]
      = ([main_event.new_shard (atoi "1" % 2 ^ 64).toNat,
          main_event.init_nmap,
          main_event.load_graph graph_file_format.SNAP "graph.txt",
          main_event.send_loaded_graph,
          main_event.msgrecv_loop], none)
    ∧ shard_main atoi ["weaver-shard", "1", "snap"] = ([], some (-1)) := by
  refine ⟨?_, shard_main_wrong_argc atoi _ (by decide) (by decide)⟩
  have hf : format_of "foo" = graph_file_format.SNAP := by decide
  simp only [shard_main, List.length_cons, List.length_nil, List.getD_cons_succ,
    List.getD_cons_zero, hf]
  rfl

/-! ### Triangle program -/

/-- When no comparison finds identical clocks, the loop of `get_num_edges` adds the number
of out-edges created before the request and deleted after it. -/
theorem count_edges_ok (compare_two_vts : vclock → vclock → Int) (req_vclock : vclock)
    (es : List (Nat × edge)) :
    ∀ toRet : Nat, (∀ e ∈ es, distinct_times compare_two_vts req_vclock e) →
      count_edges compare_two_vts req_vclock es toRet
        = Except.ok (toRet + (es.filter (counted compare_two_vts req_vclock)).length) := by
  induction es with
  | nil => intro k _; rfl
  | cons e rest ih =>
    intro k h
    obtain ⟨h1, h2⟩ := h e (List.mem_cons_self _ _)
    have hrest : ∀ x ∈ rest, distinct_times compare_two_vts req_vclock x :=
      fun x hx => h x (List.mem_cons_of_mem _ hx)
    rw [count_edges, if_neg h1]
    by_cases hc : compare_two_vts e.2.creat_time req_vclock = 0
    · rw [if_pos hc, if_neg (h2 hc)]
      by_cases hd : compare_two_vts e.2.del_time req_vclock = 1
      · have hcnt : counted compare_two_vts req_vclock e = true := by
          simp [counted, hc, hd]
        rw [if_pos hd, ih (k + 1) hrest, List.filter_cons, if_pos hcnt, List.length_cons]
        congr 1
        omega
      · have hcnt : ¬ counted compare_two_vts req_vclock e = true := by
          simp [counted, hc, hd]
        rw [if_neg hd, ih k hrest, List.filter_cons, if_neg hcnt]
    · have hcnt : ¬ counted compare_two_vts req_vclock e = true := by
        simp [counted, hc]
      rw [if_neg hc, ih k hrest, List.filter_cons, if_neg hcnt]

/-- When a comparison finds identical clocks on some out-edge, the loop of `get_num_edges`
fails an assertion. -/
theorem count_edges_fails (compare_two_vts : vclock → vclock → Int) (req_vclock : vclock)
    (es : List (Nat × edge)) :
    ∀ toRet : Nat, (∃ e ∈ es, ¬ distinct_times compare_two_vts req_vclock e) →
      count_edges compare_two_vts req_vclock es toRet
        = Except.error fault.assertion_failed := by
  induction es with
  | nil => intro k h; obtain ⟨e, he, -⟩ := h; cases he
  | cons e rest ih =>
    intro k h
    by_cases hd : distinct_times compare_two_vts req_vclock e
    · have hrest : ∃ x ∈ rest, ¬ distinct_times compare_two_vts req_vclock x := by
        obtain ⟨x, hx, hnx⟩ := h
        rcases List.mem_cons.mp hx with e1 | e1
        · rw [e1] at hnx; exact absurd hd hnx
        · exact ⟨x, e1, hnx⟩
      rw [count_edges, if_neg hd.1]
      by_cases hc : compare_two_vts e.2.creat_time req_vclock = 0
      · rw [if_pos hc, if_neg (hd.2 hc)]
        split
        · exact ih _ hrest
        · exact ih _ hrest
      · rw [if_neg hc]
        exact ih _ hrest
    · rw [count_edges]
      by_cases h1 : compare_two_vts e.2.creat_time req_vclock = 2
      · rw [if_pos h1]
      · rw [if_neg h1]
        by_cases hc : compare_two_vts e.2.creat_time req_vclock = 0
        · rw [if_pos hc]
          by_cases h2 : compare_two_vts e.2.del_time req_vclock = 2
          · rw [if_pos h2]
          · exact absurd ⟨h1, fun _ => h2⟩ hd
        · exact absurd ⟨h1, fun h0 => absurd h0 hc⟩ hd

/-- C26, counterexample: a node whose only out-edge was created at clock value 6 and is not
deleted, read by a request with the same clock value 6: the creation clock is identical to
the request clock, so the edge is visible in the sense `creation <= V < deletion`, and
`get_num_edges` fails its assertion `cmp_1 != 2` instead of returning 1. -/
theorem get_num_edges_fails_on_identical_clock :
    num_edges_of
        (get_num_edges (kronos_compare_two_vts (fun _ _ => 0)) node_with_new_edge (clock_at 6))
      = none
    ∧ node_with_new_edge.out_edges.map (fun e => (e.2.creat_time, e.2.del_time))
        = [(clock_at 6, never)]
    ∧ kronos_compare_two_vts (fun _ _ => 0) (clock_at 6) (clock_at 6) = 2
    ∧ kronos_compare_two_vts (fun _ _ => 0) never (clock_at 6) = 1 := by
  decide

/-- C26, amended: for every node `n` and request vclock `V` such that no comparison made
by `get_num_edges` finds identical clocks (no out-edge was created at `V`, and none created
before `V` was deleted at `V`), `get_num_edges(n, V)` returns, without failing an
assertion, the number of out-edges of `n` created before `V` and deleted after `V`; when
some comparison finds identical clocks, it fails an assertion. -/
theorem get_num_edges_spec (compare_two_vts : vclock → vclock → Int) (n : node)
    (req_vclock : vclock) :
    ((∀ e ∈ n.out_edges, distinct_times compare_two_vts req_vclock e) →
      get_num_edges compare_two_vts n req_vclock
        = Except.ok (n.out_edges.filter (counted compare_two_vts req_vclock)).length)
    ∧ ((∃ e ∈ n.out_edges, ¬ distinct_times compare_two_vts req_vclock e) →
      get_num_edges compare_two_vts n req_vclock = Except.error fault.assertion_failed) := by
  constructor
  · intro h
    rw [get_num_edges, count_edges_ok _ _ _ 0 h, Nat.zero_add]
  · intro h
    rw [get_num_edges, count_edges_fails _ _ _ 0 h]

/-- Witness for C26: the node with one out-edge created at clock value 6, read at clock
value 7. -/
theorem get_num_edges_spec_witness :
    (∀ e ∈ node_with_new_edge.out_edges,
        distinct_times (kronos_compare_two_vts (fun _ _ => 0)) (clock_at 7) e)
      ∧ get_num_edges (kronos_compare_two_vts (fun _ _ => 0)) node_with_new_edge (clock_at 7)
          = Except.ok (node_with_new_edge.out_edges.filter
              (counted (kronos_compare_two_vts (fun _ _ => 0)) (clock_at 7))).length :=
  ⟨by
    intro e he
    simp only [node_with_new_edge, List.mem_singleton] at he
    subst he
    exact ⟨by decide, fun _ => by decide⟩,
   (get_num_edges_spec (kronos_compare_two_vts (fun _ _ => 0)) node_with_new_edge
      (clock_at 7)).1 (by
        intro e he
        simp only [node_with_new_edge, List.mem_singleton] at he
        subst he
        exact ⟨by decide, fun _ => by decide⟩)⟩

/-- A global request that enumerates fewer live nodes than `NUM_THREADS - 1`, or that runs
with `NUM_THREADS = 1`, ends in a division by zero. -/
theorem global_fan_out_divides_by_zero {P NS : Type} (C : weaver_constants)
    (E : prog_env P NS) (S : shard P NS) (m : node_prog_msg P) (t : node_params_t P)
    (hstart : m.start_node_params = [t])
    (hlive : handles_to_send_to E S m.req_vclock ≠ [])
    (hfew : (handles_to_send_to E S m.req_vclock).length < C.NUM_THREADS - 1
      ∨ C.NUM_THREADS - 1 = 0) :
    global_fan_out C E S m = Except.error fault.division_by_zero := by
  unfold global_fan_out
  rw [hstart]
  cases hL : handles_to_send_to E S m.req_vclock with
  | nil => exact absurd hL hlive
  | cons h0 hs =>
    simp only
    rw [hL] at hfew
    by_cases h1 : C.NUM_THREADS - 1 = 0
    · rw [if_pos h1]
    · rw [if_neg h1]
      rcases hfew with h2 | h2
      · rw [if_pos (Nat.div_eq_of_lt h2)]
      · exact absurd h2 h1

/-- C28: on shard 1 holding the single live node 7, a global `NODE_PROG` at clock value 6
enumerates one node; with `NUM_THREADS = 3` the chunk size `1 / (NUM_THREADS - 1)` is 0 and
the flush test `next_batch.size() % batch_size` is a modulo by zero; with `NUM_THREADS = 1`
the chunk size itself is a division by zero. In both cases `unpack_and_run_db` ends in a
division by zero. -/
theorem unpack_and_run_db_global_divides_by_zero :
    handles_to_send_to triangle_fan_out_env shard_with_one_node (clock_at 6) = [7]
    ∧ (∀ fuel, fault_of (unpack_and_run_db three_threads triangle_fan_out_env fuel
          shard_with_one_node triangle_global_msg) = some fault.division_by_zero)
    ∧ (∀ fuel, fault_of (unpack_and_run_db one_thread triangle_fan_out_env fuel
          shard_with_one_node triangle_global_msg) = some fault.division_by_zero) := by
  refine ⟨by decide, fun fuel => ?_, fun fuel => ?_⟩
  · rfl
  · rfl

/-! ### Step 1 of a migration and the edge index -/

/-- C25: shard 2 holds node 7 with two out-edges to node 9, and its edge index, which
stores node 7 under node 9, is consistent. `migrate_node_step1(7, 3)` fails its assertion
on the edge index: the first out-edge erases node 7 from the set under node 9 and, the set
being empty, the entry itself, which the assertion then misses for the second out-edge. -/
theorem migrate_node_step1_fails_on_parallel_edges :
    edge_map_consistent shard_with_parallel_edges = true
    ∧ (acquire_node shard_with_parallel_edges 7).map (fun n => n.updated) = some false
    ∧ ∀ wrapper : shard Nat Unit → Except fault (shard Nat Unit × List migr_action),
        fault_of (migrate_node_step1 wrapper shard_with_parallel_edges 7 3)
          = some fault.assertion_failed := by
  refine ⟨by decide, by decide, fun wrapper => ?_⟩
  rfl

/-! ### Heartbeats and the start of a migration round -/

/-- A run of `nop` that passes its assertions, in terms of the counting step, the token
step and `check_step3`. -/
theorem nop_run {P NS : Type} (C : weaver_constants) (S S1 : shard P NS) (nop_arg : nop_data)
    (check_move_migr : Bool)
    (hcount : nop_count_step S nop_arg.vt_id = Except.ok (S1, check_move_migr))
    (hdone : (nop_token_step S1).1.max_done_id.getD nop_arg.vt_id 0 ≤ nop_arg.max_done_id)
    (hone : ((check_move_migr && (nop_token_step S1).2.1)
      || ((nop_token_step S1).2.1 && (check_step3 C (nop_before_step3 S1 nop_arg)).1)
      || (check_move_migr && (check_step3 C (nop_before_step3 S1 nop_arg)).1)) = false) :
    ∃ r, nop C S nop_arg = Except.ok r
      ∧ r.check_move_migr = check_move_migr
      ∧ r.check_init_migr = (nop_token_step S1).2.1
      ∧ r.check_migr_step3 = (check_step3 C (nop_before_step3 S1 nop_arg)).1
      ∧ r.S = { (check_step3 C (nop_before_step3 S1 nop_arg)).2 with
                shard_node_count :=
                  copy_shard_node_count C
                    (check_step3 C (nop_before_step3 S1 nop_arg)).2.shard_id
                    nop_arg.shard_node_count
                    (check_step3 C (nop_before_step3 S1 nop_arg)).2.shard_node_count } := by
  unfold nop
  rw [hcount]
  simp only
  rw [if_neg (by omega)]
  unfold nop_before_step3 at hone
  rw [if_neg (by rw [hone]; exact Bool.false_ne_true)]
  exact ⟨_, rfl, rfl, rfl, rfl, rfl⟩

/-- A heartbeat at a shard that holds the token with hops left and has not migrated in this
round, while no migration is in progress and some acknowledgement bit is clear: `nop`
passes its assertions, `check_init_migr` tells whether `migr_chance` exceeded 2, in which
case `migrated` is set and `migr_chance` reset, and otherwise `migr_chance` is
incremented. -/
theorem nop_token_round {P NS : Type} (C : weaver_constants) (S : shard P NS)
    (nop_arg : nop_data) (htoken : S.migr_token = true) (hhops : S.migr_token_hops ≠ 0)
    (hmigrated : S.migrated = false) (hcur : S.current_migr = false)
    (hacks : S.migr_edge_acks.all id = false)
    (hdone : S.max_done_id.getD nop_arg.vt_id 0 ≤ nop_arg.max_done_id) :
    ∃ r, nop C S nop_arg = Except.ok r
      ∧ r.check_move_migr = false
      ∧ r.check_migr_step3 = false
      ∧ r.check_init_migr = decide (2 < S.migr_chance)
      ∧ r.S.migrated = decide (2 < S.migr_chance)
      ∧ r.S.migr_chance = (if 2 < S.migr_chance then 0 else S.migr_chance + 1)
      ∧ r.S.migr_token = true
      ∧ r.S.migr_token_hops = S.migr_token_hops
      ∧ r.S.current_migr = false
      ∧ r.S.migr_edge_acks = S.migr_edge_acks
      ∧ r.S.max_done_id = S.max_done_id.set nop_arg.vt_id nop_arg.max_done_id := by
  have hcount : nop_count_step S nop_arg.vt_id = Except.ok (S, false) := by
    unfold nop_count_step
    rw [hcur]
    rfl
  have htok : nop_token_step S
      = if 2 < S.migr_chance then ({ S with migrated := true, migr_chance := 0 }, true, [])
        else ({ S with migr_chance := S.migr_chance + 1 }, false, []) := by
    unfold nop_token_step
    rw [if_pos ⟨hmigrated, htoken⟩, if_neg hhops]
  have hacks3 : (nop_before_step3 S nop_arg).migr_edge_acks.all id = false := by
    unfold nop_before_step3
    rw [htok]
    split <;> exact hacks
  have hc3 : (check_step3 C (nop_before_step3 S nop_arg)).1 = false :=
    check_step3_of_not_all C _ hacks3
  have hS3 : (check_step3 C (nop_before_step3 S nop_arg)).2 = nop_before_step3 S nop_arg := by
    have h := hc3
    unfold check_step3 at h ⊢
    split
    · rename_i hif
      rw [if_pos hif] at h
      cases h
    · rfl
  have hdone1 : (nop_token_step S).1.max_done_id.getD nop_arg.vt_id 0 ≤ nop_arg.max_done_id := by
    rw [htok]
    split <;> exact hdone
  obtain ⟨r, h1, h2, h3, h4, h5⟩ := nop_run C S S nop_arg false hcount hdone1
    (by rw [hc3]; simp)
  rw [hc3] at h4
  rw [hS3] at h5
  refine ⟨r, h1, h2, h4, ?_, ?_, ?_, ?_, ?_, ?_, ?_, ?_⟩
  · rw [h3, htok]
    split <;> simp [*]
  · rw [h5]
    show (nop_token_step S).1.migrated = _
    rw [htok]
    split <;> simp [*]
  · rw [h5]
    show (nop_token_step S).1.migr_chance = _
    rw [htok]
    split <;> rfl
  · rw [h5]
    show (nop_token_step S).1.migr_token = _
    rw [htok]
    split <;> exact htoken
  · rw [h5]
    show (nop_token_step S).1.migr_token_hops = _
    rw [htok]
    split <;> rfl
  · rw [h5]
    show (nop_token_step S).1.current_migr = _
    rw [htok]
    split <;> exact hcur
  · rw [h5]
    show (nop_token_step S).1.migr_edge_acks = _
    rw [htok]
    split <;> rfl
  · rw [h5]
    show (nop_token_step S).1.max_done_id.set _ _ = _
    rw [htok]
    split <;> rfl

/-- After `max_done_id[vt_id]` was assigned a value, every entry is bounded by any bound
of that value and of the earlier entries. -/
theorem getD_set_le (l : List Nat) (i m bound : Nat) (hm : m ≤ bound)
    (hl : ∀ v, l.getD v 0 ≤ bound) : ∀ v, (l.set i m).getD v 0 ≤ bound := by
  intro v
  rw [getD_set]
  split
  · exact hm
  · exact hl v

/-- C23: at a shard that holds the token with `migr_token_hops > 0`, `migrated = false` and
`migr_chance = 0`, while no migration is in progress and some acknowledgement bit is
clear, four heartbeats are processed one after the other, each passing the assertion of
`nop` on the entry of `max_done_id` of its own timestamper (the entry on record when the
heartbeat arrives is at most the value the heartbeat carries). The first three leave
`check_init_migr` false, call none of the migration functions and increment
`migr_chance` to 1, 2 and 3; the fourth makes `check_init_migr` true, sets `migrated`,
resets `migr_chance` to 0 and calls `shard_daemon_begin`. -/
theorem nop_initiates_on_fourth {P NS : Type} (C : weaver_constants) (S : shard P NS)
    (a1 a2 a3 a4 : nop_data) (hchance : S.migr_chance = 0) (htoken : S.migr_token = true)
    (hhops : 0 < S.migr_token_hops) (hmigrated : S.migrated = false)
    (hcur : S.current_migr = false) (hacks : S.migr_edge_acks.all id = false)
    (hd1 : S.max_done_id.getD a1.vt_id 0 ≤ a1.max_done_id)
    (hd2 : (S.max_done_id.set a1.vt_id a1.max_done_id).getD a2.vt_id 0 ≤ a2.max_done_id)
    (hd3 : ((S.max_done_id.set a1.vt_id a1.max_done_id).set a2.vt_id
        a2.max_done_id).getD a3.vt_id 0 ≤ a3.max_done_id)
    (hd4 : (((S.max_done_id.set a1.vt_id a1.max_done_id).set a2.vt_id
        a2.max_done_id).set a3.vt_id a3.max_done_id).getD a4.vt_id 0 ≤ a4.max_done_id) :
    ∃ r1 r2 r3 r4 : nop_result P NS,
      nop C S a1 = Except.ok r1 ∧ nop C r1.S a2 = Except.ok r2
      ∧ nop C r2.S a3 = Except.ok r3 ∧ nop C r3.S a4 = Except.ok r4
      ∧ r1.check_init_migr = false ∧ dispatch r1 = none ∧ r1.S.migr_chance = 1
      ∧ r2.check_init_migr = false ∧ dispatch r2 = none ∧ r2.S.migr_chance = 2
      ∧ r3.check_init_migr = false ∧ dispatch r3 = none ∧ r3.S.migr_chance = 3
      ∧ r4.check_init_migr = true ∧ r4.S.migrated = true ∧ r4.S.migr_chance = 0
      ∧ dispatch r4 = some nop_call.shard_daemon_begin := by
  obtain ⟨r1, e1, m1, s1, i1, g1, c1, t1, h1, u1, k1, d1⟩ :=
    nop_token_round C S a1 htoken (by omega) hmigrated hcur hacks hd1
  rw [hchance] at i1 g1 c1
  simp only [show ¬ (2 < 0) by omega, decide_False, if_false, Nat.zero_add] at i1 g1 c1
  rw [← d1] at hd2 hd3 hd4
  obtain ⟨r2, e2, m2, s2, i2, g2, c2, t2, h2, u2, k2, d2⟩ :=
    nop_token_round C r1.S a2 t1 (by rw [h1]; omega) g1 u1 (by rw [k1]; exact hacks) hd2
  rw [c1] at i2 g2 c2
  simp only [show ¬ (2 < 1) by omega, decide_False, if_false] at i2 g2 c2
  rw [← d2] at hd3 hd4
  obtain ⟨r3, e3, m3, s3, i3, g3, c3, t3, h3, u3, k3, d3⟩ :=
    nop_token_round C r2.S a3 t2 (by rw [h2, h1]; omega) g2 u2
      (by rw [k2, k1]; exact hacks) hd3
  rw [c2] at i3 g3 c3
  simp only [show ¬ (2 < 1 + 1) by omega, decide_False, if_false] at i3 g3 c3
  rw [← d3] at hd4
  obtain ⟨r4, e4, m4, s4, i4, g4, c4, -, -, -, -, -⟩ :=
    nop_token_round C r3.S a4 t3 (by rw [h3, h2, h1]; omega) g3 u3
      (by rw [k3, k2, k1]; exact hacks) hd4
  rw [c3] at i4 g4 c4
  simp only [show 2 < 1 + 1 + 1 by omega, decide_True, if_true] at i4 g4 c4
  refine ⟨r1, r2, r3, r4, e1, e2, e3, e4, i1, ?_, c1, i2, ?_, c2, i3, ?_, c3, i4, g4, c4, ?_⟩
  · simp [dispatch, m1, i1, s1]
  · simp [dispatch, m2, i2, s2]
  · simp [dispatch, m3, i3, s3]
  · simp [dispatch, m4, i4]

/-- Witness for C23: the timestampers 0 and 1 have the done requests 100 and 5 on record
at the shard that has just received the token, and their heartbeats report 100, 5, 103
and 5. -/
theorem nop_initiates_on_fourth_witness :
    ∃ r1 r2 r3 r4 : nop_result Nat Unit,
      nop two_vts busy_token_receiver (heartbeat_done 0 100) = Except.ok r1
      ∧ nop two_vts r1.S (heartbeat_done 1 5) = Except.ok r2
      ∧ nop two_vts r2.S (heartbeat_done 0 103) = Except.ok r3
      ∧ nop two_vts r3.S (heartbeat_done 1 5) = Except.ok r4
      ∧ r1.check_init_migr = false ∧ dispatch r1 = none ∧ r1.S.migr_chance = 1
      ∧ r2.check_init_migr = false ∧ dispatch r2 = none ∧ r2.S.migr_chance = 2
      ∧ r3.check_init_migr = false ∧ dispatch r3 = none ∧ r3.S.migr_chance = 3
      ∧ r4.check_init_migr = true ∧ r4.S.migrated = true ∧ r4.S.migr_chance = 0
      ∧ dispatch r4 = some nop_call.shard_daemon_begin :=
  nop_initiates_on_fourth two_vts busy_token_receiver (heartbeat_done 0 100)
    (heartbeat_done 1 5) (heartbeat_done 0 103) (heartbeat_done 1 5) rfl rfl (by decide) rfl
    rfl (by decide) (by decide) (by decide) (by decide) (by decide)

/-! ### Delivery of the results of a node program -/

/-- The params returned to the timestamper by a trace in two parts. -/
theorem returns_sent_append {P : Type} (l1 l2 : List (event P)) :
    returns_sent (l1 ++ l2) = returns_sent l1 ++ returns_sent l2 := by
  induction l1 with
  | nil => rfl
  | cons e rest ih => cases e <;> simp [returns_sent, ih]

/-- The params returned by a run of `NODE_PROG_RETURN` messages. -/
theorem returns_sent_returns {P : Type} (vt_id prog_type req_id : Nat)
    (l : List (remote_node × P)) :
    returns_sent (l.map (fun res => event.send_node_prog_return vt_id prog_type req_id res.2))
      = l.map Prod.snd := by
  induction l with
  | nil => rfl
  | cons a rest ih => simp [returns_sent, ih]

/-- Messages to shards return nothing to the timestamper. -/
theorem returns_sent_sends {P : Type} (f : Nat → node_prog_msg P) (l : List Nat) :
    returns_sent (l.map (fun x => event.send_node_prog x (f x))) = [] := by
  induction l with
  | nil => rfl
  | cons a rest ih => simpa [returns_sent] using ih

/-- C30, counterexample: on shard 1 of the shards 1 and 2, a request of timestamper 0
visits node 7, whose program returns one pair for location 9, which is neither the
timestamper nor a shard: `unpack_and_run_db` calls the program, sends nothing and returns;
the pair is batched under location 9 and dropped. -/
theorem unpack_and_run_db_drops_unknown_destination :
    (∀ fuel, trace_of (unpack_and_run_db two_shards
          (example_env (fun _ => [{ loc := 9, handle := 20 }])) (fuel + 2) shard_with_late_node
          (example_msg 6 [{ handle := 7, params := 0, prev := { loc := 0, handle := 0 } }]))
        = some [event.call_node_prog 7 { creat_time := clock_at 5, del_time := never } 0])
    ∧ (∀ fuel, returned_of (unpack_and_run_db two_shards
          (example_env (fun _ => [{ loc := 9, handle := 20 }])) (fuel + 2) shard_with_late_node
          (example_msg 6 [{ handle := 7, params := 0, prev := { loc := 0, handle := 0 } }]))
        = some true)
    ∧ 9 ∉ shard_ids two_shards
    ∧ (example_msg 6 [{ handle := 7, params := 0, prev := { loc := 0, handle := 0 } }]).vt_id
        ≠ 9 := by
  refine ⟨fun fuel => rfl, fun fuel => rfl, by decide, by decide⟩

/-- C30, amended: a call of the node program made while the batches of the other shards
are empty (as they are when `unpack_and_run_db` starts, and again after every call)
delivers every returned pair whose destination is the requesting timestamper, another
shard of the deployment or this shard exactly once: the params of the pairs with
`loc = vt_id` are sent back as `NODE_PROG_RETURN`, in order; the other pairs for a shard
`loc` other than this one go, in order, into the one `NODE_PROG` sent to `loc`; the other
pairs for this shard are appended to its batch, which the end of the iteration makes the
start tuples of the next one and which no visit without a call changes. A pair for any
other location is sent nowhere. -/
theorem call_prog_delivers {P NS : Type} (C : weaver_constants) (E : prog_env P NS)
    (m : node_prog_msg P) (t : node_params_t P) (n : node) (st : run_state P NS)
    (hempty : ∀ loc ∈ shard_ids C, loc ≠ st.S.shard_id → st.batched_node_progs loc = []) :
    (∃ tail, (call_prog C E m t n st).trace
          = st.trace ++ event.call_node_prog t.handle n t.params :: tail
      ∧ returns_sent tail
          = ((prog_result E m t n st.S).next.filter
              (fun res => decide (res.1.loc = m.vt_id))).map Prod.snd
      ∧ (∀ loc ∈ shard_ids C, loc ≠ st.S.shard_id →
          node_progs_sent_to loc tail
            = if (outputs_for m (this_node_of st.S t) (prog_result E m t n st.S).next
                    loc).isEmpty = false
              then [{ m with global_req := false,
                             start_node_params :=
                               outputs_for m (this_node_of st.S t)
                                 (prog_result E m t n st.S).next loc }]
              else [])
      ∧ (∀ loc, loc ∉ shard_ids C ∨ loc = st.S.shard_id → node_progs_sent_to loc tail = []))
    ∧ (call_prog C E m t n st).S.shard_id = st.S.shard_id
    ∧ (call_prog C E m t n st).batched_node_progs st.S.shard_id
        = st.batched_node_progs st.S.shard_id
          ++ outputs_for m (this_node_of st.S t) (prog_result E m t n st.S).next st.S.shard_id
    ∧ (∀ loc ∈ shard_ids C, loc ≠ st.S.shard_id →
        (call_prog C E m t n st).batched_node_progs loc = [])
    ∧ (∀ st1 : run_state P NS,
        (end_hop E m st1).1 = st1.batched_node_progs st1.S.shard_id)
    ∧ ∀ (t1 : node_params_t P) (st1 : run_state P NS),
        (acquire_node st1.S t1.handle = none
          ∨ (∃ n1, acquire_node st1.S t1.handle = some n1
              ∧ (E.compare_two_vts n1.del_time m.req_vclock = 0
                ∨ n1.state = mode.IN_TRANSIT ∨ n1.state = mode.MOVED))) →
        (visit_node C E m t1 st1).1.batched_node_progs = st1.batched_node_progs := by
  refine ⟨?_, ?_, ?_, ?_, fun st1 => rfl, ?_⟩
  · unfold call_prog
    obtain ⟨-, -, -, s4⟩ := store_node_state_frame st.S (m.prog_type, m.req_id, t.handle)
      (prog_result E m t n st.S).state
    generalize hst1 : ({ st with
          S := record_result m t (prog_result E m t n st.S) st.S,
          trace := st.trace ++ [event.call_node_prog t.handle n t.params] } : run_state P NS)
        = st1
    have ht1 : st1.trace = st.trace ++ [event.call_node_prog t.handle n t.params] := by
      rw [← hst1]
    have hS1 : st1.S.shard_id = st.S.shard_id := by rw [← hst1]; exact s4
    have hb1 : st1.batched_node_progs = st.batched_node_progs := by rw [← hst1]
    obtain ⟨g1, g2, g3, -⟩ := batch_results_spec m t.handle (this_node_of st.S t)
      (prog_result E m t n st.S).next st1
    generalize batch_results m t.handle (this_node_of st.S t)
      (prog_result E m t n st.S).next st1 = st2 at g1 g2 g3 ⊢
    obtain ⟨f1, -, -, -⟩ := flush_batches_spec m (shard_ids C) (shard_ids_nodup C) st2
    have e3 : st2.S.shard_id = st.S.shard_id := by rw [g3]; exact hS1
    have hb2 : ∀ loc, loc ∈ shard_ids C → loc ≠ st.S.shard_id → st2.batched_node_progs loc
        = outputs_for m (this_node_of st.S t) (prog_result E m t n st.S).next loc := by
      intro loc hin hne
      rw [g2 loc, hb1, hempty loc hin hne]
      rfl
    refine ⟨(List.map (fun res => event.send_node_prog_return m.vt_id m.prog_type m.req_id res.2)
          (List.filter (fun res => decide (res.1.loc = m.vt_id)) (prog_result E m t n st.S).next))
        ++ (List.map (fun l => event.send_node_prog l (repack m (st2.batched_node_progs l)))
          (List.filter (fun l => !(st2.batched_node_progs l).isEmpty
            && decide (l ≠ st2.S.shard_id)) (shard_ids C))), ?_, ?_, ?_, ?_⟩
    · rw [f1, g1, ht1]
      simp only [List.append_assoc, List.singleton_append, List.cons_append, List.nil_append]
    · rw [returns_sent_append, returns_sent_returns, returns_sent_sends, List.append_nil]
    · intro loc hin hne
      rw [node_progs_sent_to_append, node_progs_sent_to_returns,
        node_progs_sent_to_sends loc _ _ ((shard_ids_nodup C).filter _)]
      simp only [List.nil_append, List.mem_filter, Bool.and_eq_true,
        Bool.not_eq_true', decide_eq_true_eq, e3]
      rw [hb2 loc hin hne]
      by_cases hout : (outputs_for m (this_node_of st.S t)
          (prog_result E m t n st.S).next loc).isEmpty = false
      · rw [if_pos ⟨hin, hout, hne⟩, if_pos hout]
        rfl
      · rw [if_neg (fun h => hout h.2.1), if_neg hout]
    · intro loc hloc
      rw [node_progs_sent_to_append, node_progs_sent_to_returns,
        node_progs_sent_to_sends loc _ _ ((shard_ids_nodup C).filter _)]
      simp only [List.nil_append, List.mem_filter, Bool.and_eq_true,
        Bool.not_eq_true', decide_eq_true_eq, e3]
      rw [if_neg]
      rintro ⟨hin, -, hne⟩
      rcases hloc with h | h
      · exact h hin
      · exact hne h
  · unfold call_prog
    obtain ⟨-, -, -, s4⟩ := store_node_state_frame st.S (m.prog_type, m.req_id, t.handle)
      (prog_result E m t n st.S).state
    generalize hst1 : ({ st with
          S := record_result m t (prog_result E m t n st.S) st.S,
          trace := st.trace ++ [event.call_node_prog t.handle n t.params] } : run_state P NS)
        = st1
    have hS1 : st1.S.shard_id = st.S.shard_id := by rw [← hst1]; exact s4
    obtain ⟨-, -, g3, -⟩ := batch_results_spec m t.handle (this_node_of st.S t)
      (prog_result E m t n st.S).next st1
    generalize batch_results m t.handle (this_node_of st.S t)
      (prog_result E m t n st.S).next st1 = st2 at g3 ⊢
    obtain ⟨-, -, f3, -⟩ := flush_batches_spec m (shard_ids C) (shard_ids_nodup C) st2
    rw [f3, g3]
    exact hS1
  · unfold call_prog
    obtain ⟨-, -, -, s4⟩ := store_node_state_frame st.S (m.prog_type, m.req_id, t.handle)
      (prog_result E m t n st.S).state
    generalize hst1 : ({ st with
          S := record_result m t (prog_result E m t n st.S) st.S,
          trace := st.trace ++ [event.call_node_prog t.handle n t.params] } : run_state P NS)
        = st1
    have hS1 : st1.S.shard_id = st.S.shard_id := by rw [← hst1]; exact s4
    have hb1 : st1.batched_node_progs = st.batched_node_progs := by rw [← hst1]
    obtain ⟨-, g2, g3, -⟩ := batch_results_spec m t.handle (this_node_of st.S t)
      (prog_result E m t n st.S).next st1
    generalize batch_results m t.handle (this_node_of st.S t)
      (prog_result E m t n st.S).next st1 = st2 at g2 g3 ⊢
    obtain ⟨-, f2, -, -⟩ := flush_batches_spec m (shard_ids C) (shard_ids_nodup C) st2
    have e3 : st2.S.shard_id = st.S.shard_id := by rw [g3]; exact hS1
    rw [f2, e3, if_neg (fun h => h.2 rfl), g2, hb1]
    rfl
  · intro loc hin hne
    unfold call_prog
    obtain ⟨-, -, -, s4⟩ := store_node_state_frame st.S (m.prog_type, m.req_id, t.handle)
      (prog_result E m t n st.S).state
    generalize hst1 : ({ st with
          S := record_result m t (prog_result E m t n st.S) st.S,
          trace := st.trace ++ [event.call_node_prog t.handle n t.params] } : run_state P NS)
        = st1
    have hS1 : st1.S.shard_id = st.S.shard_id := by rw [← hst1]; exact s4
    obtain ⟨-, -, g3, -⟩ := batch_results_spec m t.handle (this_node_of st.S t)
      (prog_result E m t n st.S).next st1
    generalize batch_results m t.handle (this_node_of st.S t)
      (prog_result E m t n st.S).next st1 = st2 at g3 ⊢
    obtain ⟨-, f2, -, -⟩ := flush_batches_spec m (shard_ids C) (shard_ids_nodup C) st2
    have e3 : st2.S.shard_id = st.S.shard_id := by rw [g3]; exact hS1
    rw [f2, e3, if_pos ⟨hin, hne⟩]
  · intro t1 st1 h
    unfold visit_node
    rcases h with h | ⟨n1, h, h2⟩
    · rw [h]
    · rw [h]
      simp only
      by_cases hd : E.compare_two_vts n1.del_time m.req_vclock = 0
      · rw [if_pos hd]
      · rw [if_neg hd]
        rcases h2 with h2 | h2
        · exact absurd h2 hd
        · rw [if_pos h2]

/-- Witness for C30 (amended): the call of the node program on node 7 right after the
start of `unpack_and_run_db`, the program returning one pair for this shard. -/
theorem call_prog_delivers_witness :
    (∀ loc ∈ shard_ids two_shards,
        loc ≠ (start_state (example_env (fun _ => [{ loc := 1, handle := 8 }]))
          shard_with_two_nodes (example_msg 6 [])).S.shard_id →
        (start_state (example_env (fun _ => [{ loc := 1, handle := 8 }]))
          shard_with_two_nodes (example_msg 6 [])).batched_node_progs loc = [])
    ∧ (call_prog two_shards (example_env (fun _ => [{ loc := 1, handle := 8 }]))
          (example_msg 6 []) { handle := 7, params := 0, prev := { loc := 0, handle := 0 } }
          { creat_time := clock_at 5, del_time := never }
          (start_state (example_env (fun _ => [{ loc := 1, handle := 8 }]))
            shard_with_two_nodes (example_msg 6 []))).batched_node_progs
        (start_state (example_env (fun _ => [{ loc := 1, handle := 8 }]))
          shard_with_two_nodes (example_msg 6 [])).S.shard_id
      = (start_state (example_env (fun _ => [{ loc := 1, handle := 8 }]))
          shard_with_two_nodes (example_msg 6 [])).batched_node_progs
          (start_state (example_env (fun _ => [{ loc := 1, handle := 8 }]))
            shard_with_two_nodes (example_msg 6 [])).S.shard_id
        ++ outputs_for (example_msg 6 [])
            (this_node_of
              (start_state (example_env (fun _ => [{ loc := 1, handle := 8 }]))
                shard_with_two_nodes (example_msg 6 [])).S
              { handle := 7, params := 0, prev := { loc := 0, handle := 0 } })
            (prog_result (example_env (fun _ => [{ loc := 1, handle := 8 }]))
              (example_msg 6 []) { handle := 7, params := 0, prev := { loc := 0, handle := 0 } }
              { creat_time := clock_at 5, del_time := never }
              (start_state (example_env (fun _ => [{ loc := 1, handle := 8 }]))
                shard_with_two_nodes (example_msg 6 [])).S).next
            (start_state (example_env (fun _ => [{ loc := 1, handle := 8 }]))
              shard_with_two_nodes (example_msg 6 [])).S.shard_id :=
  ⟨fun _ _ _ => rfl,
   (call_prog_delivers two_shards (example_env (fun _ => [{ loc := 1, handle := 8 }]))
      (example_msg 6 []) { handle := 7, params := 0, prev := { loc := 0, handle := 0 } }
      { creat_time := clock_at 5, del_time := never }
      (start_state (example_env (fun _ => [{ loc := 1, handle := 8 }]))
        shard_with_two_nodes (example_msg 6 []))
      (fun _ _ _ => rfl)).2.2.1⟩

/-! ### The migration state machine -/

end Weaver
